import Mathlib

/-!
# gochute: credential store, availability index, invitation engine

A shallow embedding of `profile/profile.go` (package `profile`) and
`controllers.go` / `start.go` (package `main`).

Conventions of the embedding.

* The PostgreSQL database behind `dbmap` is an explicit `Store` value: one list of
  rows per table, in insertion order, plus the next value of every serial key.
  Every function that touches `dbmap` takes the store and returns the new one.
* The store is reliable: a statement fails only for a reason the code itself
  reacts to (no row, several rows, a violated unique key).
* A Go pointer receiver that is mutated is returned as a new value.
* `time.Now()`, `token()` and the bcrypt salt are arguments of the function
  that draws them.
* `string` and `[]byte` are both `String`; a nil slice and an empty slice coincide.
* SHA-512, hex encoding and bcrypt are the fields of a `Crypto` record.
-/

/-- Instants of `time.Time`; `Before` is `<`. -/
abbrev Time := Int

/-- Go `error` values that occur in the two packages. The code tests errors by
looking for a fragment of their text; each fragment identifies one constructor. -/
inductive GoError
  /-- The error `sql.ErrNoRows` ("sql: no rows in result set"). -/
  | noRows
  /-- What gorp reports when `SelectOne` meets more than one row. -/
  | multipleRows
  /-- Text "pq: duplicate key value violates unique constraint". -/
  | uniqueViolation
  /-- The error `bcrypt.ErrMismatchedHashAndPassword`. -/
  | mismatchedHashAndPassword
  /-- A failure of `bcrypt.GenerateFromPassword`. -/
  | bcryptFailure
  /-- The value `errors.New(NotFoundError)`. -/
  | notFound
  /-- The value `errors.New(DuplicateFreetimeError)`. -/
  | duplicateFreetime
  /-- The "didn't update 1 row? count: " family, with the table and the count. -/
  | rowCount (table : String) (count : Nat)
  /-- The value `errors.New("Profile utype cannot be empty")`. -/
  | emptyUtypes
  /-- An error of the S3 client or of reading the uploaded file. -/
  | s3Failure
  deriving DecidableEq, Repr

instance instDecidableEqExcept {ε α : Type} [DecidableEq ε] [DecidableEq α] :
    DecidableEq (Except ε α)
  | .ok a, .ok b => if h : a = b then isTrue (by rw [h]) else isFalse (fun h1 => h (Except.ok.inj h1))
  | .error a, .error b =>
    if h : a = b then isTrue (by rw [h]) else isFalse (fun h1 => h (Except.error.inj h1))
  | .ok _, .error _ => isFalse (fun h => Except.noConfusion h)
  | .error _, .ok _ => isFalse (fun h => Except.noConfusion h)

/-- The cryptographic primitives the package calls. -/
structure Crypto where
  /-- The function `sha512.Sum512`. -/
  Sum512 : String → String
  /-- The function `hex.EncodeToString`. -/
  EncodeToString : String → String
  /-- The function `bcrypt.GenerateFromPassword` at the default cost; the first
  argument is the salt it draws. -/
  GenerateFromPassword : String → String → Except GoError String
  /-- The function `bcrypt.CompareHashAndPassword hashed password`; `none` is a nil error. -/
  CompareHashAndPassword : String → String → Option GoError

/-- The oracle reading of bcrypt: a generated hash compares successfully with a
probe exactly when the probe is the hashed secret. -/
def Crypto.BcryptOracle (k : Crypto) : Prop :=
  ∀ salt pw h, k.GenerateFromPassword salt pw = .ok h →
    ∀ probe, k.CompareHashAndPassword h probe = none ↔ probe = pw

namespace profile

def TokenLength : Nat := 40
def UsernamelessSalt : String := "nx7sn3ks67La72&2"
def PhotoExpirationSeconds : Int := 300
def BaseBucket : String := "chuteprofilephotos"

/-- The type `Status` is a string. -/
abbrev Status := String

def StatusPending : Status := "Pending"
def StatusAccepted : Status := "Accepted"
def StatusDeclined : Status := "Declined"

/-- The map `Statuses`; a missing key reads as `false`. -/
def Statuses (s : Status) : Bool :=
  s == StatusPending || s == StatusAccepted || s == StatusDeclined

/-- The columns of table `auth` (all fields of `Auth` but `InHash`, tagged `db:"-"`). -/
structure AuthRow where
  Hash : String
  Created : Option Time
  Updated : Option Time
  LastAuth : Option Time
  Profile : Int
  Name : String
  Username : Option String
  Token : Option String
  Authorized : Bool
  deriving DecidableEq, Repr

/-- The struct `Auth`. -/
structure Auth extends AuthRow where
  InHash : String
  deriving DecidableEq, Repr

structure Utype where
  Id : Int
  Name : String
  deriving DecidableEq, Repr

structure Flag where
  Id : Int
  Name : String
  deriving DecidableEq, Repr

/-- The columns of table `profile`. Latitude and longitude are `float32` values that
are only stored and copied; they are carried as their bit patterns. -/
structure ProfileRow where
  Id : Int
  Created : Time
  Updated : Time
  Latitude : Nat
  Longitude : Nat
  Email : Option String
  Phone : Option String
  Name : Option String
  Folder : String
  deriving DecidableEq, Repr

/-- The struct `Profile`: the row and the three fields tagged `db:"-"`. -/
structure Profile extends ProfileRow where
  Auth : Option Auth
  Utypes : List Utype
  Flags : List Flag
  deriving DecidableEq, Repr

structure Photo where
  Id : Int
  Profile : Int
  Created : Time
  Href : String
  Caption : String
  deriving DecidableEq, Repr

structure Freetime where
  Id : Int
  Profile : Int
  Created : Time
  Start : Time
  End : Time
  deriving DecidableEq, Repr

structure Attendee extends Profile where
  Status : Status
  deriving DecidableEq, Repr

structure Message where
  Id : Int
  Sent : Time
  Sender : Int
  Invite : Int
  Photo : Option Int
  Body : String
  deriving DecidableEq, Repr

/-- The columns of table `invite`. -/
structure InviteRow where
  Id : Int
  Organizer : Int
  Active : Bool
  Start : Time
  End : Option Time
  Created : Time
  Place : String
  deriving DecidableEq, Repr

/-- The struct `Invite`: the row and the two fields tagged `db:"-"`. -/
structure Invite extends InviteRow where
  Attendees : List Attendee
  Messages : List Message
  deriving DecidableEq, Repr

/-- A row of `profile_invite`, in the column order of
`insert into profile_invite values ($1, $2, $3)`. -/
structure ProfileInvite where
  profile : Int
  invite : Int
  status : String
  deriving DecidableEq, Repr

/-- A row of `profile_flag`, in the column order of
`insert into profile_flag values ($1, $2)`. -/
structure ProfileFlag where
  flag : Int
  profile : Int
  deriving DecidableEq, Repr

/-- A row of `profile_utype`, in the column order of
`insert into profile_utype values ($1, $2)`. -/
structure ProfileUtype where
  utype : Int
  profile : Int
  deriving DecidableEq, Repr

/-- The database behind `dbmap`. -/
structure Store where
  profile : List ProfileRow
  auth : List AuthRow
  photo : List Photo
  free : List Freetime
  utype : List Utype
  flag : List Flag
  invite : List InviteRow
  message : List Message
  profile_invite : List ProfileInvite
  profile_flag : List ProfileFlag
  profile_utype : List ProfileUtype
  nextProfileId : Int
  nextPhotoId : Int
  nextFreeId : Int
  nextInviteId : Int
  nextMessageId : Int
  deriving DecidableEq, Repr

/-- A database with no rows whose serial keys start at 1. -/
def Store.empty : Store :=
  { profile := [], auth := [], photo := [], free := [], utype := [], flag := [],
    invite := [], message := [], profile_invite := [], profile_flag := [],
    profile_utype := [], nextProfileId := 1, nextPhotoId := 1, nextFreeId := 1,
    nextInviteId := 1, nextMessageId := 1 }

/-- SQL `column = $n` on a nullable column and a nullable argument: NULL equals nothing. -/
def sqlEq {α : Type} [DecidableEq α] (col arg : Option α) : Bool :=
  match col, arg with
  | some x, some y => decide (x = y)
  | _, _ => false

/-- The result of gorp `SelectOne` on the rows a query returns. -/
def SelectOne {α : Type} (rows : List α) : Except GoError α :=
  match rows with
  | [] => .error .noRows
  | [r] => .ok r
  | _ :: _ :: _ => .error .multipleRows

end profile

namespace profile

/-- NewAuth dereferences `h`; `none` is the nil-pointer panic of a nil `h`. -/
def NewAuth (h u : Option String) : Option Auth :=
  match h with
  | none => none
  | some inHash =>
    some { Hash := "", Created := none, Updated := none, LastAuth := none, Profile := 0,
           Name := "", Username := u, Token := none, Authorized := false, InHash := inHash }

/-- The zero value `Auth{}`, as made by `new(profile.Auth)`. -/
def Auth.zero : Auth :=
  { Hash := "", Created := none, Updated := none, LastAuth := none, Profile := 0,
    Name := "", Username := none, Token := none, Authorized := false, InHash := "" }

/-- The zero value `Profile{}`, as made by `new(profile.Profile)`. -/
def Profile.zero : Profile :=
  { Id := 0, Created := 0, Updated := 0, Latitude := 0, Longitude := 0, Email := none,
    Phone := none, Name := none, Folder := "", Auth := none, Utypes := [], Flags := [] }

/-- What gorp builds from a row of `auth`: the unmapped `InHash` is zero. -/
def AuthRow.scan (r : AuthRow) : Auth := { toAuthRow := r, InHash := "" }

/-- What gorp builds from a row of `profile`: the unmapped fields are zero. -/
def ProfileRow.scan (r : ProfileRow) : Profile :=
  { toProfileRow := r, Auth := none, Utypes := [], Flags := [] }

/-- The function `hash`; `salt` is the randomness bcrypt draws. -/
def hash (k : Crypto) (salt : String) (h : String) (u : Option String) : Except GoError String :=
  match u with
  | none => .ok (k.EncodeToString (k.Sum512 (UsernamelessSalt ++ h)))
  | some _ => k.GenerateFromPassword salt h

/-- PostGet of `Profile`: the two selects append to the slices already in `p`. -/
def Profile.PostGet (s : Store) (p : Profile) : Except GoError Profile :=
  let fs := s.flag.filter (fun f => s.profile_flag.any (fun pf => pf.flag == f.Id && pf.profile == p.Id))
  let ts := s.utype.filter (fun t => s.profile_utype.any (fun pt => pt.utype == t.Id && pt.profile == p.Id))
  .ok { p with Flags := p.Flags ++ fs, Utypes := p.Utypes ++ ts }

/-- Rows of `select * from auth where hash = $1`. -/
def Store.authByHash (s : Store) (h : String) : List AuthRow :=
  s.auth.filter (fun r => r.Hash == h)

/-- Rows of `select * from auth where token = $1`. -/
def Store.authByToken (s : Store) (t : Option String) : List AuthRow :=
  s.auth.filter (fun r => sqlEq r.Token t)

/-- Rows of `select * from auth where username = $1`. -/
def Store.authByUsername (s : Store) (u : Option String) : List AuthRow :=
  s.auth.filter (fun r => sqlEq r.Username u)

/-- GetWithHash: `SelectOne` overwrites the whole of `a`. -/
def Auth.GetWithHash (k : Crypto) (s : Store) (a : Auth) : Except GoError Auth :=
  let hash := k.EncodeToString (k.Sum512 (UsernamelessSalt ++ a.InHash))
  match SelectOne (s.authByHash hash) with
  | .error e => .error e
  | .ok r => .ok r.scan

/-- GetWithToken: `SelectOne` overwrites the whole of `a`. -/
def Auth.GetWithToken (s : Store) (a : Auth) : Except GoError Auth :=
  match SelectOne (s.authByToken a.Token) with
  | .error e => .error e
  | .ok r => .ok r.scan

/-- GetWithUsername: `InHash` is saved before `SelectOne` and put back after it. -/
def Auth.GetWithUsername (s : Store) (a : Auth) : Except GoError Auth :=
  let inHash := a.InHash
  match SelectOne (s.authByUsername a.Username) with
  | .error e => .error e
  | .ok r => .ok { r.scan with InHash := inHash }

/-- Get of `Auth`; on an error `a` is left as it was. -/
def Auth.Get (k : Crypto) (s : Store) (a : Auth) : Except GoError Auth :=
  if a.Token ≠ none then Auth.GetWithToken s a
  else if a.Username = none then Auth.GetWithHash k s a
  else Auth.GetWithUsername s a

/-- Authenticated: the result is `err != nil` of the bcrypt comparison. -/
def Auth.Authenticated (k : Crypto) (a : Auth) : Bool :=
  if a.Username = none then true
  else
    let err := k.CompareHashAndPassword a.Hash a.InHash
    err != none

/-- The statement `dbmap.Update(a)` on table `auth` (key `Hash`): the count of rows and the new store. -/
def Store.UpdateAuth (s : Store) (a : Auth) : Nat × Store :=
  ((s.authByHash a.Hash).length,
   { s with auth := s.auth.map (fun r => if r.Hash = a.Hash then a.toAuthRow else r) })

/-- The statement `dbmap.Insert(a)` on table `auth`, whose key `Hash` is unique. -/
def Store.InsertAuth (s : Store) (a : Auth) : Except GoError Unit × Store :=
  if s.auth.any (fun r => r.Hash == a.Hash) then (.error .uniqueViolation, s)
  else (.ok (), { s with auth := s.auth ++ [a.toAuthRow] })

/-- Login of `Auth`; `t` is the value of `token()`. -/
def Auth.Login (now : Time) (t : String) (s : Store) (a : Auth) : Except GoError String × Auth × Store :=
  let a1 : Auth := { a with Token := some t, LastAuth := some now, Updated := some now }
  let (count, s1) := s.UpdateAuth a1
  if count ≠ 1 then (.error (.rowCount "login Auth" count), a1, s1)
  else (.ok t, a1, s1)

/-- Logout of `Auth`. -/
def Auth.Logout (now : Time) (s : Store) (a : Auth) : Except GoError Unit × Auth × Store :=
  let a1 : Auth := { a with Token := none, Updated := some now }
  let (count, s1) := s.UpdateAuth a1
  if count ≠ 1 then (.error (.rowCount "logout Auth" count), a1, s1)
  else (.ok (), a1, s1)

/-- Save of `Auth`. -/
def Auth.Save (now : Time) (s : Store) (a : Auth) : Except GoError Unit × Auth × Store :=
  let a1 : Auth := { a with Updated := some now }
  let (count, s1) := s.UpdateAuth a1
  if count ≠ 1 then (.error (.rowCount "update Auth" count), a1, s1)
  else (.ok (), a1, s1)

/-- Create of `Auth`; `t` is the value of `token()`, `salt` the randomness of bcrypt. -/
def Auth.Create (k : Crypto) (now : Time) (t salt : String) (s : Store) (a : Auth) :
    Except GoError Unit × Auth × Store :=
  let a1 : Auth := { a with Created := some now, Updated := some now, LastAuth := some now,
                            Token := some t, Authorized := true }
  match hash k salt a1.InHash a1.Username with
  | .error e => (.error e, a1, s)
  | .ok h =>
    let a2 : Auth := { a1 with Hash := h }
    let (r, s1) := s.InsertAuth a2
    (r, a2, s1)

/-- PostInsert of `Profile`: the rows of `profile_flag` and `profile_utype`. -/
def Profile.PostInsert (s : Store) (p : Profile) : Except GoError Unit × Profile × Store :=
  let s1 : Store := { s with profile_flag := s.profile_flag ++ p.Flags.map (fun f => ⟨f.Id, p.Id⟩) }
  let p1 : Profile := if p.Utypes.length = 0 then { p with Utypes := p.Utypes ++ [⟨1, "Model"⟩] } else p
  let s2 : Store := { s1 with profile_utype := s1.profile_utype ++ p1.Utypes.map (fun t => ⟨t.Id, p.Id⟩) }
  (.ok (), p1, s2)

/-- The statement `dbmap.Insert(p)` on table `profile`: the serial key is drawn,
the row stored and the `PostInsert` hook run. -/
def Store.InsertProfile (s : Store) (p : Profile) : Except GoError Unit × Profile × Store :=
  let p1 : Profile := { p with Id := s.nextProfileId }
  let s1 : Store := { s with profile := s.profile ++ [p1.toProfileRow],
                             nextProfileId := s.nextProfileId + 1 }
  Profile.PostInsert s1 p1

/-- Create of `Profile`; `folder` is the value of `token()`. -/
def Profile.Create (now : Time) (folder : String) (s : Store) (p : Profile) :
    Except GoError Unit × Profile × Store :=
  let p1 : Profile := { p with Created := now, Updated := now, Folder := folder }
  s.InsertProfile p1

/-- Get of `Profile`: `SelectOne` runs the `PostGet` hook on the row it found. -/
def Profile.Get (s : Store) (_p : Profile) (a : profile.Auth) : Except GoError Profile :=
  match SelectOne (s.profile.filter (fun r => r.Id == a.Profile)) with
  | .error e => .error e
  | .ok r =>
    match Profile.PostGet s r.scan with
    | .error e => .error e
    | .ok p1 => .ok { p1 with Auth := some a }

/-- GetProfile: `dbmap.Get` by key, with the `PostGet` hook. -/
def GetProfile (s : Store) (id : Int) : Except GoError Profile :=
  match s.profile.find? (fun r => r.Id == id) with
  | none => .error .notFound
  | some r => Profile.PostGet s r.scan

/-- GetAuths of `Profile`. -/
def Profile.GetAuths (s : Store) (p : Profile) : Except GoError (List profile.Auth) :=
  .ok ((s.auth.filter (fun r => r.Profile == p.Id)).map AuthRow.scan)

end profile

namespace profile

/-- The statement `dbmap.Insert(&ft)` on table `free`, unique in `(profile, freestart)`. -/
def Store.InsertFreetime (s : Store) (ft : Freetime) : Except GoError Unit × Freetime × Store :=
  if s.free.any (fun r => r.Profile == ft.Profile && r.Start == ft.Start) then
    (.error .uniqueViolation, ft, s)
  else
    let ft1 : Freetime := { ft with Id := s.nextFreeId }
    (.ok (), ft1, { s with free := s.free ++ [ft1], nextFreeId := s.nextFreeId + 1 })

/-- The statement `dbmap.Update(&ft)` on table `free` (key `Id`): the count of rows and the new store. -/
def Store.UpdateFreetime (s : Store) (ft : Freetime) : Nat × Store :=
  ((s.free.filter (fun r => r.Id == ft.Id)).length,
   { s with free := s.free.map (fun r => if r.Id = ft.Id then ft else r) })

/-- NewFreetime of `Profile`. -/
def Profile.NewFreetime (now : Time) (s : Store) (p : Profile) (Start End : Time) :
    Except GoError Unit × Store :=
  let ft : Freetime := ⟨0, p.Id, now, Start, End⟩
  match s.InsertFreetime ft with
  | (.error err, _, s1) =>
    if err = .uniqueViolation then (.error .duplicateFreetime, s1)
    else (.error err, s1)
  | (.ok (), _, s1) => (.ok (), s1)

/-- UpdateFreetime of `Profile`. -/
def Profile.UpdateFreetime (s : Store) (p : Profile) (Start End : Time) :
    Except GoError Unit × Store :=
  match SelectOne (s.free.filter (fun r => r.Profile == p.Id && r.Start == Start)) with
  | .error err => (.error err, s)
  | .ok ft =>
    let ft1 : Freetime := { ft with End := End }
    let (count, s1) := s.UpdateFreetime ft1
    if count ≠ 1 then (.error (.rowCount "update Freetime" count), s1)
    else (.ok (), s1)

/-- RemoveAllFreetime of `Profile`. -/
def Profile.RemoveAllFreetime (s : Store) (p : Profile) : Except GoError Unit × Store :=
  (.ok (), { s with free := s.free.filter (fun r => !(r.Profile == p.Id)) })

/-- RemoveFreetime of `Profile`. -/
def Profile.RemoveFreetime (s : Store) (p : Profile) (Start : Time) : Except GoError Unit × Store :=
  (.ok (), { s with free := s.free.filter (fun r => !(r.Profile == p.Id && r.Start == Start)) })

/-- GetFreetimes of `Profile`; `today` is the instant `current_date` denotes. -/
def Profile.GetFreetimes (today : Time) (s : Store) (p : Profile) : Except GoError (List Freetime) :=
  .ok ((s.free.filter (fun r => r.Profile == p.Id && decide (today < r.Start))).insertionSort
        (fun a b => a.Start ≤ b.Start))

/-- The rows the query of `Search` returns. The join gives one row for each pair of
a `free` row and a `profile` row with `free.profile = profile.id`; the unqualified
`profile` of the `where` clause is the column of `free`. The values of `utypes` and
`flags` are the integers the query compares the join tables with. -/
def Store.searchRows (s : Store) (frm : Time) (utypes flags : List Int) : List ProfileRow :=
  (s.free.filter (fun f =>
      decide (f.Start < frm) && decide (frm < f.End)
      && flags.all (fun v => s.profile_flag.any (fun pf => pf.profile == f.Profile && pf.flag == v))
      && (utypes.length == 0
          || s.profile_utype.any (fun pt => pt.profile == f.Profile && utypes.any (fun v => pt.utype == v))))).flatMap
    (fun f => s.profile.filter (fun p => f.Profile == p.Id))

/-- Search of `Profile`: the query, then `PostGet` on every row. -/
def Profile.Search (s : Store) (_p : Profile) (frm : Time) (utypes flags : List Int) :
    Except GoError (List Profile) :=
  (s.searchRows frm utypes flags).mapM (fun r => Profile.PostGet s r.scan)

/-- NewPhoto of `Profile`; `href` is the value of `token()`. -/
def Profile.NewPhoto (now : Time) (href : String) (p : Profile) (caption : String) : Photo :=
  ⟨0, p.Id, now, href, caption⟩

/-- Photos of `Profile`. -/
def Profile.Photos (s : Store) (p : Profile) : Except GoError (List Photo) :=
  .ok (s.photo.filter (fun r => r.Profile == p.Id))

/-- GetPhoto of `Profile`: the photo with this id that belongs to the receiver. -/
def Profile.GetPhoto (s : Store) (p : Profile) (id : Int) : Except GoError Photo :=
  match SelectOne (s.photo.filter (fun r => r.Id == id && r.Profile == p.Id)) with
  | .error err => if err = .noRows then .error .notFound else .error err
  | .ok photo => .ok photo

/-- GetPhoto: `dbmap.Get` by key. -/
def GetPhoto (s : Store) (id : Int) : Except GoError Photo :=
  match s.photo.find? (fun r => r.Id == id) with
  | none => .error .notFound
  | some r => .ok r

/-- Scan of `Status` on a `[]uint8` source: the new status is stored in a local
pointer, so the receiver keeps its value and the error is nil. -/
def Status.Scan (s : Status) (src : String) : Except GoError Status :=
  let _tmp : Status := src
  .ok s

/-- The statement `insert into profile_invite values ($1, $2, $3)`, unique in `(profile, invite)`. -/
def Store.InsertProfileInvite (s : Store) (row : ProfileInvite) : Except GoError Unit × Store :=
  if s.profile_invite.any (fun r => r.profile == row.profile && r.invite == row.invite) then
    (.error .uniqueViolation, s)
  else (.ok (), { s with profile_invite := s.profile_invite ++ [row] })

/-- The loop of `Invite.PostInsert` over the attendees still to insert. -/
def Invite.PostInsertLoop (inviteId : Int) : List Attendee → Store → Except GoError Unit × Store
  | [], s => (.ok (), s)
  | a :: rest, s =>
    match s.InsertProfileInvite ⟨a.Id, inviteId, a.Status⟩ with
    | (.error err, s1) => (.error err, s1)
    | (.ok (), s1) => Invite.PostInsertLoop inviteId rest s1

/-- PostInsert of `Invite`. -/
def Invite.PostInsert (s : Store) (i : Invite) : Except GoError Unit × Store :=
  Invite.PostInsertLoop i.Id i.Attendees s

/-- Create of `Invite`: `dbmap.Insert` draws the serial key, stores the row and
runs the `PostInsert` hook. -/
def Invite.Create (s : Store) (i : Invite) : Except GoError Unit × Invite × Store :=
  let i1 : Invite := { i with Id := s.nextInviteId }
  let s1 : Store := { s with invite := s.invite ++ [i1.toInviteRow],
                             nextInviteId := s.nextInviteId + 1 }
  let (r, s2) := Invite.PostInsert s1 i1
  (r, i1, s2)

/-- Create of `Message`. -/
def Message.Create (s : Store) (m : Message) : Except GoError Unit × Message × Store :=
  let m1 : Message := { m with Id := s.nextMessageId }
  (.ok (), m1, { s with message := s.message ++ [m1], nextMessageId := s.nextMessageId + 1 })

/-- RefreshMessages of `Invite`. -/
def Invite.RefreshMessages (s : Store) (i : Invite) : Except GoError Unit × Invite :=
  (.ok (), { i with Messages := (s.message.filter (fun m => m.Invite == i.Id)).insertionSort
                                  (fun a b => a.Id ≤ b.Id) })

/-- One row of the query of `RefreshAttendees`: the profile columns are mapped, the
`status` column goes through `Status.Scan` on the zero status of a fresh struct. -/
def scanAttendee (r : ProfileRow) (status : String) : Except GoError Attendee :=
  match Status.Scan "" status with
  | .error err => .error err
  | .ok st => .ok { toProfile := r.scan, Status := st }

/-- The call `i.Attendees[j].Profile.PostGet(dbmap)` of `RefreshAttendees`. -/
def Attendee.PostGet (s : Store) (a : Attendee) : Except GoError Attendee :=
  match Profile.PostGet s a.toProfile with
  | .error err => .error err
  | .ok p => .ok { a with toProfile := p }

/-- RefreshAttendees of `Invite`. -/
def Invite.RefreshAttendees (s : Store) (i : Invite) : Except GoError Unit × Invite :=
  let rows : List (ProfileRow × String) := s.profile.flatMap (fun p =>
    (s.profile_invite.filter (fun pi => pi.profile == p.Id && pi.invite == i.Id)).map
      (fun pi => (p, pi.status)))
  match rows.mapM (fun x => scanAttendee x.1 x.2) with
  | .error err => (.error err, { i with Attendees := [] })
  | .ok atts =>
    match atts.mapM (Attendee.PostGet s) with
    | .error err => (.error err, { i with Attendees := atts })
    | .ok atts1 => (.ok (), { i with Attendees := atts1 })

/-- PostGet of `Invite`. -/
def Invite.PostGet (s : Store) (i : Invite) : Except GoError Unit × Invite :=
  match Invite.RefreshAttendees s i with
  | (.error err, i1) => (.error err, i1)
  | (.ok (), i1) => Invite.RefreshMessages s i1

/-- GetInvite: `dbmap.Get` by key, with the `PostGet` hook. -/
def GetInvite (s : Store) (id : Int) : Except GoError Invite :=
  match s.invite.find? (fun r => r.Id == id) with
  | none => .error .notFound
  | some r =>
    match Invite.PostGet s { toInviteRow := r, Attendees := [], Messages := [] } with
    | (.error err, _) => .error err
    | (.ok (), i) => .ok i

end profile

/-- The S3 client `s3Photos`: `SignedURL bucket path expires`. -/
structure S3 where
  SignedURL : String → String → Time → String

namespace profile

/-- One second of `time.Duration`; instants count nanoseconds. -/
def Second : Int := 1000000000

/-- GetExpiringUrl of `Photo`. -/
def Photo.GetExpiringUrl (s3 : S3) (now : Time) (p : Photo) (folder : String) : String :=
  s3.SignedURL (BaseBucket ++ "/" ++ folder) p.Href (now + PhotoExpirationSeconds * Second)

end profile

namespace main

open profile (Store)

def ChuteToken : String := "X-chute-token"

structure Photo where
  Id : Int
  Created : Time
  Href : String
  Caption : String
  deriving DecidableEq, Repr

structure Profile where
  Id : Int
  Created : Time
  Email : Option String
  Phone : Option String
  Name : Option String
  Photos : List Photo
  Flags : List profile.Flag
  Utypes : List profile.Utype
  deriving DecidableEq, Repr

structure Auth where
  Profile : Int
  Hash : Option String
  Username : Option String
  Name : String
  Token : Option String
  Created : Option Time
  Updated : Option Time
  LastAuth : Option Time
  Authorized : Bool
  deriving DecidableEq, Repr

structure AuthChange where
  Hash : Option String
  Username : Option String
  Name : String
  Authorized : Bool
  deriving DecidableEq, Repr

structure Freetime where
  Start : Time
  End : Time
  deriving DecidableEq, Repr

structure NewMessage where
  Photo : Option Int
  Body : String
  deriving DecidableEq, Repr

structure NewInvite where
  Attendees : List Int
  Start : Time
  End : Option Time
  Place : String
  Message : Option NewMessage
  deriving DecidableEq, Repr

structure Message where
  Id : Int
  Sent : Time
  Sender : main.Profile
  Photo : Option main.Photo
  Body : String
  deriving DecidableEq, Repr

structure Attendee extends main.Profile where
  Status : profile.Status
  deriving DecidableEq, Repr

structure Invite where
  Attendees : List Attendee
  Id : Int
  Organizer : main.Profile
  Active : Bool
  Start : Time
  End : Option Time
  Created : Time
  Place : String
  Messages : List Message
  deriving DecidableEq, Repr

/-- The request context, as handlers behind `authenticate` see it: both pointers set. -/
structure Context where
  Auth : profile.Auth
  Profile : profile.Profile
  deriving DecidableEq, Repr

/-- What a handler call reads from outside the store: the primitives, the S3
client, the instant of every `time.Now()` of the call and the instant that
`current_date` denotes in the database. -/
structure Env where
  crypto : Crypto
  s3 : S3
  now : Time
  today : Time

/-- The tigertonic error types, one for each HTTP status, that matter here: the five
that `error400` to `error500` build, and `Conflict`, which no handler builds. -/
inductive HttpError
  | BadRequest (msg : String)
  | Unauthorized (msg : String)
  | Forbidden (msg : String)
  | NotFound (msg : String)
  | Conflict (msg : String)
  | InternalServerError (msg : String)
  deriving DecidableEq, Repr

/-- The HTTP status tigertonic answers with for each error type. -/
def HttpError.StatusCode : HttpError → Nat
  | .BadRequest _ => 400
  | .Unauthorized _ => 401
  | .Forbidden _ => 403
  | .NotFound _ => 404
  | .Conflict _ => 409
  | .InternalServerError _ => 500

/-- The values of the handlers' `Response`. -/
inductive Response
  | null
  | empty
  | profile (p : main.Profile)
  | profiles (ps : List main.Profile)
  | auths (l : List main.Auth)
  | freetimes (fs : List main.Freetime)
  | invite (i : main.Invite)
  | invites (l : List main.Invite)
  deriving DecidableEq, Repr

/-- The outcome of a handler: its `(int, http.Header, Response, error)`, where the only
header ever set is `ChuteToken`, or a nil-pointer panic. -/
inductive Reply
  | ok (status : Nat) (token : Option String) (body : Response)
  | fail (err : HttpError)
  | panic
  deriving DecidableEq, Repr

def error400 (e : String) : Reply := .fail (.BadRequest e)
def error401 (e : String) : Reply := .fail (.Unauthorized e)
def error403 (e : String) : Reply := .fail (.Forbidden e)
def error404 (e : String) : Reply := .fail (.NotFound e)
def error500 (e : String) : Reply := .fail (.InternalServerError e)

/-- The `{id}` parameter of the URL as `param` and `strconv.Atoi` read it. -/
inductive IdParam
  | absent
  | malformed (raw : String)
  | valid (n : Int)
  deriving DecidableEq, Repr

/-- The function `authenticate`; `token` is the value of the `ChuteToken` header, and a
success is the context it fills. -/
def authenticate (k : Crypto) (s : Store) (token : String) : Except HttpError Context :=
  if token = "" then .error (.Unauthorized "please log in")
  else
    let auth : profile.Auth := { profile.Auth.zero with Token := some token }
    match auth.Get k s with
    | .error _ => .error (.Unauthorized "please log in")
    | .ok auth1 =>
      if !auth1.Authenticated k then .error (.Unauthorized "please log in")
      else
        match profile.Profile.zero.Get s auth1 with
        | .error _ => .error (.Unauthorized "please log in")
        | .ok p => .ok { Auth := auth1, Profile := p }

/-- The function `findProfile`; an error carries the handler that reports it. -/
def findProfile (s : Store) (id : IdParam) (c : Context) :
    Except (String → Reply) profile.Profile :=
  match id with
  | .absent => .ok c.Profile
  | .malformed _ => .error error400
  | .valid intId =>
    match profile.GetProfile s intId with
    | .error err => if err = .notFound then .error error404 else .error error500
    | .ok ip => .ok ip

/-- The method `convert` of `Profile`: the error and the receiver after the call. -/
def Profile.convert (e : Env) (s : Store) (p : main.Profile) (ip : profile.Profile) :
    Except GoError Unit × main.Profile :=
  let p1 : main.Profile := { p with Id := ip.Id, Created := ip.Created, Email := ip.Email,
                                    Phone := ip.Phone, Name := ip.Name, Flags := ip.Flags,
                                    Utypes := ip.Utypes }
  match ip.Photos s with
  | .error err => (.error err, p1)
  | .ok dbPhotos =>
    (.ok (), { p1 with Photos := p1.Photos ++ dbPhotos.map (fun photo =>
        ⟨photo.Id, photo.Created, photo.GetExpiringUrl e.s3 e.now ip.Folder, photo.Caption⟩) })

/-- The zero value `Profile{}` of package `main`. -/
def Profile.zero : main.Profile :=
  { Id := 0, Created := 0, Email := none, Phone := none, Name := none, Photos := [],
    Flags := [], Utypes := [] }

/-- The method `convert` of `Message`, on the fresh `Message{}` its callers pass. The
error of converting the sender is overwritten without being read. -/
def Message.convert (e : Env) (s : Store) (im : profile.Message) : Except GoError main.Message :=
  match profile.GetProfile s im.Sender with
  | .error err => .error err
  | .ok ip =>
    let sender := (Profile.convert e s Profile.zero ip).2
    let m : main.Message := { Id := im.Id, Sent := im.Sent, Sender := sender, Photo := none,
                              Body := im.Body }
    match im.Photo with
    | none => .ok m
    | some photoId =>
      match profile.GetPhoto s photoId with
      | .error err => .error err
      | .ok ph =>
        match profile.GetProfile s ph.Profile with
        | .error err => .error err
        | .ok owner =>
          let href := ph.GetExpiringUrl e.s3 e.now owner.Folder
          .ok { m with Photo := some ⟨ph.Id, ph.Created, href, ph.Caption⟩ }

/-- The attendee loop of `Invite.convert`. -/
def convertAttendee (e : Env) (s : Store) (att : profile.Attendee) : Except GoError main.Attendee :=
  match Profile.convert e s Profile.zero att.toProfile with
  | (.error err, _) => .error err
  | (.ok (), p) => .ok { toProfile := p, Status := att.Status }

/-- The method `convert` of `Invite`, on the fresh `Invite{}` its callers pass. -/
def Invite.convert (e : Env) (s : Store) (ii : profile.Invite) : Except GoError main.Invite :=
  match profile.GetProfile s ii.Organizer with
  | .error err => .error err
  | .ok ip =>
    match Profile.convert e s Profile.zero ip with
    | (.error err, _) => .error err
    | (.ok (), organizer) =>
      match ii.Attendees.mapM (convertAttendee e s) with
      | .error err => .error err
      | .ok atts =>
        match ii.Messages.mapM (Message.convert e s) with
        | .error err => .error err
        | .ok msgs =>
          .ok { Attendees := atts, Id := ii.Id, Organizer := organizer, Active := ii.Active,
                Start := ii.Start, End := ii.End, Created := ii.Created, Place := ii.Place,
                Messages := msgs }

end main

namespace main

open profile (Store)

/-- The view of one `profile.Auth` that `getAuths` appends. -/
def authView (auth : profile.Auth) : main.Auth :=
  ⟨auth.Profile, none, auth.Username, auth.Name, auth.Token, auth.Created, auth.Updated,
   auth.LastAuth, auth.Authorized⟩

/-- The handler `getAuths`. -/
def getAuths (s : Store) (c : Context) : Reply × Store :=
  match c.Profile.GetAuths s with
  | .error _ => (error500 "db failure: p102", s)
  | .ok auths => (.ok 200 none (.auths (auths.map authView)), s)

/-- The handler `createProfile`; `folder` and `tok` are the two values of `token()`,
`salt` the randomness of bcrypt. -/
def createProfile (e : Env) (folder tok salt : String) (s : Store) (r : main.Auth) :
    Reply × Store :=
  match profile.NewAuth r.Hash r.Username with
  | none => (.panic, s)
  | some a =>
    match a.Get e.crypto s with
    | .ok _ => (error400 "auth exists", s)
    | .error _ =>
      let a1 : profile.Auth := { a with Name := r.Name }
      match profile.Profile.zero.Create e.now folder s with
      | (.error _, _, s1) => (error500 "db failure: p56", s1)
      | (.ok (), p, s1) =>
        let a2 : profile.Auth := { a1 with Profile := p.Id }
        match a2.Create e.crypto e.now tok salt s1 with
        | (.error _, _, s2) => (error500 "db failure: p62", s2)
        | (.ok (), a3, s2) =>
          (.ok 201 a3.Token (.profile { Profile.zero with Id := p.Id, Created := p.Created }), s2)

/-- The handler `createAuth`; `tok` is the value of `token()`, `salt` the randomness of bcrypt. -/
def createAuth (e : Env) (tok salt : String) (s : Store) (r : AuthChange) (c : Context) :
    Reply × Store :=
  match profile.NewAuth r.Hash r.Username, r.Hash with
  | some a, some h =>
    match a.Get e.crypto s with
    | .error _ =>
      let a1 : profile.Auth := { a with Name := r.Name, Authorized := r.Authorized,
                                        Profile := c.Profile.Id, InHash := h }
      match a1.Create e.crypto e.now tok salt s with
      | (.error _, _, s1) => (error500 "db failure: p73", s1)
      | (.ok (), _, s1) => getAuths s1 c
    | .ok a1 =>
      if a1.Username ≠ none ∧ a1.Profile ≠ c.Profile.Id then
        (error400 "unauthorized access", s)
      else
        let a2 : profile.Auth := { a1 with Name := r.Name, Authorized := r.Authorized,
                                           Profile := c.Profile.Id }
        match a2.Save e.now s with
        | (.error _, _, s1) => (error500 "db failure: p83", s1)
        | (.ok (), _, s1) => getAuths s1 c
  | _, _ => (.panic, s)

/-- The handler `login`; `tok` is the value of `token()`. -/
def login (e : Env) (tok : String) (s : Store) (r : main.Auth) : Reply × Store :=
  match profile.NewAuth r.Hash r.Username with
  | none => (.panic, s)
  | some auth =>
    match auth.Get e.crypto s with
    | .error _ => (error401 "login failure", s)
    | .ok auth1 =>
      if !auth1.Authenticated e.crypto then (error401 "login failure", s)
      else
        match auth1.Login e.now tok s with
        | (.error _, _, s1) => (error500 "db failure: p137", s1)
        | (.ok token, _, s1) => (.ok 200 (some token) .empty, s1)

/-- The handler `logout`. -/
def logout (e : Env) (s : Store) (c : Context) : Reply × Store :=
  match c.Auth.Logout e.now s with
  | (.error _, _, s1) => (error500 "db failure: p110", s1)
  | (.ok (), _, s1) => (.ok 200 none .empty, s1)

/-- The handler `getFreetime`. -/
def getFreetime (e : Env) (s : Store) (u : IdParam) (c : Context) : Reply × Store :=
  match findProfile s u c with
  | .error errType => (errType "profile not found", s)
  | .ok p =>
    match p.GetFreetimes e.today s with
    | .error _ => (error500 "db failure: p212", s)
    | .ok profileFs => (.ok 200 none (.freetimes (profileFs.map (fun f => ⟨f.Start, f.End⟩))), s)

/-- The second loop of `createFreetime`: `some` is the reply of an early return. -/
def createFreetimeLoop (e : Env) (c : Context) : List Freetime → Store → Option Reply × Store
  | [], s => (none, s)
  | f :: rest, s =>
    match c.Profile.NewFreetime e.now s f.Start f.End with
    | (.error err, s1) =>
      if err = .duplicateFreetime then
        match c.Profile.UpdateFreetime s1 f.Start f.End with
        | (.error _, s2) => (some (error500 "db failure: p261"), s2)
        | (.ok (), s2) => createFreetimeLoop e c rest s2
      else (some (error500 "db failure: p223"), s1)
    | (.ok (), s1) => createFreetimeLoop e c rest s1

/-- The handler `createFreetime`. The text of an instant in a complaint is the text
of its number. -/
def createFreetime (e : Env) (s : Store) (u : IdParam) (fs : List Freetime) (c : Context) :
    Reply × Store :=
  match fs.find? (fun f => !decide (f.Start < f.End)) with
  | some f => (error400 (toString f.End ++ " is not after " ++ toString f.Start), s)
  | none =>
    match createFreetimeLoop e c fs s with
    | (some reply, s1) => (reply, s1)
    | (none, s1) => getFreetime e s1 u c

/-- The loop that resolves attendee ids in `invite` and `addAttendees`: the
attendees, or the first id that `GetProfile` does not find. -/
def resolveAttendees (s : Store) : List Int → Except Int (List profile.Attendee)
  | [] => .ok []
  | att :: rest =>
    match profile.GetProfile s att with
    | .error _ => .error att
    | .ok p =>
      match resolveAttendees s rest with
      | .error bad => .error bad
      | .ok atts => .ok ({ toProfile := p, Status := profile.StatusPending } :: atts)

/-- The handler `invite`. The attendees it resolves are not put into the `Invite`
it creates. -/
def invite (e : Env) (s : Store) (i : NewInvite) (c : Context) : Reply × Store :=
  match i.End.map (fun en => !decide (i.Start < en)) with
  | some true =>
    (error400 (toString (i.End.getD 0) ++ " is not after " ++ toString i.Start), s)
  | _ =>
    if i.Attendees.length < 1 then
      (error400 "There must be at least one attendee for an invite.", s)
    else
      match resolveAttendees s i.Attendees with
      | .error att => (error400 ("'" ++ toString att ++ "' is not a valid Profile id."), s)
      | .ok _atts =>
        let ii : profile.Invite :=
          { Id := 0, Organizer := c.Profile.Id, Active := true, Start := i.Start, End := i.End,
            Created := e.now, Place := i.Place, Attendees := [], Messages := [] }
        match ii.Create s with
        | (.error _, _, s1) => (error500 "db failure: p175", s1)
        | (.ok (), ii1, s1) =>
          let (merr, s2) : Option GoError × Store :=
            match i.Message with
            | none => (none, s1)
            | some msg =>
              match (⟨0, e.now, c.Profile.Id, ii1.Id, msg.Photo, msg.Body⟩ : profile.Message).Create s1 with
              | (.error err, _, s2) => (some err, s2)
              | (.ok (), _, s2) => (none, s2)
          match merr with
          | some _ => (error500 "db failure: p245", s2)
          | none =>
            match profile.GetInvite s2 ii1.Id with
            | .error _ => (error500 "db failure: p250", s2)
            | .ok newI =>
              match Invite.convert e s2 newI with
              | .error _ => (error500 "db failure: p227", s2)
              | .ok out => (.ok 200 none (.invite out), s2)

end main

/-! ## Store invariants and sample data -/

namespace profile

/-- The keys of table `auth`: `Hash` is its key and no two rows share a username. -/
def Store.AuthKeys (s : Store) : Prop :=
  s.auth.Pairwise (fun a b => a.Hash ≠ b.Hash ∧ sqlEq a.Username b.Username = false)

/-- The keys of table `free`: `Id` is its serial key, drawn below `nextFreeId`, and
the rows are unique in `(profile, freestart)`. -/
def Store.FreeKeys (s : Store) : Prop :=
  s.free.Pairwise (fun a b => a.Id ≠ b.Id ∧ ¬ (a.Profile = b.Profile ∧ a.Start = b.Start))
  ∧ ∀ r ∈ s.free, r.Id < s.nextFreeId

end profile

namespace main

open profile (Store)

/-- A stand-in for the primitives in worked examples: the digest of a text is the
text in a wrapper, and a bcrypt hash compares equal with its own secret only. -/
def demoCrypto : Crypto :=
  { Sum512 := fun x => "sha512:" ++ x
    EncodeToString := fun x => "hex:" ++ x
    GenerateFromPassword := fun _ pw => .ok ("$2a$" ++ pw)
    CompareHashAndPassword := fun h pw =>
      if h = "$2a$" ++ pw then none else some .mismatchedHashAndPassword }

/-- The environment of the worked examples. -/
def demoEnv : Env :=
  { crypto := demoCrypto, s3 := ⟨fun bucket path _ => bucket ++ "/" ++ path⟩, now := 100, today := 0 }

/-- A request body of `createProfile` and `login` with the given secret and username. -/
def credentials (secret : String) (username : Option String) : main.Auth :=
  ⟨0, some secret, username, "", none, none, none, none, false⟩

/-- The store after `Register(secret="pw", username="al")` on an empty database. -/
def storeAl : Store :=
  (createProfile demoEnv "folderAl" "T1" "salt1" Store.empty (credentials "pw" (some "al"))).2

/-- The store after a second registration, of username "bo" with the empty secret. -/
def storeAlBo : Store :=
  (createProfile demoEnv "folderBo" "T9" "salt2" storeAl (credentials "" (some "bo"))).2

end main

namespace profile

/-- The credential `row` matches a probe of `Auth.Get` without token: the same username
for a Named probe, the same digest for an Anonymous one. -/
def AuthRow.Matches (k : Crypto) (row : AuthRow) (secret : String) (username : Option String) :
    Prop :=
  match username with
  | some u => row.Username = some u
  | none => row.Hash = k.EncodeToString (k.Sum512 (UsernamelessSalt ++ secret))

end profile

namespace main

open profile (Store)

/-- The credential of "al" as `Auth.Get` reads it from `storeAl`. -/
def authAl : profile.Auth :=
  { Hash := "$2a$pw", Created := some 100, Updated := some 100, LastAuth := some 100,
    Profile := 1, Name := "", Username := some "al", Token := some "T1", Authorized := true,
    InHash := "" }

/-- The context of a request of "bo" on `storeAlBo`, as a handler receives it. -/
def contextBo : Context :=
  { Auth := { Hash := "$2a$", Created := some 100, Updated := some 100, LastAuth := some 100,
              Profile := 2, Name := "", Username := some "bo", Token := some "T9",
              Authorized := true, InHash := "" }
    Profile := { Id := 2, Created := 100, Updated := 100, Latitude := 0, Longitude := 0,
                 Email := none, Phone := none, Name := none, Folder := "folderBo",
                 Auth := none, Utypes := [], Flags := [] } }

end main

namespace main

open profile (Store)

/-- The store after a third registration, of username "cy" with secret "pw3". -/
def storeAlBoCy : Store :=
  (createProfile demoEnv "folderCy" "T3" "salt3" storeAlBo (credentials "pw3" (some "cy"))).2

/-- The context of a request of "al", as a handler receives it. -/
def contextAl : Context :=
  { Auth := authAl
    Profile := { Id := 1, Created := 100, Updated := 100, Latitude := 0, Longitude := 0,
                 Email := none, Phone := none, Name := none, Folder := "folderAl",
                 Auth := some authAl, Utypes := [], Flags := [] } }

/-- The request `CreateInvite(attendees=[2,3], start=1000, end=2000, place="studio")`. -/
def inviteBoCy : NewInvite :=
  { Attendees := [2, 3], Start := 1000, End := some 2000, Place := "studio", Message := none }

end main

namespace main

open profile (Store)

/-- The row of "al" in table `auth` after registration. -/
def rowAl : profile.AuthRow :=
  { Hash := "$2a$pw", Created := some 100, Updated := some 100, LastAuth := some 100,
    Profile := 1, Name := "", Username := some "al", Token := some "T1", Authorized := true }

/-- The store `storeAlBoCy` after "al" has declared two free intervals. -/
def storeFree : Store :=
  (createFreetime demoEnv storeAlBoCy .absent [⟨1000, 1100⟩, ⟨3000, 4000⟩] contextAl).2

end main

namespace profile

/-- StatusStrings: the keys of `Statuses`. Go leaves the order of a map range open; the
order here is that of the declaration. -/
def StatusStrings : List String := [StatusPending, StatusAccepted, StatusDeclined]

/-- ChangeStatus of `Invite`:
`update profile_invite set status = $1 where profile = $2 and invite = $3`. -/
def Invite.ChangeStatus (s : Store) (i : Invite) (p : Profile) (st : Status) :
    Except GoError Unit × Store :=
  (.ok (), { s with profile_invite := s.profile_invite.map (fun r =>
      if r.profile = p.Id ∧ r.invite = i.Id then { r with status := st } else r) })

/-- Cancel of `Invite`: `update invite set active = false where id = $1`. -/
def Invite.Cancel (s : Store) (i : Invite) : Except GoError Unit × Store :=
  (.ok (), { s with invite := s.invite.map (fun r =>
      if r.Id = i.Id then { r with Active := false } else r) })

/-- AddAttendees of `Invite`, on the attendees still to insert: an insert that fails on
the duplicate key is skipped. -/
def Invite.AddAttendees (i : Invite) : List Attendee → Store → Except GoError Unit × Store
  | [], s => (.ok (), s)
  | a :: rest, s =>
    match s.InsertProfileInvite ⟨a.Id, i.Id, a.Status⟩ with
    | (.error err, s1) =>
      if err = .uniqueViolation then Invite.AddAttendees i rest s1 else (.error err, s1)
    | (.ok (), s1) => Invite.AddAttendees i rest s1

/-- Remove of `Photo`: the messages that show the photo lose it, then the row is deleted. -/
def Photo.Remove (s : Store) (p : Photo) : Except GoError Unit × Store :=
  let s1 : Store := { s with message := s.message.map (fun m =>
      if m.Photo = some p.Id then { m with Photo := none } else m) }
  let count := (s1.photo.filter (fun r => r.Id == p.Id)).length
  let s2 : Store := { s1 with photo := s1.photo.filter (fun r => !(r.Id == p.Id)) }
  if count ≠ 1 then (.error (.rowCount "remove Photo" count), s2) else (.ok (), s2)

/-- Save of `Photo`: `putOk` tells whether S3 took the bucket and the file; then the row
is inserted with its serial key. The byte count of the file is `size`. -/
def Photo.Save (putOk : Bool) (size : Int) (s : Store) (p : Photo) :
    Except GoError Int × Photo × Store :=
  if !putOk then (.error .s3Failure, p, s)
  else
    let p1 : Photo := { p with Id := s.nextPhotoId }
    (.ok size, p1, { s with photo := s.photo ++ [p1], nextPhotoId := s.nextPhotoId + 1 })

/-- PostUpdate of `Profile`. -/
def Profile.PostUpdate (s : Store) (p : Profile) : Except GoError Unit × Store :=
  let s1 : Store := { s with profile_flag := s.profile_flag.filter (fun r => !(r.profile == p.Id)) }
  let s2 : Store := { s1 with profile_flag := s1.profile_flag ++ p.Flags.map (fun f => ⟨f.Id, p.Id⟩) }
  if p.Utypes.length = 0 then (.error .emptyUtypes, s2)
  else
    let s3 : Store := { s2 with profile_utype := s2.profile_utype.filter (fun r => !(r.profile == p.Id)) }
    (.ok (), { s3 with profile_utype := s3.profile_utype ++ p.Utypes.map (fun t => ⟨t.Id, p.Id⟩) })

/-- The statement `dbmap.Update(p)` on table `profile` (key `Id`), with the `PostUpdate`
hook: the count of rows, or the error of the hook, and the new store. -/
def Store.UpdateProfile (s : Store) (p : Profile) : Except GoError Nat × Store :=
  let count := (s.profile.filter (fun r => r.Id == p.Id)).length
  let s1 : Store := { s with profile := s.profile.map (fun r => if r.Id = p.Id then p.toProfileRow else r) }
  match Profile.PostUpdate s1 p with
  | (.error err, s2) => (.error err, s2)
  | (.ok (), s2) => (.ok count, s2)

/-- Save of `Profile`. -/
def Profile.Save (now : Time) (s : Store) (p : Profile) : Except GoError Unit × Profile × Store :=
  let p1 : Profile := { p with Updated := now }
  match s.UpdateProfile p1 with
  | (.error err, s1) => (.error err, p1, s1)
  | (.ok count, s1) =>
    if count ≠ 1 then (.error (.rowCount "update Profile" count), p1, s1) else (.ok (), p1, s1)

end profile

namespace main

open profile (Store)

/-- The text of the `{id}` parameter in a complaint. -/
def IdParam.text : IdParam → String
  | .absent => ""
  | .malformed raw => raw
  | .valid n => toString n

/-- The lookup all invite handlers start with: `strconv.Atoi` of the `{id}` parameter and
`profile.GetInvite`; `p500` is the text of the handler's 500 reply. -/
def lookupInvite (s : Store) (u : IdParam) (p500 : String) : Except Reply profile.Invite :=
  match u with
  | .valid intId =>
    match profile.GetInvite s intId with
    | .error err =>
      if err = .notFound then .error (error404 "Invite not found.") else .error (error500 p500)
    | .ok ii => .ok ii
  | other => .error (error400 ("'" ++ other.text ++ "' is not a valid Invite Id."))

/-- The handler `getInvite`: every error of `GetInvite` is a 500 here. -/
def getInvite (e : Env) (s : Store) (u : IdParam) : Reply × Store :=
  match u with
  | .valid intId =>
    match profile.GetInvite s intId with
    | .error _ => (error500 "db failure: p208", s)
    | .ok ii =>
      match Invite.convert e s ii with
      | .error _ => (error500 "db failure: p204", s)
      | .ok i => (.ok 200 none (.invite i), s)
  | other => (error400 ("'" ++ other.text ++ "' is not a valid Invite Id."), s)

/-- The handler `cancelInvite`. -/
def cancelInvite (e : Env) (s : Store) (u : IdParam) (_c : Context) : Reply × Store :=
  match lookupInvite s u "db failure: p269" with
  | .error reply => (reply, s)
  | .ok ii =>
    match ii.Cancel s with
    | (.error _, s1) => (error500 "db failure: p273", s1)
    | (.ok (), s1) =>
      let ii1 : profile.Invite := { ii with Active := false }
      match Invite.convert e s1 ii1 with
      | .error _ => (error500 "db failure: p279", s1)
      | .ok i => (.ok 200 none (.invite i), s1)

/-- The handler `addMessage`. The result of `RefreshMessages` is not checked. -/
def addMessage (e : Env) (s : Store) (u : IdParam) (m : NewMessage) (c : Context) :
    Reply × Store :=
  match lookupInvite s u "db failure: p268" with
  | .error reply => (reply, s)
  | .ok ii =>
    match (match m.Photo with
           | none => none
           | some photoId =>
             match c.Profile.GetPhoto s photoId with
             | .error _ => some photoId
             | .ok _ => none) with
    | some photoId => (error400 ("'" ++ toString photoId ++ "' is not a valid Photo Id."), s)
    | none =>
      let im : profile.Message := ⟨0, e.now, c.Profile.Id, ii.Id, m.Photo, m.Body⟩
      match im.Create s with
      | (.error _, _, s1) => (error500 "db failure: p273", s1)
      | (.ok (), _, s1) =>
        let ii1 := (ii.RefreshMessages s1).2
        match Invite.convert e s1 ii1 with
        | .error _ => (error500 "db failure: p280", s1)
        | .ok i => (.ok 200 none (.invite i), s1)

/-- The handler `changeStatus`. The pointer `st` is dereferenced before the nil test. -/
def changeStatus (e : Env) (s : Store) (u : IdParam) (st : Option profile.Status)
    (c : Context) : Reply × Store :=
  match st with
  | none => (.panic, s)
  | some status =>
    if !profile.Statuses status then
      (error400 ("'" ++ status ++ "' doesn't appear to be a valid status: "
        ++ ", ".intercalate profile.StatusStrings), s)
    else
      match lookupInvite s u "db failure: p270" with
      | .error reply => (reply, s)
      | .ok ii =>
        match ii.ChangeStatus s c.Profile status with
        | (.error _, s1) => (error500 "db failure: p278", s1)
        | (.ok (), s1) =>
          let ii1 : profile.Invite := { ii with Attendees := ii.Attendees.map (fun a =>
              if a.Id = c.Profile.Id then { a with Status := status } else a) }
          match Invite.convert e s1 ii1 with
          | .error _ => (error500 "db failure: p289", s1)
          | .ok i => (.ok 200 none (.invite i), s1)

/-- The handler `addAttendees`. -/
def addAttendees (e : Env) (s : Store) (u : IdParam) (as : List Int) (c : Context) :
    Reply × Store :=
  match lookupInvite s u "db failure: p373" with
  | .error reply => (reply, s)
  | .ok ii =>
    if ii.Organizer ≠ c.Profile.Id then
      (error403 "You are not the Organizer for this Invite.", s)
    else
      match resolveAttendees s as with
      | .error a => (error400 ("'" ++ toString a ++ "' is not a valid Profile id."), s)
      | .ok atts =>
        match ii.AddAttendees atts s with
        | (.error _, s1) => (error500 "db failure: p392", s1)
        | (.ok (), s1) =>
          match ii.RefreshAttendees s1 with
          | (.error _, _) => (error500 "db failure: p397", s1)
          | (.ok (), ii1) =>
            match Invite.convert e s1 ii1 with
            | .error _ => (error500 "db failure: p289", s1)
            | .ok i => (.ok 200 none (.invite i), s1)

/-- The handler `removeAllFreetime`. -/
def removeAllFreetime (s : Store) (c : Context) : Reply × Store :=
  match c.Profile.RemoveAllFreetime s with
  | (.error _, s1) => (error500 "db failure: p238", s1)
  | (.ok (), s1) => (.ok 204 none .null, s1)

/-- The handler `removeFreetime`; `start` is the `{start}` parameter as `time.Parse`
reads it: an instant, or the raw text when it does not parse. -/
def removeFreetime (s : Store) (start : Except String Time) (c : Context) : Reply × Store :=
  match start with
  | .error raw => (error500 ("didn't understand '" ++ raw ++ "' as a start time"), s)
  | .ok t =>
    match c.Profile.RemoveFreetime s t with
    | (.error _, s1) => (error500 "db failure: p253", s1)
    | (.ok (), s1) => (.ok 204 none .null, s1)

/-- The handler `updateProfile`. -/
def updateProfile (e : Env) (s : Store) (p : main.Profile) (c : Context) : Reply × Store :=
  let cp : profile.Profile := { c.Profile with Email := p.Email, Phone := p.Phone, Name := p.Name,
                                               Flags := p.Flags, Utypes := p.Utypes }
  match cp.Save e.now s with
  | (.error _, _, s1) => (error500 "db failure: p308", s1)
  | (.ok (), cp1, s1) =>
    match Profile.convert e s1 Profile.zero cp1 with
    | (.error _, _) => (error500 "db failure: p313", s1)
    | (.ok (), out) => (.ok 200 none (.profile out), s1)

/-- The handler `removePhoto`. -/
def removePhoto (s : Store) (u : IdParam) (c : Context) : Reply × Store :=
  match u with
  | .valid intId =>
    match c.Profile.GetPhoto s intId with
    | .error _ => (error404 "photo not found", s)
    | .ok photo =>
      match photo.Remove s with
      | (.error _, s1) => (error500 "photo removal error: p220", s1)
      | (.ok (), s1) => (.ok 204 none .null, s1)
  | other => (error400 ("'" ++ other.text ++ "' is not a valid Photo id."), s)

/-- The map `allowedPhotoTypes`. -/
def allowedPhotoTypes (t : String) : Bool :=
  t == "image/jpg" || t == "image/jpeg" || t == "image/gif" || t == "image/png"

/-- The first file of a photo upload: its `Content-Type` headers, its size, and whether
S3 takes it. -/
structure Upload where
  contentTypes : List String
  size : Int
  putOk : Bool
  deriving DecidableEq, Repr

/-- The method `ServeHTTP` of `PhotoHandler`: the status and body written, and the new
store. `file` is the form file "photo", `href` the value of `token()`. -/
def PhotoHandler.ServeHTTP (e : Env) (href : String) (s : Store) (file : Option Upload)
    (caption : String) (c : Context) : (Nat × String) × Store :=
  match file with
  | none => ((500, "\x7b\"error\": \"file upload issue: p200\"\x7d\n"), s)
  | some f =>
    match f.contentTypes.head? with
    | none => ((400, "\x7b\"error\": \"please upload only an image file in jpg, gif, or png\"\x7d\n"), s)
    | some ctype =>
      if !allowedPhotoTypes ctype then
        ((400, "\x7b\"error\": \"please upload only an image file in jpg, gif, or png\"\x7d\n"), s)
      else
        let photo := c.Profile.NewPhoto e.now href caption
        match photo.Save f.putOk f.size s with
        | (.error _, _, s1) => ((500, "\x7b\"error\": \"file upload issue: p244\"\x7d\n"), s1)
        | (.ok count, photo1, s1) =>
          ((200, "\x7b\"status\": \"ok\", \"id\": " ++ toString photo1.Id ++ ", \"uploaded\": "
            ++ toString count ++ "\x7d\n"), s1)

/-- A request to one of the handlers that write to the database, with all it reads from
outside the store. -/
inductive Request
  | createProfile (e : Env) (folder tok salt : String) (r : main.Auth)
  | createAuth (e : Env) (tok salt : String) (r : AuthChange) (c : Context)
  | login (e : Env) (tok : String) (r : main.Auth)
  | logout (e : Env) (c : Context)
  | updateProfile (e : Env) (p : main.Profile) (c : Context)
  | uploadPhoto (e : Env) (href : String) (file : Option Upload) (caption : String) (c : Context)
  | removePhoto (u : IdParam) (c : Context)
  | createFreetime (e : Env) (u : IdParam) (fs : List Freetime) (c : Context)
  | removeAllFreetime (c : Context)
  | removeFreetime (start : Except String Time) (c : Context)
  | invite (e : Env) (i : NewInvite) (c : Context)
  | cancelInvite (e : Env) (u : IdParam) (c : Context)
  | addMessage (e : Env) (u : IdParam) (m : NewMessage) (c : Context)
  | changeStatus (e : Env) (u : IdParam) (st : Option profile.Status) (c : Context)
  | addAttendees (e : Env) (u : IdParam) (as : List Int) (c : Context)

/-- The store after a request has been served. -/
def Request.run (s : Store) : Request → Store
  | .createProfile e folder tok salt r => (main.createProfile e folder tok salt s r).2
  | .createAuth e tok salt r c => (main.createAuth e tok salt s r c).2
  | .login e tok r => (main.login e tok s r).2
  | .logout e c => (main.logout e s c).2
  | .updateProfile e p c => (main.updateProfile e s p c).2
  | .uploadPhoto e href file caption c => (PhotoHandler.ServeHTTP e href s file caption c).2
  | .removePhoto u c => (main.removePhoto s u c).2
  | .createFreetime e u fs c => (main.createFreetime e s u fs c).2
  | .removeAllFreetime c => (main.removeAllFreetime s c).2
  | .removeFreetime start c => (main.removeFreetime s start c).2
  | .invite e i c => (main.invite e s i c).2
  | .cancelInvite e u c => (main.cancelInvite e s u c).2
  | .addMessage e u m c => (main.addMessage e s u m c).2
  | .changeStatus e u st c => (main.changeStatus e s u st c).2
  | .addAttendees e u as c => (main.addAttendees e s u as c).2

end main

namespace profile

/-- The keys of table `profile_invite`: the rows are unique in `(profile, invite)`. -/
def Store.AttendeeKeys (s : Store) : Prop :=
  s.profile_invite.Pairwise (fun a b => ¬ (a.profile = b.profile ∧ a.invite = b.invite))

end profile

namespace main

open profile (Store)

/-- The request of "al" to invite the profiles 2 and 9, of which 9 does not exist. -/
def inviteBoNobody : NewInvite :=
  { Attendees := [2, 9], Start := 1000, End := some 2000, Place := "studio", Message := none }

/-- The context of a request of "cy" on `storeAlBoCy`, as a handler receives it. -/
def contextCy : Context :=
  { Auth := { Hash := "$2a$pw3", Created := some 100, Updated := some 100, LastAuth := some 100,
              Profile := 3, Name := "", Username := some "cy", Token := some "T3",
              Authorized := true, InHash := "" }
    Profile := { Id := 3, Created := 100, Updated := 100, Latitude := 0, Longitude := 0,
                 Email := none, Phone := none, Name := none, Folder := "folderCy",
                 Auth := none, Utypes := [], Flags := [] } }

/-- The store after "al" has created invite 1 (`inviteBoCy`) on `storeAlBoCy`. -/
def storeInvite : Store := (invite demoEnv storeAlBoCy inviteBoCy contextAl).2

/-- The store after "al" has added the profiles 2 and 3 to invite 1. -/
def storeAttendees : Store := (addAttendees demoEnv storeInvite (.valid 1) [2, 3] contextAl).2

/-- The store after "bo" has accepted invite 1. -/
def storeAccepted : Store :=
  (changeStatus demoEnv storeAttendees (.valid 1) (some profile.StatusAccepted) contextBo).2

/-- The store after "al" has uploaded a photo, which gets id 1. -/
def storePhoto : Store :=
  (PhotoHandler.ServeHTTP demoEnv "hrefAl" storeAttendees (some ⟨["image/png"], 2048, true⟩)
    "portrait" contextAl).2

/-- The store after "al" has posted a message with photo 1 to invite 1. -/
def storeMessage : Store :=
  (addMessage demoEnv storePhoto (.valid 1) ⟨some 1, "look"⟩ contextAl).2

end main

namespace main

/-- The view of invite 1 that the handlers return on `storeAttendees`: attendees 2 and 3,
each with the status `RefreshAttendees` reads, and the given `Active`. -/
def viewInvite1 (active : Bool) : main.Invite :=
  { Attendees := [{ toProfile := { Profile.zero with Id := 2, Created := 100 }, Status := "" },
                  { toProfile := { Profile.zero with Id := 3, Created := 100 }, Status := "" }]
    Id := 1
    Organizer := { Profile.zero with Id := 1, Created := 100 }
    Active := active
    Start := 1000
    End := some 2000
    Created := 100
    Place := "studio"
    Messages := [] }

end main

namespace main

/-- The row of invite 1 in `storeAttendees`. -/
def viewInviteRow : profile.InviteRow := ⟨1, 1, true, 1000, some 2000, 100, "studio"⟩

/-- The Pending attendees the handler `addAttendees` builds on `storeAccepted` for the ids
2, 3 and 1. -/
def attendees231 : List profile.Attendee :=
  match resolveAttendees storeAccepted [2, 3, 1] with
  | .ok atts => atts
  | .error _ => []

end main

namespace profile

/-- The store `s1` has the messages and the attendee rows of the store `s`. -/
def Store.SameInviteData (s s1 : Store) : Prop :=
  s1.message = s.message ∧ s1.profile_invite = s.profile_invite

end profile

namespace main

/-- The request of "bo" to set its status for invite 1 back to Pending. -/
def requestBoPending : Request :=
  .changeStatus demoEnv (.valid 1) (some profile.StatusPending) contextBo

/-- The request of "al" to remove photo 1. -/
def requestRemovePhoto : Request := .removePhoto (.valid 1) contextAl

end main

namespace main

/-- The view of photo 1 in a reply of `demoEnv`. -/
def viewPhoto1 : main.Photo := ⟨1, 100, "chuteprofilephotos/folderAl/hrefAl", "portrait"⟩

/-- The view of "al" once photo 1 is uploaded. -/
def viewAl : main.Profile := { Profile.zero with Id := 1, Created := 100, Photos := [viewPhoto1] }

/-- The view of invite 1 that `addMessage` returns to "al" on `storePhoto`. -/
def viewMessage1 : main.Invite :=
  { viewInvite1 true with
    Organizer := viewAl
    Messages := [⟨1, 100, viewAl, some viewPhoto1, "look"⟩] }

end main

namespace profile

/-- The lookup key of an Anonymous credential in the words of the specification: the hex
encoding of SHA-512 over `UsernamelessSalt` followed by the secret. -/
def specAnonymousKey (k : Crypto) (secret : String) : String :=
  k.EncodeToString (k.Sum512 (UsernamelessSalt ++ secret))

/-- The key of table `profile`: `Id` is unique. -/
def Store.ProfileKeys (s : Store) : Prop :=
  s.profile.Pairwise (fun a b => a.Id ≠ b.Id)

/-- No invite has its organizer among its attendee rows. -/
def Store.OrganizerNotAttendee (s : Store) : Prop :=
  ∀ row ∈ s.invite, ∀ r ∈ s.profile_invite, r.invite = row.Id → r.profile ≠ row.Organizer

/-- The keys of table `invite` and the references to it: `Id` is its serial key, drawn
below `nextInviteId`, and every attendee row belongs to an invite of the table. -/
def Store.InviteKeys (s : Store) : Prop :=
  s.invite.Pairwise (fun a b => a.Id ≠ b.Id)
  ∧ (∀ row ∈ s.invite, row.Id < s.nextInviteId)
  ∧ ∀ r ∈ s.profile_invite, ∃ row ∈ s.invite, row.Id = r.invite

end profile

namespace main

open profile (Store)

/-- The stores reached from a store without invites and attendee rows through `invite`
requests and through `addAttendees` requests that do not list the actor's own profile. -/
inductive ReachableNoSelf : Store → Prop
  | start (s : Store) (h1 : s.invite = []) (h2 : s.profile_invite = []) : ReachableNoSelf s
  | invite (s : Store) (e : Env) (i : NewInvite) (c : Context) :
      ReachableNoSelf s → ReachableNoSelf (main.invite e s i c).2
  | addAttendees (s : Store) (e : Env) (u : IdParam) (as : List Int) (c : Context) :
      ReachableNoSelf s → c.Profile.Id ∉ as → ReachableNoSelf (main.addAttendees e s u as c).2

/-- The store `storeFree` after "al" has declared a third interval, which overlaps the
first. -/
def storeOverlap : Store :=
  (createFreetime demoEnv storeFree .absent [⟨900, 1500⟩] contextAl).2

/-- The request of "bo" to invite the profile 3 with a first message that shows photo 1,
a photo of "al". -/
def inviteForeignPhoto : NewInvite :=
  { Attendees := [3], Start := 5000, End := none, Place := "roof",
    Message := some ⟨some 1, "nice photo"⟩ }

/-- The request of "bo" to add an unauthorized device credential. -/
def deviceUnauthorized : AuthChange := ⟨some "dev", none, "phone", false⟩

end main

namespace main

open profile (Store)

/-- An Anonymous credential for the device secret "dev", before `Auth.Create`. -/
def authDevice : profile.Auth :=
  { profile.Auth.zero with InHash := "dev", Profile := 1, Name := "phone" }

/-- The store `storeInvite` after its organizer "al" has put the own profile id in the
list of `addAttendees` for invite 1. -/
def storeSelfInvited : Store := (addAttendees demoEnv storeInvite (.valid 1) [1] contextAl).2

end main

/-! ## Theorems -/

namespace profile

theorem filter_singleton_of_pairwise {α : Type} {R : α → α → Prop} {p : α → Bool}
    (hR : ∀ a b, R a b → ¬ (p a = true ∧ p b = true)) :
    ∀ {l : List α} {r : α}, l.Pairwise R → r ∈ l → p r = true → l.filter p = [r]
  | [], _, _, hr, _ => by simp at hr
  | x :: xs, r, hl, hr, hp => by
    rw [List.pairwise_cons] at hl
    rcases List.mem_cons.1 hr with rfl | hmem
    · have hnone : xs.filter p = [] := by
        rw [List.filter_eq_nil_iff]
        intro y hy hpy
        exact hR _ _ (hl.1 y hy) ⟨hp, hpy⟩
      simp [List.filter_cons, hp, hnone]
    · have hx : p x = false := by
        cases hpx : p x with
        | false => rfl
        | true => exact absurd ⟨hpx, hp⟩ (hR _ _ (hl.1 r hmem))
      simp [List.filter_cons, hx, filter_singleton_of_pairwise hR hl.2 hmem hp]

end profile

namespace main

open profile (Store)

theorem demoCrypto_BcryptOracle : demoCrypto.BcryptOracle := by
  intro salt pw h hgen probe
  simp only [demoCrypto, Except.ok.injEq] at hgen
  subst hgen
  simp only [demoCrypto]
  constructor
  · intro hc
    split at hc
    · next heq =>
      have := congrArg String.data heq
      simp only [String.data_append] at this
      exact (String.ext (List.append_cancel_left this)).symm
    · cases hc
  · rintro rfl
    simp

/-- C1 (code defect). End to end on an empty database with a bcrypt stand-in that meets
the oracle reading: `Register(secret="pw", username="al")` succeeds, then
`Login(secret="pw", username="al")` is refused with 401 and
`Login(secret="wrong", username="al")` is granted a token. -/
theorem login_refuses_registered_secret :
    (createProfile demoEnv "folderAl" "T1" "salt1" Store.empty (credentials "pw" (some "al"))).1
        = .ok 201 (some "T1") (.profile { Profile.zero with Id := 1, Created := 100 })
    ∧ (login demoEnv "T2" storeAl (credentials "pw" (some "al"))).1
        = .fail (.Unauthorized "login failure")
    ∧ (login demoEnv "T2" storeAl (credentials "wrong" (some "al"))).1
        = .ok 200 (some "T2") .empty := by
  refine ⟨?_, ?_, ?_⟩ <;> decide

end main

namespace profile

theorem sqlEq_some_iff {α : Type} [DecidableEq α] (col : Option α) (x : α) :
    sqlEq col (some x) = true ↔ col = some x := by
  cases col <;> simp [sqlEq]

theorem authByUsername_eq_singleton {s : Store} {row : AuthRow} {u : String}
    (hkeys : s.AuthKeys) (hrow : row ∈ s.auth) (hu : row.Username = some u) :
    s.authByUsername (some u) = [row] := by
  refine filter_singleton_of_pairwise ?_ hkeys hrow ((sqlEq_some_iff _ _).2 hu)
  rintro a b ⟨_, hab⟩ ⟨ha, hb⟩
  rw [sqlEq_some_iff] at ha hb
  rw [ha, hb] at hab
  simp [sqlEq] at hab

theorem authByHash_eq_singleton {s : Store} {row : AuthRow}
    (hkeys : s.AuthKeys) (hrow : row ∈ s.auth) :
    s.authByHash row.Hash = [row] := by
  refine filter_singleton_of_pairwise ?_ hkeys hrow (by simp)
  rintro a b ⟨hab, _⟩ ⟨ha, hb⟩
  simp only [beq_iff_eq] at ha hb
  exact hab (ha.trans hb.symm)

/-- Once `dbmap.Update` has written a credential whose token is not `T1`, and no other
credential held `T1`, the query by token `T1` returns no row. -/
theorem authByToken_UpdateAuth_eq_nil (s : Store) (a : Auth) (T1 : String)
    (hne : a.Token ≠ some T1)
    (hhold : ∀ r ∈ s.auth, r.Token = some T1 → r.Hash = a.Hash) :
    (s.UpdateAuth a).2.authByToken (some T1) = [] := by
  simp only [Store.UpdateAuth, Store.authByToken, List.filter_eq_nil_iff, List.mem_map]
  rintro r ⟨r0, hr0, rfl⟩
  rw [sqlEq_some_iff]
  by_cases h : r0.Hash = a.Hash
  · simpa [h] using hne
  · simp only [h, if_false]
    exact fun ht => h (hhold r0 hr0 ht)

end profile

namespace main

open profile (Store)

theorem authenticate_eq_unauthorized_of_no_row (k : Crypto) (s : Store) (T : String)
    (h : s.authByToken (some T) = []) :
    authenticate k s T = .error (.Unauthorized "please log in") := by
  unfold authenticate
  split
  · rfl
  · simp [profile.Auth.Get, profile.Auth.GetWithToken, profile.Auth.zero, h, profile.SelectOne]

/-- The general form of the defect in `Auth.Authenticated`: whenever the store holds a Named credential of username `u` whose
hash the bcrypt comparison accepts for the secret `pw` alone, `login` with username `u`
grants a token exactly to the probes that differ from `pw`. -/
theorem login_named_ok_iff_secret_differs (e : Env) (tok : String) (s : Store)
    (row : profile.AuthRow) (u pw probe : String)
    (hkeys : s.AuthKeys) (hrow : row ∈ s.auth) (hu : row.Username = some u)
    (horacle : ∀ p, e.crypto.CompareHashAndPassword row.Hash p = none ↔ p = pw) :
    (login e tok s (credentials probe (some u))).1 = .ok 200 (some tok) .empty ↔ probe ≠ pw := by
  have hsel := profile.authByUsername_eq_singleton hkeys hrow hu
  have hcnt := profile.authByHash_eq_singleton hkeys hrow
  by_cases hp : probe = pw
  · subst hp
    have hc := (horacle probe).2 rfl
    simp [login, credentials, profile.NewAuth, profile.Auth.Get, profile.Auth.GetWithUsername,
      hsel, profile.SelectOne, profile.Auth.Authenticated, profile.AuthRow.scan, hu, hc, error401]
  · have hc : e.crypto.CompareHashAndPassword row.Hash probe ≠ none :=
      fun h => hp ((horacle probe).1 h)
    simp [login, credentials, profile.NewAuth, profile.Auth.Get, profile.Auth.GetWithUsername,
      hsel, profile.SelectOne, profile.Auth.Authenticated, profile.AuthRow.scan, hu, hc, hp,
      profile.Auth.Login, profile.Store.UpdateAuth, hcnt]

/-- C2. Take a credential (the rows of `auth` with key `a.Hash`, exactly one) and a
token `T1` that no other credential holds. After `Auth.Login` on it, which succeeds and
stores the fresh token `T2 ≠ T1`, and likewise after `Auth.Logout` on it, which succeeds
and clears the token, `authenticate` with `T1` fails Unauthorized. -/
theorem token_dead_after_Login_and_Logout (k : Crypto) (now : Time) (s : Store)
    (a : profile.Auth) (T1 T2 : String)
    (hrow : (s.authByHash a.Hash).length = 1)
    (hhold : ∀ r ∈ s.auth, r.Token = some T1 → r.Hash = a.Hash)
    (hfresh : T2 ≠ T1) :
    ((a.Login now T2 s).1 = .ok T2
      ∧ authenticate k (a.Login now T2 s).2.2 T1 = .error (.Unauthorized "please log in"))
    ∧ ((a.Logout now s).1 = .ok ()
      ∧ authenticate k (a.Logout now s).2.2 T1 = .error (.Unauthorized "please log in")) := by
  refine ⟨⟨?_, ?_⟩, ⟨?_, ?_⟩⟩
  · simp [profile.Auth.Login, profile.Store.UpdateAuth, hrow]
  · have h := profile.authByToken_UpdateAuth_eq_nil s
      { a with Token := some T2, LastAuth := some now, Updated := some now } T1
      (by simpa using hfresh) hhold
    have hs : (a.Login now T2 s).2.2
        = (s.UpdateAuth { a with Token := some T2, LastAuth := some now, Updated := some now }).2 := by
      simp [profile.Auth.Login, profile.Store.UpdateAuth, hrow]
    rw [hs]
    exact authenticate_eq_unauthorized_of_no_row k _ T1 h
  · simp [profile.Auth.Logout, profile.Store.UpdateAuth, hrow]
  · have h := profile.authByToken_UpdateAuth_eq_nil s
      { a with Token := none, Updated := some now } T1 (by simp) hhold
    have hs : (a.Logout now s).2.2
        = (s.UpdateAuth { a with Token := none, Updated := some now }).2 := by
      simp [profile.Auth.Logout, profile.Store.UpdateAuth, hrow]
    rw [hs]
    exact authenticate_eq_unauthorized_of_no_row k _ T1 h

end main

namespace profile

theorem Get_of_Matches {k : Crypto} {s : Store} {row : AuthRow} {h : String}
    {u : Option String} {a : Auth}
    (hkeys : s.AuthKeys) (hrow : row ∈ s.auth) (hm : row.Matches k h u)
    (ha : NewAuth (some h) u = some a) :
    ∃ a1, a.Get k s = .ok a1 ∧ a1.toAuthRow = row := by
  simp only [NewAuth, Option.some.injEq] at ha
  subst ha
  cases u with
  | none =>
    simp only [AuthRow.Matches] at hm
    have hsel := authByHash_eq_singleton hkeys hrow
    rw [hm] at hsel
    simp [Auth.Get, Auth.GetWithHash, hsel, SelectOne, AuthRow.scan]
  | some u =>
    simp only [AuthRow.Matches] at hm
    have hsel := authByUsername_eq_singleton hkeys hrow hm
    simp [Auth.Get, Auth.GetWithUsername, hsel, SelectOne, AuthRow.scan]

end profile

namespace main

open profile (Store)

/-- What `authenticate` does with a non-empty token that exactly one credential holds and
whose profile row exists: it succeeds, with that credential and profile as context, when
the credential has no username or the bcrypt comparison of its hash with the empty
`InHash` reports an error; it fails Unauthorized when the credential has a username and
that comparison succeeds. -/
theorem authenticate_of_token_row (k : Crypto) (s : Store) (T : String)
    (row : profile.AuthRow) (prow : profile.ProfileRow)
    (hT : T ≠ "") (htok : s.authByToken (some T) = [row])
    (hprof : s.profile.filter (fun r => r.Id == row.Profile) = [prow]) :
    ((row.Username = none ∨ k.CompareHashAndPassword row.Hash "" ≠ none) →
      ∃ p, authenticate k s T = .ok ⟨row.scan, p⟩ ∧ p.toProfileRow = prow
        ∧ p.Auth = some row.scan)
    ∧ ((row.Username ≠ none ∧ k.CompareHashAndPassword row.Hash "" = none) →
      authenticate k s T = .error (.Unauthorized "please log in")) := by
  constructor
  · intro h
    have hauth : row.scan.Authenticated k = true := by
      rcases h with h | h
      · simp [profile.Auth.Authenticated, profile.AuthRow.scan, h]
      · simp [profile.Auth.Authenticated, profile.AuthRow.scan, h]
    refine ⟨{ toProfileRow := prow, Auth := some row.scan,
              Utypes := s.utype.filter (fun t =>
                s.profile_utype.any (fun pt => pt.utype == t.Id && pt.profile == prow.Id)),
              Flags := s.flag.filter (fun f =>
                s.profile_flag.any (fun pf => pf.flag == f.Id && pf.profile == prow.Id)) },
      ?_, rfl, rfl⟩
    have hprof1 : s.profile.filter (fun r => r.Id == row.scan.Profile) = [prow] := hprof
    simp [authenticate, hT, profile.Auth.Get, profile.Auth.zero,
      profile.Auth.GetWithToken, htok, profile.SelectOne, hauth, profile.Profile.Get, hprof1,
      profile.Profile.PostGet, profile.ProfileRow.scan]
  · rintro ⟨hu, hc⟩
    have hauth : row.scan.Authenticated k = false := by
      simp [profile.Auth.Authenticated, profile.AuthRow.scan, hu, hc]
    simp [authenticate, hT, profile.Auth.Get, profile.Auth.zero, profile.Auth.GetWithToken,
      htok, profile.SelectOne, hauth]

/-- C3 (code defect). In `storeAlBo` the Named credential "bo", registered with the empty
secret, holds the token "T9" and its profile row exists, yet `authenticate` with "T9"
fails Unauthorized; the token "T1" of "al", registered with secret "pw", authenticates. -/
theorem authenticate_refuses_named_empty_secret :
    (∃ row ∈ storeAlBo.auth, row.Username = some "bo" ∧ row.Token = some "T9"
        ∧ storeAlBo.authByToken (some "T9") = [row]
        ∧ ∃ p ∈ storeAlBo.profile, p.Id = row.Profile)
    ∧ authenticate demoCrypto storeAlBo "T9" = .error (.Unauthorized "please log in")
    ∧ (authenticate demoCrypto storeAlBo "T1").toBool = true := by
  refine ⟨?_, by decide, by decide⟩
  refine ⟨⟨"$2a$", some 100, some 100, some 100, 2, "", some "bo", some "T9", true⟩,
    by decide, by decide, by decide, by decide, ?_⟩
  exact ⟨⟨2, 100, 100, 0, 0, none, none, none, "folderBo"⟩, by decide, by decide⟩

/-- C4, as stated, fails: registering the username "al" a second time is answered with
`BadRequest` (400) "auth exists", not with a `Conflict` error. -/
theorem createProfile_existing_is_not_Conflict :
    (createProfile demoEnv "folderX" "T5" "salt5" storeAl (credentials "other" (some "al"))).1
        = .fail (.BadRequest "auth exists")
    ∧ ¬ ∃ msg, (createProfile demoEnv "folderX" "T5" "salt5" storeAl
          (credentials "other" (some "al"))).1 = .fail (.Conflict msg) := by
  have h : (createProfile demoEnv "folderX" "T5" "salt5" storeAl
      (credentials "other" (some "al"))).1 = .fail (.BadRequest "auth exists") := by decide
  refine ⟨h, ?_⟩
  rintro ⟨msg, hmsg⟩
  rw [h] at hmsg
  cases hmsg

/-- C4, amended. In a store where `Hash` is the key of `auth` and usernames are unique,
whenever a credential matching the probe exists (same username for a Named probe, same
digest for an Anonymous one), `createProfile` fails with `BadRequest` (400) "auth exists"
and the store, hence its profiles and credentials, is unchanged. -/
theorem createProfile_existing_BadRequest (e : Env) (folder tok salt : String) (s : Store)
    (r : main.Auth) (h : String) (row : profile.AuthRow)
    (hh : r.Hash = some h) (hkeys : s.AuthKeys) (hrow : row ∈ s.auth)
    (hm : row.Matches e.crypto h r.Username) :
    createProfile e folder tok salt s r = (.fail (.BadRequest "auth exists"), s) := by
  have ha : profile.NewAuth r.Hash r.Username = profile.NewAuth (some h) r.Username := by rw [hh]
  cases hn : profile.NewAuth (some h) r.Username with
  | none => simp [profile.NewAuth] at hn
  | some a =>
    obtain ⟨a1, hget, _⟩ := profile.Get_of_Matches hkeys hrow hm hn
    simp [createProfile, ha, hn, hget, error400]

/-- C5, as stated, fails: "bo" probing the username "al", a credential of another
profile, is answered with `BadRequest` (400) "unauthorized access", not `Forbidden`. -/
theorem createAuth_foreign_is_not_Forbidden :
    (createAuth demoEnv "T6" "salt6" storeAlBo ⟨some "guess", some "al", "mine", true⟩ contextBo).1
        = .fail (.BadRequest "unauthorized access")
    ∧ ¬ ∃ msg, (createAuth demoEnv "T6" "salt6" storeAlBo ⟨some "guess", some "al", "mine", true⟩
          contextBo).1 = .fail (.Forbidden msg) := by
  have h : (createAuth demoEnv "T6" "salt6" storeAlBo ⟨some "guess", some "al", "mine", true⟩
      contextBo).1 = .fail (.BadRequest "unauthorized access") := by decide
  refine ⟨h, ?_⟩
  rintro ⟨msg, hmsg⟩
  rw [h] at hmsg
  cases hmsg

/-- C5, amended. In a store where `Hash` is the key of `auth` and usernames are unique,
whenever the probe matches an existing credential that carries a username and belongs to
a profile other than the actor's, `createAuth` fails with `BadRequest` (400)
"unauthorized access" and the store, hence the stored credential, is unchanged. -/
theorem createAuth_foreign_BadRequest (e : Env) (tok salt : String) (s : Store)
    (r : AuthChange) (c : Context) (h : String) (row : profile.AuthRow)
    (hh : r.Hash = some h) (hkeys : s.AuthKeys) (hrow : row ∈ s.auth)
    (hm : row.Matches e.crypto h r.Username)
    (hnamed : row.Username ≠ none) (hother : row.Profile ≠ c.Profile.Id) :
    createAuth e tok salt s r c = (.fail (.BadRequest "unauthorized access"), s) := by
  cases hn : profile.NewAuth (some h) r.Username with
  | none => simp [profile.NewAuth] at hn
  | some a =>
    obtain ⟨a1, hget, ha1⟩ := profile.Get_of_Matches hkeys hrow hm hn
    have h1 : a1.Username ≠ none := by
      have : a1.Username = row.Username := by rw [← ha1]
      rw [this]; exact hnamed
    have h2 : a1.Profile ≠ c.Profile.Id := by
      have : a1.Profile = row.Profile := by rw [← ha1]
      rw [this]; exact hother
    simp [createAuth, hh, hn, hget, error400, h1, h2]

end main

namespace profile

theorem mapM_eq_ok_map {α β : Type} {f : α → Except GoError β} {g : α → β}
    (h : ∀ a, f a = .ok (g a)) : ∀ l : List α, l.mapM f = .ok (l.map g)
  | [] => rfl
  | a :: l => by
    rw [List.mapM_cons, h a, mapM_eq_ok_map h l]
    rfl

/-- The profile `PostGet` makes of a row: flags and utypes from the join tables. -/
theorem PostGet_scan (s : Store) (r : ProfileRow) :
    Profile.PostGet s r.scan = .ok
      { toProfileRow := r, Auth := none,
        Utypes := s.utype.filter (fun t =>
          s.profile_utype.any (fun pt => pt.utype == t.Id && pt.profile == r.Id)),
        Flags := s.flag.filter (fun f =>
          s.profile_flag.any (fun pf => pf.flag == f.Id && pf.profile == r.Id)) } := by
  simp [Profile.PostGet, ProfileRow.scan]

/-- C8. `Profile.Search` returns a list `res`, and a profile row `p` of the store has its
id in `res` exactly when (1) some `free` row of `p` has `freestart < from < freeend`,
(2) `U` is empty or `p` has a `profile_utype` row with a utype of `U`, and (3) `p` has a
`profile_flag` row for every flag of `F`. -/
theorem Search_mem_iff (s : Store) (me : Profile) (frm : Time) (U F : List Int) :
    ∃ res, me.Search s frm U F = .ok res ∧
      ∀ p ∈ s.profile,
        ((∃ r ∈ res, r.Id = p.Id) ↔
          (∃ f ∈ s.free, f.Profile = p.Id ∧ f.Start < frm ∧ frm < f.End)
          ∧ (U = [] ∨ ∃ u ∈ U, (⟨u, p.Id⟩ : ProfileUtype) ∈ s.profile_utype)
          ∧ ∀ fl ∈ F, (⟨fl, p.Id⟩ : ProfileFlag) ∈ s.profile_flag) := by
  refine ⟨_, mapM_eq_ok_map (PostGet_scan s) _, ?_⟩
  intro p hp
  have hflag : ∀ (q v : Int),
      (s.profile_flag.any (fun pf => pf.profile == q && pf.flag == v) = true)
        ↔ (⟨v, q⟩ : ProfileFlag) ∈ s.profile_flag := by
    intro q v
    simp only [List.any_eq_true, Bool.and_eq_true, beq_iff_eq]
    constructor
    · rintro ⟨⟨fl, pr⟩, hmem, h1, h2⟩
      simp only at h1 h2
      subst h1 h2
      exact hmem
    · intro hmem
      exact ⟨_, hmem, rfl, rfl⟩
  have hutype : ∀ (q : Int),
      (s.profile_utype.any (fun pt => pt.profile == q && U.any (fun v => pt.utype == v)) = true)
        ↔ ∃ u ∈ U, (⟨u, q⟩ : ProfileUtype) ∈ s.profile_utype := by
    intro q
    simp only [List.any_eq_true, Bool.and_eq_true, beq_iff_eq]
    constructor
    · rintro ⟨⟨ut, pr⟩, hmem, h1, v, hv, h2⟩
      simp only at h1 h2
      subst h1 h2
      exact ⟨_, hv, hmem⟩
    · rintro ⟨u, hu, hmem⟩
      exact ⟨_, hmem, rfl, u, hu, rfl⟩
  simp only [Store.searchRows, List.mem_map, List.mem_flatMap, List.mem_filter,
    Bool.and_eq_true, Bool.or_eq_true, decide_eq_true_eq, List.all_eq_true, beq_iff_eq,
    hflag, hutype, List.length_eq_zero]
  constructor
  · rintro ⟨r, ⟨q, ⟨f, ⟨hf, ⟨⟨⟨h1, h2⟩, h3⟩, h4⟩⟩, hq, hfq⟩, rfl⟩, hid⟩
    simp only at hid
    rw [hfq, hid] at h3 h4
    exact ⟨⟨f, hf, hfq.trans hid, h1, h2⟩, h4, h3⟩
  · rintro ⟨⟨f, hf, hfp, h1, h2⟩, h4, h3⟩
    refine ⟨_, ⟨p, ⟨f, ⟨hf, ⟨⟨⟨h1, h2⟩, ?_⟩, ?_⟩⟩, hp, hfp⟩, rfl⟩, rfl⟩
    · rw [hfp]; exact h3
    · rw [hfp]; exact h4

end profile

namespace main

open profile (Store)

/-- C6. When the submitted list holds an interval whose `End` is not strictly after its
`Start`, `createFreetime` answers `BadRequest` (400) and the store is unchanged: nothing
is inserted or updated, the valid intervals ahead of the bad one included. -/
theorem createFreetime_rejects_bad_interval (e : Env) (s : Store) (u : IdParam)
    (fs : List Freetime) (c : Context) (hbad : ∃ f ∈ fs, ¬ f.Start < f.End) :
    ∃ msg, createFreetime e s u fs c = (.fail (.BadRequest msg), s) := by
  obtain ⟨f, hf, hnot⟩ := hbad
  cases hfind : fs.find? (fun f => !decide (f.Start < f.End)) with
  | none =>
    rw [List.find?_eq_none] at hfind
    have := hfind f hf
    simp [hnot] at this
  | some g =>
    exact ⟨toString g.End ++ " is not after " ++ toString g.Start,
      by simp [createFreetime, hfind, error400]⟩

/-- The handler `invite` never writes to `profile_invite`. -/
theorem invite_profile_invite_unchanged (e : Env) (s : Store) (i : NewInvite) (c : Context) :
    (invite e s i c).2.profile_invite = s.profile_invite := by
  unfold invite
  split
  · rfl
  · split
    · rfl
    · split
      · rfl
      · simp only [profile.Invite.Create, profile.Invite.PostInsert,
          profile.Invite.PostInsertLoop]
        cases hm : i.Message with
        | none =>
          simp only []
          split
          · rfl
          · split
            · rfl
            · rfl
        | some msg =>
          simp only [profile.Message.Create]
          split
          · rfl
          · split
            · rfl
            · rfl

/-- C9 (code defect). On `storeAlBoCy`, "al" (profile 1) invites the existing profiles 2
and 3: the handler answers 200 and stores an invite with organizer 1 and `Active = true`,
but no attendee row at all, and the invite it returns has no attendees. -/
theorem invite_stores_no_attendee :
    (profile.GetProfile storeAlBoCy 2).toBool = true
    ∧ (profile.GetProfile storeAlBoCy 3).toBool = true
    ∧ (∃ out, (invite demoEnv storeAlBoCy inviteBoCy contextAl).1 = .ok 200 none (.invite out)
        ∧ out.Attendees = [])
    ∧ (invite demoEnv storeAlBoCy inviteBoCy contextAl).2.invite
        = [⟨1, 1, true, 1000, some 2000, 100, "studio"⟩]
    ∧ (invite demoEnv storeAlBoCy inviteBoCy contextAl).2.profile_invite = [] := by
  refine ⟨by decide, by decide, ?_, by decide, by decide⟩
  refine ⟨{ Attendees := [], Id := 1,
            Organizer := { Profile.zero with Id := 1, Created := 100 },
            Active := true, Start := 1000, End := some 2000, Created := 100,
            Place := "studio", Messages := [] }, by decide, rfl⟩

end main

namespace profile

theorem NewFreetime_fresh (now : Time) (s : Store) (p : Profile) (st en : Time)
    (h : s.free.any (fun r => r.Profile == p.Id && r.Start == st) = false) :
    p.NewFreetime now s st en
      = (.ok (), { s with free := s.free ++ [⟨s.nextFreeId, p.Id, now, st, en⟩],
                          nextFreeId := s.nextFreeId + 1 }) := by
  simp [Profile.NewFreetime, Store.InsertFreetime, h]

theorem NewFreetime_duplicate (now : Time) (s : Store) (p : Profile) (st en : Time)
    (h : s.free.any (fun r => r.Profile == p.Id && r.Start == st) = true) :
    p.NewFreetime now s st en = (.error .duplicateFreetime, s) := by
  simp [Profile.NewFreetime, Store.InsertFreetime, h]

theorem FreeKeys_insert (now : Time) (s : Store) (pid st en : Int) (hk : s.FreeKeys)
    (h : s.free.any (fun r => r.Profile == pid && r.Start == st) = false) :
    Store.FreeKeys { s with free := s.free ++ [⟨s.nextFreeId, pid, now, st, en⟩],
                            nextFreeId := s.nextFreeId + 1 } := by
  obtain ⟨hpair, hlt⟩ := hk
  have hnone : ∀ r ∈ s.free, ¬ (r.Profile = pid ∧ r.Start = st) := by
    intro r hr hrs
    have : s.free.any (fun r => r.Profile == pid && r.Start == st) = true := by
      rw [List.any_eq_true]
      exact ⟨r, hr, by simp [hrs.1, hrs.2]⟩
    rw [h] at this
    cases this
  constructor
  · refine List.pairwise_append.2 ⟨hpair, List.pairwise_singleton _ _, ?_⟩
    intro a ha b hb
    rw [List.mem_singleton] at hb
    subst hb
    exact ⟨fun hid => by simp only at hid; have := hlt a ha; omega, hnone a ha⟩
  · intro r hr
    simp only [List.mem_append, List.mem_singleton] at hr
    rcases hr with hr | rfl
    · have := hlt r hr
      show r.Id < s.nextFreeId + 1
      omega
    · show s.nextFreeId < s.nextFreeId + 1
      omega

theorem filter_insert (now : Time) (s : Store) (pid st en : Int)
    (h : s.free.any (fun r => r.Profile == pid && r.Start == st) = false) :
    (s.free ++ [(⟨s.nextFreeId, pid, now, st, en⟩ : Freetime)]).filter
        (fun r => r.Profile == pid && r.Start == st)
      = [⟨s.nextFreeId, pid, now, st, en⟩] := by
  have hnil : s.free.filter (fun r => r.Profile == pid && r.Start == st) = [] := by
    rw [List.filter_eq_nil_iff]
    intro r hr hp
    have : s.free.any (fun r => r.Profile == pid && r.Start == st) = true :=
      List.any_eq_true.2 ⟨r, hr, hp⟩
    rw [h] at this
    cases this
  simp [List.filter_append, hnil]

end profile

namespace profile

theorem eq_of_Id_eq {s : Store} (hk : s.FreeKeys) {r r0 : Freetime}
    (hr : r ∈ s.free) (hr0 : r0 ∈ s.free) (hid : r.Id = r0.Id) : r = r0 := by
  have hsel : s.free.filter (fun x => x.Id == r0.Id) = [r0] := by
    refine filter_singleton_of_pairwise ?_ hk.1 hr0 (by simp)
    rintro a b ⟨hab, _⟩ ⟨ha, hb⟩
    simp only [beq_iff_eq] at ha hb
    exact hab (ha.trans hb.symm)
  have hmem : r ∈ s.free.filter (fun x => x.Id == r0.Id) := by
    rw [List.mem_filter]
    exact ⟨hr, by simp [hid]⟩
  rw [hsel, List.mem_singleton] at hmem
  exact hmem

theorem setEnd_keys {s : Store} (hk : s.FreeKeys) {r0 : Freetime} (hr0 : r0 ∈ s.free)
    (en : Time) {r : Freetime} (hr : r ∈ s.free) :
    (if r.Id = r0.Id then ({ r0 with End := en } : Freetime) else r).Id = r.Id
    ∧ (if r.Id = r0.Id then ({ r0 with End := en } : Freetime) else r).Profile = r.Profile
    ∧ (if r.Id = r0.Id then ({ r0 with End := en } : Freetime) else r).Start = r.Start := by
  by_cases h : r.Id = r0.Id
  · have := eq_of_Id_eq hk hr hr0 h
    subst this
    simp
  · simp [h]

theorem UpdateFreetime_existing (s : Store) (p : Profile) (st en : Time) (hk : s.FreeKeys)
    {r0 : Freetime} (hr0 : r0 ∈ s.free) (hp : r0.Profile = p.Id) (hs : r0.Start = st) :
    p.UpdateFreetime s st en
      = (.ok (), { s with free := s.free.map (fun r =>
          if r.Id = r0.Id then ({ r0 with End := en } : Freetime) else r) }) := by
  have hsel : s.free.filter (fun r => r.Profile == p.Id && r.Start == st) = [r0] := by
    refine filter_singleton_of_pairwise ?_ hk.1 hr0 (by simp [hp, hs])
    rintro a b ⟨_, hab⟩ ⟨ha, hb⟩
    simp only [Bool.and_eq_true, beq_iff_eq] at ha hb
    exact hab ⟨ha.1.trans hb.1.symm, ha.2.trans hb.2.symm⟩
  have hcnt : s.free.filter (fun x => x.Id == r0.Id) = [r0] := by
    refine filter_singleton_of_pairwise ?_ hk.1 hr0 (by simp)
    rintro a b ⟨hab, _⟩ ⟨ha, hb⟩
    simp only [beq_iff_eq] at ha hb
    exact hab (ha.trans hb.symm)
  simp [Profile.UpdateFreetime, hsel, SelectOne, Store.UpdateFreetime, hcnt]

theorem FreeKeys_setEnd (s : Store) (en : Time) (hk : s.FreeKeys)
    {r0 : Freetime} (hr0 : r0 ∈ s.free) :
    Store.FreeKeys { s with free := s.free.map (fun r =>
      if r.Id = r0.Id then ({ r0 with End := en } : Freetime) else r) } := by
  constructor
  · show List.Pairwise _ (List.map _ s.free)
    rw [List.pairwise_map]
    refine List.Pairwise.imp_of_mem ?_ hk.1
    intro a b ha hb hab
    obtain ⟨a1, a2, a3⟩ := setEnd_keys hk hr0 en ha
    obtain ⟨b1, b2, b3⟩ := setEnd_keys hk hr0 en hb
    rw [a1, a2, a3, b1, b2, b3]
    exact hab
  · intro r hr
    have hr1 : r ∈ List.map (fun r =>
        if r.Id = r0.Id then ({ r0 with End := en } : Freetime) else r) s.free := hr
    rw [List.mem_map] at hr1
    obtain ⟨r1, hr1, rfl⟩ := hr1
    rw [(setEnd_keys hk hr0 en hr1).1]
    exact hk.2 r1 hr1

theorem filter_setEnd (s : Store) (pid st en : Int) (hk : s.FreeKeys)
    {r0 : Freetime} (hr0 : r0 ∈ s.free) (hp : r0.Profile = pid) (hs : r0.Start = st) :
    (s.free.map (fun r => if r.Id = r0.Id then ({ r0 with End := en } : Freetime) else r)).filter
        (fun r => r.Profile == pid && r.Start == st)
      = [{ r0 with End := en }] := by
  have hsel : s.free.filter (fun r => r.Profile == pid && r.Start == st) = [r0] := by
    refine filter_singleton_of_pairwise ?_ hk.1 hr0 (by simp [hp, hs])
    rintro a b ⟨_, hab⟩ ⟨ha, hb⟩
    simp only [Bool.and_eq_true, beq_iff_eq] at ha hb
    exact hab ⟨ha.1.trans hb.1.symm, ha.2.trans hb.2.symm⟩
  rw [List.filter_map]
  have hcongr : s.free.filter ((fun r => r.Profile == pid && r.Start == st) ∘
      (fun r => if r.Id = r0.Id then ({ r0 with End := en } : Freetime) else r))
      = s.free.filter (fun r => r.Profile == pid && r.Start == st) := by
    apply List.filter_congr
    intro r hr
    obtain ⟨_, h2, h3⟩ := setEnd_keys hk hr0 en hr
    simp only [Function.comp, h2, h3]
  rw [hcongr, hsel]
  simp

end profile

namespace main

open profile (Store)

/-- One `createFreetime` call with a single valid interval `(st, en)`, on a store whose
`free` table has its keys: the handler answers 200, the keys still hold, and the caller
has exactly one interval starting at `st`, ending at `en`. -/
theorem createFreetime_single (e : Env) (s : Store) (c : Context) (st en : Time)
    (hk : s.FreeKeys) (hlt : st < en) :
    ∃ body row, (createFreetime e s .absent [⟨st, en⟩] c).1 = .ok 200 none body
      ∧ (createFreetime e s .absent [⟨st, en⟩] c).2.FreeKeys
      ∧ (createFreetime e s .absent [⟨st, en⟩] c).2.free.filter
          (fun r => r.Profile == c.Profile.Id && r.Start == st) = [row]
      ∧ row.End = en := by
  have hfind : List.find? (fun f : Freetime => !decide (f.Start < f.End)) [⟨st, en⟩] = none := by
    simp [hlt]
  cases hany : s.free.any (fun r => r.Profile == c.Profile.Id && r.Start == st) with
  | false =>
    have hnew := profile.NewFreetime_fresh e.now s c.Profile st en hany
    have hrun : createFreetime e s .absent [⟨st, en⟩] c
        = (.ok 200 none (.freetimes (((({ s with
              free := s.free ++ [⟨s.nextFreeId, c.Profile.Id, e.now, st, en⟩],
              nextFreeId := s.nextFreeId + 1 } : Store).free.filter
                (fun r => r.Profile == c.Profile.Id && decide (e.today < r.Start))).insertionSort
                (fun a b => a.Start ≤ b.Start)).map (fun f => ⟨f.Start, f.End⟩))),
           { s with free := s.free ++ [⟨s.nextFreeId, c.Profile.Id, e.now, st, en⟩],
                    nextFreeId := s.nextFreeId + 1 }) := by
      simp only [createFreetime, hfind, createFreetimeLoop, hnew, getFreetime, findProfile,
        profile.Profile.GetFreetimes]
    rw [hrun]
    exact ⟨_, _, rfl, profile.FreeKeys_insert e.now s c.Profile.Id st en hk hany,
      profile.filter_insert e.now s c.Profile.Id st en hany, rfl⟩
  | true =>
    obtain ⟨r0, hr0, hkey⟩ := List.any_eq_true.1 hany
    simp only [Bool.and_eq_true, beq_iff_eq] at hkey
    have hnew := profile.NewFreetime_duplicate e.now s c.Profile st en hany
    have hupd := profile.UpdateFreetime_existing s c.Profile st en hk hr0 hkey.1 hkey.2
    have hrun : createFreetime e s .absent [⟨st, en⟩] c
        = (.ok 200 none (.freetimes (((({ s with free := s.free.map (fun r =>
              if r.Id = r0.Id then ({ r0 with End := en } : profile.Freetime) else r) }
                : Store).free.filter
                (fun r => r.Profile == c.Profile.Id && decide (e.today < r.Start))).insertionSort
                (fun a b => a.Start ≤ b.Start)).map (fun f => ⟨f.Start, f.End⟩))),
           { s with free := s.free.map (fun r =>
              if r.Id = r0.Id then ({ r0 with End := en } : profile.Freetime) else r) }) := by
      simp only [createFreetime, hfind, createFreetimeLoop, hnew, hupd, getFreetime, findProfile,
        profile.Profile.GetFreetimes, if_true]
    rw [hrun]
    exact ⟨_, _, rfl, profile.FreeKeys_setEnd s en hk hr0,
      profile.filter_setEnd s c.Profile.Id st en hk hr0 hkey.1 hkey.2, rfl⟩

/-- C7. On a store whose `free` table has its keys (serial `Id`, unique
`(profile, freestart)`), for every caller `p`, start `st` and ends `e1`, `e2` after `st`:
`createFreetime` with `(st, e1)` and then with `(st, e2)` answers 200 both times, and
afterwards `p` has exactly one interval starting at `st`, whose `End` is `e2`. -/
theorem createFreetime_twice_updates_End (ea eb : Env) (s : Store) (c : Context)
    (st e1 e2 : Time) (hk : s.FreeKeys) (h1 : st < e1) (h2 : st < e2) :
    ∃ body1 body2 row,
      (createFreetime ea s .absent [⟨st, e1⟩] c).1 = .ok 200 none body1
      ∧ (createFreetime eb (createFreetime ea s .absent [⟨st, e1⟩] c).2 .absent
          [⟨st, e2⟩] c).1 = .ok 200 none body2
      ∧ (createFreetime eb (createFreetime ea s .absent [⟨st, e1⟩] c).2 .absent
          [⟨st, e2⟩] c).2.free.filter
            (fun r => r.Profile == c.Profile.Id && r.Start == st) = [row]
      ∧ row.End = e2 := by
  obtain ⟨body1, _, hb1, hk1, _, _⟩ := createFreetime_single ea s c st e1 hk h1
  obtain ⟨body2, row, hb2, _, hrow, hend⟩ :=
    createFreetime_single eb (createFreetime ea s .absent [⟨st, e1⟩] c).2 c st e2 hk1 h2
  exact ⟨body1, body2, row, hb1, hb2, hrow, hend⟩

end main

namespace main

open profile (Store)

theorem resolveAttendees_ok (s : Store) : ∀ ids : List Int,
    (∀ id ∈ ids, ∃ p ∈ s.profile, p.Id = id) → ∃ atts, resolveAttendees s ids = .ok atts
  | [], _ => ⟨[], rfl⟩
  | id :: rest, h => by
    obtain ⟨atts, hrest⟩ := resolveAttendees_ok s rest (fun x hx => h x (List.mem_cons_of_mem _ hx))
    obtain ⟨p, hp, hid⟩ := h id (List.mem_cons_self _ _)
    cases hfind : s.profile.find? (fun r => r.Id == id) with
    | none =>
      rw [List.find?_eq_none] at hfind
      have := hfind p hp
      simp [hid] at this
    | some r =>
      refine ⟨{ toProfileRow := r, Auth := none,
                Utypes := s.utype.filter (fun t =>
                  s.profile_utype.any (fun pt => pt.utype == t.Id && pt.profile == r.Id)),
                Flags := s.flag.filter (fun f =>
                  s.profile_flag.any (fun pf => pf.flag == f.Id && pf.profile == r.Id)),
                Status := profile.StatusPending } :: atts, ?_⟩
      simp [resolveAttendees, profile.GetProfile, hfind, profile.PostGet_scan, hrest]

/-- C10. The handler `invite` answers `BadRequest` (400) and leaves the store unchanged
whenever `End` is given and `Start` is not strictly before it, or the attendee list is
empty. A missing `End` is accepted: with attendees that all resolve, the answer is not a
`BadRequest` and the invite row is stored, without an `End`. -/
theorem invite_validation (e : Env) (s : Store) (i : NewInvite) (c : Context) :
    (((∃ en, i.End = some en ∧ ¬ i.Start < en) ∨ i.Attendees = []) →
        ∃ msg, invite e s i c = (.fail (.BadRequest msg), s))
    ∧ (i.End = none → i.Attendees ≠ [] → (∀ id ∈ i.Attendees, ∃ p ∈ s.profile, p.Id = id) →
        (∀ msg, (invite e s i c).1 ≠ .fail (.BadRequest msg))
        ∧ (⟨s.nextInviteId, c.Profile.Id, true, i.Start, none, e.now, i.Place⟩ : profile.InviteRow)
            ∈ (invite e s i c).2.invite) := by
  constructor
  · rintro (⟨en, hen, hlt⟩ | hnil)
    · exact ⟨toString en ++ " is not after " ++ toString i.Start,
        by simp [invite, hen, hlt, error400]⟩
    · cases hEnd : i.End with
      | none =>
        exact ⟨"There must be at least one attendee for an invite.",
          by simp [invite, hEnd, hnil, error400]⟩
      | some en =>
        by_cases hlt : i.Start < en
        · exact ⟨"There must be at least one attendee for an invite.",
            by simp [invite, hEnd, hlt, hnil, error400]⟩
        · exact ⟨toString en ++ " is not after " ++ toString i.Start,
            by simp [invite, hEnd, hlt, error400]⟩
  · intro hEnd hne hall
    obtain ⟨atts, hres⟩ := resolveAttendees_ok s i.Attendees hall
    have hlen : ¬ i.Attendees.length < 1 := by
      cases hl : i.Attendees with
      | nil => exact absurd hl hne
      | cons a l => simp
    simp only [invite, hEnd, Option.map, hlen, if_false, hres, profile.Invite.Create,
      profile.Invite.PostInsert, profile.Invite.PostInsertLoop]
    cases i.Message with
    | none =>
      simp only []
      split
      · simp [error500]
      · split <;> simp [error500]
    | some msg =>
      simp only [profile.Message.Create]
      split
      · simp [error500]
      · split <;> simp [error500]

end main

namespace main

open profile (Store)

/-- C2 on `storeAlBoCy`: the token "T1" of "al" authenticates, and no longer does after
`Login` has replaced it by "T2" or `Logout` has cleared it. -/
theorem token_dead_after_Login_and_Logout_witness :
    (authenticate demoCrypto storeAlBoCy "T1").toBool = true
    ∧ (((authAl.Login 200 "T2" storeAlBoCy).1 = .ok "T2"
        ∧ authenticate demoCrypto (authAl.Login 200 "T2" storeAlBoCy).2.2 "T1"
            = .error (.Unauthorized "please log in"))
      ∧ ((authAl.Logout 200 storeAlBoCy).1 = .ok ()
        ∧ authenticate demoCrypto (authAl.Logout 200 storeAlBoCy).2.2 "T1"
            = .error (.Unauthorized "please log in"))) :=
  ⟨by decide,
   token_dead_after_Login_and_Logout demoCrypto 200 storeAlBoCy authAl "T1" "T2"
     (by decide) (by decide) (by decide)⟩

/-- C4, amended, on `storeAlBo`: registering the username "al" again. -/
theorem createProfile_existing_BadRequest_witness :
    rowAl ∈ storeAlBo.auth
    ∧ createProfile demoEnv "folderX" "T5" "salt5" storeAlBo (credentials "other" (some "al"))
        = (.fail (.BadRequest "auth exists"), storeAlBo) :=
  ⟨by decide,
   createProfile_existing_BadRequest demoEnv "folderX" "T5" "salt5" storeAlBo
     (credentials "other" (some "al")) "other" rowAl rfl
     (by unfold profile.Store.AuthKeys; decide) (by decide)
     (by show rowAl.Username = some "al"; decide)⟩

/-- C5, amended, on `storeAlBo`: "bo" probing the username of "al". -/
theorem createAuth_foreign_BadRequest_witness :
    rowAl ∈ storeAlBo.auth ∧ rowAl.Profile ≠ contextBo.Profile.Id
    ∧ createAuth demoEnv "T6" "salt6" storeAlBo ⟨some "guess", some "al", "mine", true⟩ contextBo
        = (.fail (.BadRequest "unauthorized access"), storeAlBo) :=
  ⟨by decide, by decide,
   createAuth_foreign_BadRequest demoEnv "T6" "salt6" storeAlBo
     ⟨some "guess", some "al", "mine", true⟩ contextBo "guess" rowAl rfl
     (by unfold profile.Store.AuthKeys; decide) (by decide)
     (by show rowAl.Username = some "al"; decide) (by decide) (by decide)⟩

/-- C6 on a list whose second interval is empty: nothing is stored, the first interval
included. -/
theorem createFreetime_rejects_bad_interval_witness :
    ∃ msg, createFreetime demoEnv storeAlBoCy .absent [⟨10, 11⟩, ⟨20, 20⟩] contextAl
      = (.fail (.BadRequest msg), storeAlBoCy) :=
  createFreetime_rejects_bad_interval demoEnv storeAlBoCy .absent [⟨10, 11⟩, ⟨20, 20⟩] contextAl
    ⟨⟨20, 20⟩, by decide, by decide⟩

/-- C7 on `storeFree`, which already holds two intervals of "al". -/
theorem createFreetime_twice_updates_End_witness :
    storeFree.free.length = 2
    ∧ ∃ body1 body2 row,
      (createFreetime demoEnv storeFree .absent [⟨1000, 1100⟩] contextAl).1 = .ok 200 none body1
      ∧ (createFreetime demoEnv (createFreetime demoEnv storeFree .absent [⟨1000, 1100⟩]
          contextAl).2 .absent [⟨1000, 1200⟩] contextAl).1 = .ok 200 none body2
      ∧ (createFreetime demoEnv (createFreetime demoEnv storeFree .absent [⟨1000, 1100⟩]
          contextAl).2 .absent [⟨1000, 1200⟩] contextAl).2.free.filter
            (fun r => r.Profile == contextAl.Profile.Id && r.Start == 1000) = [row]
      ∧ row.End = 1200 :=
  ⟨by decide,
   createFreetime_twice_updates_End demoEnv demoEnv storeFree contextAl 1000 1100 1200
     (by unfold profile.Store.FreeKeys; decide) (by decide) (by decide)⟩

/-- C10 on `storeAlBoCy`: an `End` equal to `Start`, an empty attendee list, and a
missing `End`. -/
theorem invite_validation_witness :
    (∃ msg, invite demoEnv storeAlBoCy { inviteBoCy with End := some 1000 } contextAl
        = (.fail (.BadRequest msg), storeAlBoCy))
    ∧ (∃ msg, invite demoEnv storeAlBoCy { inviteBoCy with Attendees := [] } contextAl
        = (.fail (.BadRequest msg), storeAlBoCy))
    ∧ ((∀ msg, (invite demoEnv storeAlBoCy { inviteBoCy with End := none } contextAl).1
          ≠ .fail (.BadRequest msg))
      ∧ (⟨1, 1, true, 1000, none, 100, "studio"⟩ : profile.InviteRow)
          ∈ (invite demoEnv storeAlBoCy { inviteBoCy with End := none } contextAl).2.invite) :=
  ⟨(invite_validation demoEnv storeAlBoCy { inviteBoCy with End := some 1000 } contextAl).1
      (Or.inl ⟨1000, rfl, by decide⟩),
   (invite_validation demoEnv storeAlBoCy { inviteBoCy with Attendees := [] } contextAl).1
      (Or.inr rfl),
   (invite_validation demoEnv storeAlBoCy { inviteBoCy with End := none } contextAl).2
      rfl (by decide) (by decide)⟩

end main

namespace profile

theorem scanAttendee_ok (r : ProfileRow) (status : String) :
    scanAttendee r status = .ok { toProfile := r.scan, Status := "" } := by
  simp [scanAttendee, Status.Scan]

theorem Attendee_PostGet_ok (s : Store) (a : Attendee) :
    ∃ b : Attendee, Attendee.PostGet s a = .ok b ∧ b.Id = a.Id ∧ b.Status = a.Status := by
  simp [Attendee.PostGet, Profile.PostGet]

theorem mapM_ok_of_forall {α β : Type} {f : α → Except GoError β}
    (h : ∀ a, ∃ b, f a = .ok b) : ∀ l : List α, ∃ g : α → β, (∀ a, f a = .ok (g a))
      ∧ l.mapM f = .ok (l.map g) := by
  intro l
  refine ⟨fun a => Classical.choose (h a), fun a => Classical.choose_spec (h a), ?_⟩
  exact mapM_eq_ok_map (fun a => Classical.choose_spec (h a)) l

/-- What `RefreshAttendees` reads: it never fails, and every attendee it builds comes from a
row of `profile_invite` of this invite, joined with the profile of that row. -/
theorem RefreshAttendees_ok (s : Store) (i : Invite) :
    ∃ atts, Invite.RefreshAttendees s i = (.ok (), { i with Attendees := atts })
      ∧ ∀ a ∈ atts, ∃ pi ∈ s.profile_invite, pi.profile = a.Id ∧ pi.invite = i.Id := by
  obtain ⟨g, hg, hmap⟩ := mapM_ok_of_forall
    (fun a => (Attendee_PostGet_ok s a).imp (fun _ h => h.1))
    ((s.profile.flatMap (fun p =>
      (s.profile_invite.filter (fun pi => pi.profile == p.Id && pi.invite == i.Id)).map
        (fun pi => (p, pi.status)))).map
          (fun x => ({ toProfile := x.1.scan, Status := "" } : Attendee)))
  refine ⟨((s.profile.flatMap (fun p =>
      (s.profile_invite.filter (fun pi => pi.profile == p.Id && pi.invite == i.Id)).map
        (fun pi => (p, pi.status)))).map
          (fun x => ({ toProfile := x.1.scan, Status := "" } : Attendee))).map g, ?_, ?_⟩
  · simp only [Invite.RefreshAttendees]
    rw [mapM_eq_ok_map (f := fun x : ProfileRow × String => scanAttendee x.1 x.2)
      (g := fun x => ({ toProfile := x.1.scan, Status := "" } : Attendee))
      (fun x => scanAttendee_ok x.1 x.2)]
    simp only [hmap]
  · intro a ha
    simp only [List.mem_map, List.mem_flatMap, List.mem_filter, Bool.and_eq_true,
      beq_iff_eq] at ha
    obtain ⟨b, ⟨x, ⟨p, _, pi, ⟨hpi, hp1, hp2⟩, rfl⟩, rfl⟩, rfl⟩ := ha
    obtain ⟨c, hc, hid, _⟩ := Attendee_PostGet_ok s { toProfile := p.scan, Status := "" }
    rw [hg] at hc
    cases hc
    exact ⟨pi, hpi, by rw [hid, hp1]; rfl, hp2⟩

/-- What `GetInvite` reads when a row with the id exists: the first such row, with
attendees that come from rows of `profile_invite` of this invite. -/
theorem GetInvite_of_find {s : Store} {id : Int} {row : InviteRow}
    (h : s.invite.find? (fun r => r.Id == id) = some row) :
    ∃ ii, GetInvite s id = .ok ii ∧ ii.toInviteRow = row
      ∧ ∀ a ∈ ii.Attendees, ∃ pi ∈ s.profile_invite, pi.profile = a.Id ∧ pi.invite = row.Id := by
  obtain ⟨atts, hatts, hmem⟩ := RefreshAttendees_ok s
    { toInviteRow := row, Attendees := [], Messages := [] }
  refine ⟨{ toInviteRow := row, Attendees := atts,
            Messages := (s.message.filter (fun m => m.Invite == row.Id)).insertionSort
              (fun a b => a.Id ≤ b.Id) }, ?_, rfl, hmem⟩
  simp only [GetInvite, h, Invite.PostGet, hatts, Invite.RefreshMessages]

theorem GetInvite_ok {s : Store} {id : Int} {ii : Invite} (h : GetInvite s id = .ok ii) :
    ii.Id = id ∧ ii.toInviteRow ∈ s.invite
      ∧ ∀ a ∈ ii.Attendees, ∃ pi ∈ s.profile_invite, pi.profile = a.Id ∧ pi.invite = id := by
  cases hfind : s.invite.find? (fun r => r.Id == id) with
  | none => simp [GetInvite, hfind] at h
  | some row =>
    obtain ⟨ii1, hget, hrow, hatts⟩ := GetInvite_of_find hfind
    rw [hget] at h
    cases h
    have hid : row.Id = id := by
      have := List.find?_some hfind
      simpa using this
    have hmem : row ∈ s.invite := List.mem_of_find?_eq_some hfind
    refine ⟨by rw [← hid, ← hrow], by rw [hrow]; exact hmem, ?_⟩
    intro a ha
    obtain ⟨pi, h1, h2, h3⟩ := hatts a ha
    exact ⟨pi, h1, h2, h3.trans hid⟩

end profile

namespace main

open profile (Store)

theorem resolveAttendees_error (s : Store) : ∀ ids : List Int,
    (∃ id ∈ ids, ∀ p ∈ s.profile, p.Id ≠ id) → ∃ bad, resolveAttendees s ids = .error bad
  | [], h => by
    obtain ⟨_, hmem, _⟩ := h
    cases hmem
  | id :: rest, h => by
    cases hfind : s.profile.find? (fun r => r.Id == id) with
    | none => exact ⟨id, by simp [resolveAttendees, profile.GetProfile, hfind]⟩
    | some r =>
      have hid : r.Id = id := by simpa using List.find?_some hfind
      have hmem : r ∈ s.profile := List.mem_of_find?_eq_some hfind
      have hrest : ∃ x ∈ rest, ∀ p ∈ s.profile, p.Id ≠ x := by
        obtain ⟨x, hx, hno⟩ := h
        rcases List.mem_cons.1 hx with rfl | hx
        · exact absurd hid (hno r hmem)
        · exact ⟨x, hx, hno⟩
      obtain ⟨bad, hbad⟩ := resolveAttendees_error s rest hrest
      exact ⟨bad, by simp [resolveAttendees, profile.GetProfile, hfind, profile.PostGet_scan, hbad]⟩

/-- C11, as stated, fails: inviting the profiles 2 and 9, of which 9 does not exist, is
answered with `BadRequest` (400), not with `NotFound`; no invite is inserted. -/
theorem invite_unresolved_is_not_NotFound :
    (invite demoEnv storeAlBoCy inviteBoNobody contextAl)
        = (.fail (.BadRequest "'9' is not a valid Profile id."), storeAlBoCy)
    ∧ ¬ ∃ msg, (invite demoEnv storeAlBoCy inviteBoNobody contextAl).1 = .fail (.NotFound msg) := by
  have h : (invite demoEnv storeAlBoCy inviteBoNobody contextAl)
      = (.fail (.BadRequest "'9' is not a valid Profile id."), storeAlBoCy) := by decide
  refine ⟨h, ?_⟩
  rintro ⟨msg, hmsg⟩
  rw [h] at hmsg
  cases hmsg

/-- C11, amended. Whenever some attendee id of the request does not resolve to a row of
`profile`, the handler `invite` fails with `BadRequest` (400) and the store is unchanged:
no invite is inserted. -/
theorem invite_unresolved_BadRequest (e : Env) (s : Store) (i : NewInvite) (c : Context)
    (h : ∃ id ∈ i.Attendees, ∀ p ∈ s.profile, p.Id ≠ id) :
    ∃ msg, invite e s i c = (.fail (.BadRequest msg), s) := by
  obtain ⟨bad, hbad⟩ := resolveAttendees_error s i.Attendees h
  have hlen : ¬ i.Attendees.length < 1 := by
    obtain ⟨id, hid, _⟩ := h
    cases hl : i.Attendees with
    | nil => rw [hl] at hid; cases hid
    | cons a l => simp
  cases hEnd : i.End with
  | none =>
    exact ⟨"'" ++ toString bad ++ "' is not a valid Profile id.",
      by simp [invite, hEnd, hlen, hbad, error400]⟩
  | some en =>
    by_cases hlt : i.Start < en
    · exact ⟨"'" ++ toString bad ++ "' is not a valid Profile id.",
        by simp [invite, hEnd, hlt, hlen, hbad, error400]⟩
    · exact ⟨toString en ++ " is not after " ++ toString i.Start,
        by simp [invite, hEnd, hlt, error400]⟩

/-- C11, amended, on `storeAlBoCy`: inviting the profiles 2 and 9. -/
theorem invite_unresolved_BadRequest_witness :
    ∃ msg, invite demoEnv storeAlBoCy inviteBoNobody contextAl
      = (.fail (.BadRequest msg), storeAlBoCy) :=
  invite_unresolved_BadRequest demoEnv storeAlBoCy inviteBoNobody contextAl
    ⟨9, by decide, by decide⟩

end main

namespace profile

/-- C12. `Invite.ChangeStatus(actor, st)` returns no error; it turns every
`profile_invite` row of `(actor, invite)` into the same row with status `st`, leaves
every other row (other attendees of the invite, rows of other invites) as it was and in
place, and touches no other table. -/
theorem ChangeStatus_frame (s : Store) (i : Invite) (actor : Profile) (st : Status) :
    (i.ChangeStatus s actor st).1 = .ok ()
    ∧ (i.ChangeStatus s actor st).2.profile_invite.length = s.profile_invite.length
    ∧ (∀ (n : Nat) (r : ProfileInvite), s.profile_invite[n]? = some r →
        (r.profile = actor.Id ∧ r.invite = i.Id →
          (i.ChangeStatus s actor st).2.profile_invite[n]? = some ⟨r.profile, r.invite, st⟩)
        ∧ (¬ (r.profile = actor.Id ∧ r.invite = i.Id) →
          (i.ChangeStatus s actor st).2.profile_invite[n]? = some r))
    ∧ (i.ChangeStatus s actor st).2
        = { s with profile_invite := (i.ChangeStatus s actor st).2.profile_invite } := by
  refine ⟨rfl, by simp [Invite.ChangeStatus], ?_, rfl⟩
  intro n r hr
  simp only [Invite.ChangeStatus, List.getElem?_map, hr, Option.map_some']
  constructor
  · intro h
    simp [h]
  · intro h
    simp [h]

/-- C15. `Invite.Cancel` returns no error whether the invite was active or not; afterwards
every row of `invite` with the id has `Active = false` and its other fields as before,
every other row and every other table is unchanged, and a second `Cancel` returns no
error and leaves the store as the first one left it. -/
theorem Cancel_idempotent (s : Store) (i : Invite) :
    (i.Cancel s).1 = .ok ()
    ∧ (i.Cancel s).2.invite.length = s.invite.length
    ∧ (∀ (n : Nat) (r : InviteRow), s.invite[n]? = some r →
        (r.Id = i.Id → (i.Cancel s).2.invite[n]?
            = some ⟨r.Id, r.Organizer, false, r.Start, r.End, r.Created, r.Place⟩)
        ∧ (r.Id ≠ i.Id → (i.Cancel s).2.invite[n]? = some r))
    ∧ (i.Cancel s).2 = { s with invite := (i.Cancel s).2.invite }
    ∧ i.Cancel (i.Cancel s).2 = (.ok (), (i.Cancel s).2) := by
  refine ⟨rfl, by simp [Invite.Cancel], ?_, rfl, ?_⟩
  · intro n r hr
    simp only [Invite.Cancel, List.getElem?_map, hr, Option.map_some']
    constructor
    · intro h
      simp [h]
    · intro h
      simp [h]
  · simp only [Invite.Cancel, List.map_map, Prod.mk.injEq, true_and]
    congr 1
    apply List.map_congr_left
    intro r _
    by_cases h : r.Id = i.Id
    · simp [h]
    · simp [h]

end profile

namespace main

open profile (Store)

theorem store_eta_profile_invite (s : Store) : { s with profile_invite := s.profile_invite } = s := by
  cases s
  rfl

theorem ChangeStatus_non_attendee_store (s : Store) (ii : profile.Invite) (p : profile.Profile)
    (st : profile.Status)
    (hnot : ∀ r ∈ s.profile_invite, ¬ (r.profile = p.Id ∧ r.invite = ii.Id)) :
    ii.ChangeStatus s p st = (.ok (), s) := by
  have hmap : s.profile_invite.map (fun r =>
      if r.profile = p.Id ∧ r.invite = ii.Id then { r with status := st } else r)
      = s.profile_invite := by
    conv_rhs => rw [← List.map_id s.profile_invite]
    apply List.map_congr_left
    intro r hr
    simp [hnot r hr]
  simp only [profile.Invite.ChangeStatus, hmap, store_eta_profile_invite]

/-- C14. Take an invite that can be read (`getInvite` answers 200 with the view `out`), an
actor with no `profile_invite` row for it and a valid status. Then `Invite.ChangeStatus`
returns no error and leaves the store as it was, and the handler `changeStatus` answers
200 with the view `out`, the store unchanged. -/
theorem changeStatus_non_attendee (e : Env) (s : Store) (id : Int) (st : profile.Status)
    (c : Context) (out : main.Invite)
    (hvalid : profile.Statuses st = true)
    (hnot : ∀ r ∈ s.profile_invite, ¬ (r.profile = c.Profile.Id ∧ r.invite = id))
    (hread : (getInvite e s (.valid id)).1 = .ok 200 none (.invite out)) :
    (∃ ii, profile.GetInvite s id = .ok ii ∧ ii.ChangeStatus s c.Profile st = (.ok (), s))
    ∧ changeStatus e s (.valid id) (some st) c = (.ok 200 none (.invite out), s) := by
  cases hget : profile.GetInvite s id with
  | error err => simp [getInvite, hget, error500] at hread
  | ok ii =>
    obtain ⟨hid, _, hatts⟩ := profile.GetInvite_ok hget
    have hstore := ChangeStatus_non_attendee_store s ii c.Profile st (by rw [hid]; exact hnot)
    refine ⟨⟨ii, rfl, hstore⟩, ?_⟩
    cases hconv : Invite.convert e s ii with
    | error err => simp [getInvite, hget, hconv, error500] at hread
    | ok i =>
      have hout : i = out := by
        simpa [getInvite, hget, hconv] using hread
      have hloop : ii.Attendees.map (fun a =>
          if a.Id = c.Profile.Id then ({ a with Status := st } : profile.Attendee) else a)
          = ii.Attendees := by
        conv_rhs => rw [← List.map_id ii.Attendees]
        apply List.map_congr_left
        intro a ha
        obtain ⟨pi, hpi, h1, h2⟩ := hatts a ha
        have : ¬ a.Id = c.Profile.Id := fun h => hnot pi hpi ⟨h1.trans h, h2⟩
        simp [this]
      have hii : ({ ii with Attendees := ii.Attendees } : profile.Invite) = ii := by
        cases ii
        rfl
      simp only [changeStatus, hvalid, lookupInvite, hget, hstore, hloop, hii, hconv, hout]
      rfl

/-- C14 on `storeAttendees`: "al", the organizer, is not an attendee of invite 1. -/
theorem changeStatus_non_attendee_witness :
    ∃ out, (∃ ii, profile.GetInvite storeAttendees 1 = .ok ii
        ∧ ii.ChangeStatus storeAttendees contextAl.Profile profile.StatusAccepted
            = (.ok (), storeAttendees))
      ∧ changeStatus demoEnv storeAttendees (.valid 1) (some profile.StatusAccepted) contextAl
          = (.ok 200 none (.invite out), storeAttendees) :=
  ⟨viewInvite1 true,
   changeStatus_non_attendee demoEnv storeAttendees 1 profile.StatusAccepted contextAl
     (viewInvite1 true) (by decide) (by decide) (by decide)⟩

/-- The handler `cancelInvite` does not look at the actor. -/
theorem cancelInvite_ignores_actor (e : Env) (s : Store) (u : IdParam) (c c1 : Context) :
    cancelInvite e s u c = cancelInvite e s u c1 := rfl

/-- C16 (code defect). In `storeAttendees` invite 1 is active and organized by profile 1;
the handler `cancelInvite`, called by "bo" (profile 2), answers 200 and leaves the invite
with `Active = false`. -/
theorem cancelInvite_by_non_organizer :
    storeAttendees.invite = [⟨1, 1, true, 1000, some 2000, 100, "studio"⟩]
    ∧ contextBo.Profile.Id = 2
    ∧ (∃ out, (cancelInvite demoEnv storeAttendees (.valid 1) contextBo).1
        = .ok 200 none (.invite out) ∧ out.Active = false)
    ∧ (cancelInvite demoEnv storeAttendees (.valid 1) contextBo).2.invite
        = [⟨1, 1, false, 1000, some 2000, 100, "studio"⟩] := by
  refine ⟨by decide, by decide, ?_, by decide⟩
  exact ⟨viewInvite1 false, by decide, rfl⟩

end main

namespace profile

theorem Store.eta_profile_invite (s : Store) : { s with profile_invite := s.profile_invite } = s := by
  cases s
  rfl

theorem InsertProfileInvite_duplicate (s : Store) (row : ProfileInvite)
    (h : s.profile_invite.any (fun r => r.profile == row.profile && r.invite == row.invite) = true) :
    s.InsertProfileInvite row = (.error .uniqueViolation, s) := by
  simp [Store.InsertProfileInvite, h]

theorem InsertProfileInvite_fresh (s : Store) (row : ProfileInvite)
    (h : s.profile_invite.any (fun r => r.profile == row.profile && r.invite == row.invite) = false) :
    s.InsertProfileInvite row
      = (.ok (), { s with profile_invite := s.profile_invite ++ [row] }) := by
  simp [Store.InsertProfileInvite, h]

theorem AttendeeKeys_insert (s : Store) (row : ProfileInvite) (hk : s.AttendeeKeys)
    (h : s.profile_invite.any (fun r => r.profile == row.profile && r.invite == row.invite) = false) :
    Store.AttendeeKeys { s with profile_invite := s.profile_invite ++ [row] } := by
  refine List.pairwise_append.2 ⟨hk, List.pairwise_singleton _ _, ?_⟩
  intro a ha b hb hab
  rw [List.mem_singleton] at hb
  subst hb
  have : s.profile_invite.any (fun r => r.profile == b.profile && r.invite == b.invite) = true :=
    List.any_eq_true.2 ⟨a, ha, by simp [hab.1, hab.2]⟩
  rw [h] at this
  cases this

/-- Two rows of `profile_invite` with the same key are the same row. -/
theorem eq_of_attendee_key {s : Store} (hk : s.AttendeeKeys) {r r0 : ProfileInvite}
    (hr : r ∈ s.profile_invite) (hr0 : r0 ∈ s.profile_invite)
    (hp : r.profile = r0.profile) (hi : r.invite = r0.invite) : r = r0 := by
  have hsel : s.profile_invite.filter
      (fun x => x.profile == r0.profile && x.invite == r0.invite) = [r0] := by
    refine filter_singleton_of_pairwise ?_ hk hr0 (by simp)
    rintro a b hab ⟨ha, hb⟩
    simp only [Bool.and_eq_true, beq_iff_eq] at ha hb
    exact hab ⟨ha.1.trans hb.1.symm, ha.2.trans hb.2.symm⟩
  have hmem : r ∈ s.profile_invite.filter
      (fun x => x.profile == r0.profile && x.invite == r0.invite) := by
    rw [List.mem_filter]
    exact ⟨hr, by simp [hp, hi]⟩
  rw [hsel, List.mem_singleton] at hmem
  exact hmem

/-- What `AddAttendees` does on a store with unique `(profile, invite)`: it returns no
error and appends rows `new` to `profile_invite`, all of this invite and each made from an
attendee of the list; the keys stay unique and every attendee of the list has a row. -/
theorem AddAttendees_appends (i : Invite) : ∀ (as : List Attendee) (s : Store), s.AttendeeKeys →
    ∃ new : List ProfileInvite,
      i.AddAttendees as s = (.ok (), { s with profile_invite := s.profile_invite ++ new })
      ∧ Store.AttendeeKeys { s with profile_invite := s.profile_invite ++ new }
      ∧ (∀ r ∈ new, r.invite = i.Id ∧ ∃ a ∈ as, a.Id = r.profile ∧ r.status = a.Status)
      ∧ (∀ a ∈ as, ∃ r ∈ s.profile_invite ++ new, r.profile = a.Id ∧ r.invite = i.Id)
  | [], s, hk => by
    refine ⟨[], ?_, ?_, ?_, ?_⟩
    · simp [Invite.AddAttendees, Store.eta_profile_invite]
    · simpa [Store.eta_profile_invite] using hk
    · intro r hr
      cases hr
    · intro a ha
      cases ha
  | a :: rest, s, hk => by
    cases hany : s.profile_invite.any (fun r => r.profile == a.Id && r.invite == i.Id) with
    | true =>
      obtain ⟨new, hrun, hkeys, hnew, hall⟩ := AddAttendees_appends i rest s hk
      refine ⟨new, ?_, hkeys, ?_, ?_⟩
      · simp only [Invite.AddAttendees]
        rw [InsertProfileInvite_duplicate s ⟨a.Id, i.Id, a.Status⟩ hany]
        simpa using hrun
      · intro r hr
        obtain ⟨h1, b, hb, h2⟩ := hnew r hr
        exact ⟨h1, b, List.mem_cons_of_mem _ hb, h2⟩
      · intro b hb
        rcases List.mem_cons.1 hb with rfl | hb
        · obtain ⟨r, hr, hkey⟩ := List.any_eq_true.1 hany
          simp only [Bool.and_eq_true, beq_iff_eq] at hkey
          exact ⟨r, List.mem_append_left _ hr, hkey.1, hkey.2⟩
        · exact hall b hb
    | false =>
      have hk1 := AttendeeKeys_insert s ⟨a.Id, i.Id, a.Status⟩ hk hany
      obtain ⟨new, hrun, hkeys, hnew, hall⟩ := AddAttendees_appends i rest
        { s with profile_invite := s.profile_invite ++ [⟨a.Id, i.Id, a.Status⟩] } hk1
      refine ⟨⟨a.Id, i.Id, a.Status⟩ :: new, ?_, ?_, ?_, ?_⟩
      · simp only [Invite.AddAttendees]
        rw [InsertProfileInvite_fresh s ⟨a.Id, i.Id, a.Status⟩ hany]
        simpa [List.append_assoc] using hrun
      · simpa [List.append_assoc] using hkeys
      · intro r hr
        rcases List.mem_cons.1 hr with rfl | hr
        · exact ⟨rfl, a, List.mem_cons_self _ _, rfl, rfl⟩
        · obtain ⟨h1, b, hb, h2⟩ := hnew r hr
          exact ⟨h1, b, List.mem_cons_of_mem _ hb, h2⟩
      · intro b hb
        rcases List.mem_cons.1 hb with rfl | hb
        · exact ⟨⟨b.Id, i.Id, b.Status⟩, by simp, rfl, rfl⟩
        · obtain ⟨r, hr, hkey⟩ := hall b hb
          exact ⟨r, by simpa [List.append_assoc] using hr, hkey⟩

/-- When every attendee of the list already has a row for the invite, `AddAttendees`
returns no error and leaves the store as it is. -/
theorem AddAttendees_noop (i : Invite) : ∀ (as : List Attendee) (s : Store),
    (∀ a ∈ as, ∃ r ∈ s.profile_invite, r.profile = a.Id ∧ r.invite = i.Id) →
    i.AddAttendees as s = (.ok (), s)
  | [], s, _ => rfl
  | a :: rest, s, h => by
    have hany : s.profile_invite.any (fun r => r.profile == a.Id && r.invite == i.Id) = true := by
      obtain ⟨r, hr, h1, h2⟩ := h a (List.mem_cons_self _ _)
      exact List.any_eq_true.2 ⟨r, hr, by simp [h1, h2]⟩
    simp only [Invite.AddAttendees]
    rw [InsertProfileInvite_duplicate s ⟨a.Id, i.Id, a.Status⟩ hany]
    simpa using AddAttendees_noop i rest s (fun b hb => h b (List.mem_cons_of_mem _ hb))

end profile

namespace profile

/-- C17. On a store whose `profile_invite` rows are unique in `(profile, invite)`,
`Invite.AddAttendees` returns no error and touches no other table; the rows stay unique;
every old row is still there, so a profile that was an attendee keeps its one row and
its status; every new row is a row of this invite made from an attendee of the list;
the attendees of the invite are the old ones united with the list; and a second
identical call returns no error and changes nothing. -/
theorem AddAttendees_set_union (s : Store) (i : Invite) (as : List Attendee)
    (hk : s.AttendeeKeys) :
    (i.AddAttendees as s).1 = .ok ()
    ∧ (i.AddAttendees as s).2
        = { s with profile_invite := (i.AddAttendees as s).2.profile_invite }
    ∧ (i.AddAttendees as s).2.AttendeeKeys
    ∧ (∀ r ∈ s.profile_invite, r ∈ (i.AddAttendees as s).2.profile_invite
        ∧ ∀ r1 ∈ (i.AddAttendees as s).2.profile_invite,
            r1.profile = r.profile → r1.invite = r.invite → r1 = r)
    ∧ (∀ r ∈ (i.AddAttendees as s).2.profile_invite, r ∈ s.profile_invite
        ∨ (r.invite = i.Id ∧ ∃ a ∈ as, a.Id = r.profile ∧ r.status = a.Status))
    ∧ (∀ p : Int, (∃ r ∈ (i.AddAttendees as s).2.profile_invite, r.profile = p ∧ r.invite = i.Id)
        ↔ ((∃ r ∈ s.profile_invite, r.profile = p ∧ r.invite = i.Id) ∨ ∃ a ∈ as, a.Id = p))
    ∧ i.AddAttendees as (i.AddAttendees as s).2 = (.ok (), (i.AddAttendees as s).2) := by
  obtain ⟨new, hrun, hkeys, hnew, hall⟩ := AddAttendees_appends i as s hk
  rw [hrun]
  refine ⟨rfl, rfl, hkeys, ?_, ?_, ?_, ?_⟩
  · intro r hr
    have hmem : r ∈ s.profile_invite ++ new := List.mem_append_left _ hr
    exact ⟨hmem, fun r1 hr1 hp hi => eq_of_attendee_key hkeys hr1 hmem hp hi⟩
  · intro r hr
    rcases List.mem_append.1 hr with hr | hr
    · exact Or.inl hr
    · exact Or.inr (hnew r hr)
  · intro p
    constructor
    · rintro ⟨r, hr, hp, hi⟩
      rcases List.mem_append.1 hr with hr | hr
      · exact Or.inl ⟨r, hr, hp, hi⟩
      · obtain ⟨_, a, ha, h1, _⟩ := hnew r hr
        exact Or.inr ⟨a, ha, h1.trans hp⟩
    · rintro (⟨r, hr, hp, hi⟩ | ⟨a, ha, hp⟩)
      · exact ⟨r, List.mem_append_left _ hr, hp, hi⟩
      · obtain ⟨r, hr, h1, h2⟩ := hall a ha
        exact ⟨r, hr, h1.trans hp, h2⟩
  · exact AddAttendees_noop i as _ hall

end profile

namespace main

open profile (Store)

/-- C17 on `storeAccepted`, where "bo" has accepted invite 1: adding the profiles 2, 3 and
1 again keeps the row of "bo" with status Accepted and adds one Pending row, for
profile 1. -/
theorem AddAttendees_set_union_witness :
    ((⟨viewInviteRow, [], []⟩ : profile.Invite).AddAttendees attendees231 storeAccepted).2.profile_invite
      = [⟨2, 1, "Accepted"⟩, ⟨3, 1, "Pending"⟩, ⟨1, 1, "Pending"⟩]
    ∧ ((⟨viewInviteRow, [], []⟩ : profile.Invite).AddAttendees attendees231 storeAccepted).1 = .ok () :=
  ⟨by decide,
   (profile.AddAttendees_set_union storeAccepted ⟨viewInviteRow, [], []⟩ attendees231
     (by unfold profile.Store.AttendeeKeys; decide)).1⟩

end main

namespace main

open profile (Store)

theorem lookupInvite_of_find {s : Store} {id : Int} {row : profile.InviteRow} (p500 : String)
    (h : s.invite.find? (fun r => r.Id == id) = some row) :
    ∃ ii, lookupInvite s (.valid id) p500 = .ok ii ∧ ii.toInviteRow = row ∧ ii.Id = id := by
  obtain ⟨ii, hget, hrow, _⟩ := profile.GetInvite_of_find h
  have hid : row.Id = id := by simpa using List.find?_some h
  exact ⟨ii, by simp [lookupInvite, hget], hrow, by rw [← hid, ← hrow]⟩

/-- C18. Let `row` be the invite the id addresses. When the actor is not its organizer,
the handler `addAttendees` fails with `Forbidden`; when the actor is its organizer and
some id of the list does not resolve to a row of `profile`, it fails with `BadRequest`.
In both cases the store is unchanged: no attendee row is added, the resolvable ids ahead
of the bad one included. -/
theorem addAttendees_failures (e : Env) (s : Store) (id : Int) (as : List Int) (c : Context)
    (row : profile.InviteRow)
    (hrow : s.invite.find? (fun r => r.Id == id) = some row) :
    (row.Organizer ≠ c.Profile.Id →
        ∃ msg, addAttendees e s (.valid id) as c = (.fail (.Forbidden msg), s))
    ∧ (row.Organizer = c.Profile.Id → (∃ a ∈ as, ∀ p ∈ s.profile, p.Id ≠ a) →
        ∃ msg, addAttendees e s (.valid id) as c = (.fail (.BadRequest msg), s)) := by
  obtain ⟨ii, hlook, hii, _⟩ := lookupInvite_of_find "db failure: p373" hrow
  have horg : ii.Organizer = row.Organizer := by rw [← hii]
  constructor
  · intro hne
    exact ⟨"You are not the Organizer for this Invite.",
      by simp [addAttendees, hlook, horg, hne, error403]⟩
  · intro heq hbad
    obtain ⟨bad, hres⟩ := resolveAttendees_error s as hbad
    exact ⟨"'" ++ toString bad ++ "' is not a valid Profile id.",
      by simp [addAttendees, hlook, horg, heq, hres, error400]⟩

/-- C18 on `storeInvite`: "bo" is not the organizer of invite 1, and "al", who is, names
the profile 9, which does not exist, after the profile 2, which does. -/
theorem addAttendees_failures_witness :
    (∃ msg, addAttendees demoEnv storeInvite (.valid 1) [2, 3] contextBo
        = (.fail (.Forbidden msg), storeInvite))
    ∧ (∃ msg, addAttendees demoEnv storeInvite (.valid 1) [2, 9] contextAl
        = (.fail (.BadRequest msg), storeInvite)) :=
  ⟨(addAttendees_failures demoEnv storeInvite 1 [2, 3] contextBo viewInviteRow (by decide)).1
      (by decide),
   (addAttendees_failures demoEnv storeInvite 1 [2, 9] contextAl viewInviteRow (by decide)).2
      (by decide) ⟨9, by decide, by decide⟩⟩

/-- C19. Let the id address an invite. When the request carries a photo id and no row of
`photo` has that id and the author's profile, the handler `addMessage` fails with
`BadRequest` (400) and the store is unchanged. In every case the store is unchanged or
has gained exactly the new message, with `Sender` the author, `Invite` the addressed
invite and the given photo and body, and then a photo id the request carries is that of
a photo of the author. When the handler answers 200 the new message is stored. -/
theorem addMessage_photo_check (e : Env) (s : Store) (id : Int) (m : NewMessage) (c : Context)
    (row : profile.InviteRow)
    (hrow : s.invite.find? (fun r => r.Id == id) = some row) :
    (∀ pid, m.Photo = some pid → (¬ ∃ ph ∈ s.photo, ph.Id = pid ∧ ph.Profile = c.Profile.Id) →
        ∃ msg, addMessage e s (.valid id) m c = (.fail (.BadRequest msg), s))
    ∧ ((addMessage e s (.valid id) m c).2 = s
        ∨ ((addMessage e s (.valid id) m c).2
            = { s with message := s.message
                          ++ [⟨s.nextMessageId, e.now, c.Profile.Id, id, m.Photo, m.Body⟩],
                       nextMessageId := s.nextMessageId + 1 }
          ∧ ∀ pid, m.Photo = some pid → ∃ ph ∈ s.photo, ph.Id = pid ∧ ph.Profile = c.Profile.Id))
    ∧ (∀ body, (addMessage e s (.valid id) m c).1 = .ok 200 none body →
        (⟨s.nextMessageId, e.now, c.Profile.Id, id, m.Photo, m.Body⟩ : profile.Message)
          ∈ (addMessage e s (.valid id) m c).2.message) := by
  obtain ⟨ii, hlook, _, hid⟩ := lookupInvite_of_find "db failure: p268" hrow
  have hphoto : ∀ pid, (∃ ph, c.Profile.GetPhoto s pid = .ok ph) →
      ∃ ph ∈ s.photo, ph.Id = pid ∧ ph.Profile = c.Profile.Id := by
    rintro pid ⟨ph, hph⟩
    cases hsel : profile.SelectOne
        (s.photo.filter (fun r => r.Id == pid && r.Profile == c.Profile.Id)) with
    | error err =>
      simp only [profile.Profile.GetPhoto, hsel] at hph
      split at hph <;> cases hph
    | ok ph1 =>
      have hmem : ph1 ∈ s.photo.filter (fun r => r.Id == pid && r.Profile == c.Profile.Id) := by
        cases hl : s.photo.filter (fun r => r.Id == pid && r.Profile == c.Profile.Id) with
        | nil => simp [hl, profile.SelectOne] at hsel
        | cons x l =>
          cases l with
          | nil =>
            simp only [hl, profile.SelectOne, Except.ok.injEq] at hsel
            simp [hsel]
          | cons y l1 => simp [hl, profile.SelectOne] at hsel
      simp only [List.mem_filter, Bool.and_eq_true, beq_iff_eq] at hmem
      exact ⟨ph1, hmem.1, hmem.2.1, hmem.2.2⟩
  cases hm : m.Photo with
  | none =>
    have hstore : (addMessage e s (.valid id) m c).2
        = { s with message := s.message
                      ++ [⟨s.nextMessageId, e.now, c.Profile.Id, id, none, m.Body⟩],
                   nextMessageId := s.nextMessageId + 1 } := by
      simp only [addMessage, hlook, hm, profile.Message.Create, hid]
      split <;> rfl
    refine ⟨fun pid h => (by cases h), Or.inr ⟨hstore, fun pid h => (by cases h)⟩, ?_⟩
    intro body _
    rw [hstore]
    simp
  | some pid =>
    cases hget : c.Profile.GetPhoto s pid with
    | error err =>
      have hrun : addMessage e s (.valid id) m c
          = (.fail (.BadRequest ("'" ++ toString pid ++ "' is not a valid Photo Id.")), s) := by
        simp only [addMessage, hlook, hm, hget, error400]
      refine ⟨fun _ _ _ => ⟨_, hrun⟩, Or.inl (by rw [hrun]), ?_⟩
      intro body h
      rw [hrun] at h
      cases h
    | ok ph =>
      have hown := hphoto pid ⟨ph, hget⟩
      have hstore : (addMessage e s (.valid id) m c).2
          = { s with message := s.message
                        ++ [⟨s.nextMessageId, e.now, c.Profile.Id, id, some pid, m.Body⟩],
                     nextMessageId := s.nextMessageId + 1 } := by
        simp only [addMessage, hlook, hm, hget, profile.Message.Create, hid]
        split <;> rfl
      refine ⟨fun pid1 h hno => ?_, Or.inr ⟨hstore, fun pid1 h => ?_⟩, ?_⟩
      · cases h
        exact absurd hown hno
      · cases h
        exact hown
      · intro body _
        rw [hstore]
        simp

end main

namespace profile

theorem Store.SameInviteData.refl (s : Store) : s.SameInviteData s := ⟨rfl, rfl⟩

theorem Store.SameInviteData.trans {s s1 s2 : Store} (h1 : s.SameInviteData s1)
    (h2 : s1.SameInviteData s2) : s.SameInviteData s2 :=
  ⟨h2.1.trans h1.1, h2.2.trans h1.2⟩

theorem Profile_Create_same (now : Time) (folder : String) (s : Store) (p : Profile) :
    s.SameInviteData (p.Create now folder s).2.2 := by
  simp only [Profile.Create, Store.InsertProfile, Profile.PostInsert]
  exact ⟨rfl, rfl⟩

theorem InsertAuth_same (s : Store) (a : Auth) : s.SameInviteData (s.InsertAuth a).2 := by
  simp only [Store.InsertAuth]
  split <;> exact ⟨rfl, rfl⟩

theorem Auth_Create_same (k : Crypto) (now : Time) (t salt : String) (s : Store) (a : Auth) :
    s.SameInviteData (a.Create k now t salt s).2.2 := by
  simp only [Auth.Create]
  split
  · exact ⟨rfl, rfl⟩
  · exact InsertAuth_same s _

theorem UpdateAuth_same (s : Store) (a : Auth) : s.SameInviteData (s.UpdateAuth a).2 :=
  ⟨rfl, rfl⟩

theorem Auth_Login_same (now : Time) (t : String) (s : Store) (a : Auth) :
    s.SameInviteData (a.Login now t s).2.2 := by
  simp only [Auth.Login, Store.UpdateAuth]
  split <;> exact ⟨rfl, rfl⟩

theorem Auth_Logout_same (now : Time) (s : Store) (a : Auth) :
    s.SameInviteData (a.Logout now s).2.2 := by
  simp only [Auth.Logout, Store.UpdateAuth]
  split <;> exact ⟨rfl, rfl⟩

theorem Auth_Save_same (now : Time) (s : Store) (a : Auth) :
    s.SameInviteData (a.Save now s).2.2 := by
  simp only [Auth.Save, Store.UpdateAuth]
  split <;> exact ⟨rfl, rfl⟩

theorem PostUpdate_same (s : Store) (p : Profile) :
    s.SameInviteData (Profile.PostUpdate s p).2 := by
  simp only [Profile.PostUpdate]
  split <;> exact ⟨rfl, rfl⟩

theorem UpdateProfile_same (s : Store) (p : Profile) :
    s.SameInviteData (s.UpdateProfile p).2 := by
  have h := PostUpdate_same
    { s with profile := s.profile.map (fun r => if r.Id = p.Id then p.toProfileRow else r) } p
  simp only [Store.UpdateProfile]
  rcases hrun : Profile.PostUpdate
    { s with profile := s.profile.map (fun r => if r.Id = p.Id then p.toProfileRow else r) } p
    with ⟨r, s2⟩
  rw [hrun] at h
  cases r <;> exact h

theorem Profile_Save_same (now : Time) (s : Store) (p : Profile) :
    s.SameInviteData (p.Save now s).2.2 := by
  have h := UpdateProfile_same s { p with Updated := now }
  simp only [Profile.Save]
  rcases hrun : s.UpdateProfile { p with Updated := now } with ⟨r, s1⟩
  rw [hrun] at h
  cases r with
  | error err => exact h
  | ok count =>
    simp only []
    split <;> exact h

theorem Photo_Save_same (putOk : Bool) (size : Int) (s : Store) (p : Photo) :
    s.SameInviteData (p.Save putOk size s).2.2 := by
  simp only [Photo.Save]
  split <;> exact ⟨rfl, rfl⟩

theorem InsertFreetime_same (s : Store) (ft : Freetime) :
    s.SameInviteData (s.InsertFreetime ft).2.2 := by
  simp only [Store.InsertFreetime]
  split <;> exact ⟨rfl, rfl⟩

theorem NewFreetime_same (now : Time) (s : Store) (p : Profile) (st en : Time) :
    s.SameInviteData (p.NewFreetime now s st en).2 := by
  have h := InsertFreetime_same s ⟨0, p.Id, now, st, en⟩
  simp only [Profile.NewFreetime]
  rcases hrun : s.InsertFreetime ⟨0, p.Id, now, st, en⟩ with ⟨r, ft1, s1⟩
  rw [hrun] at h
  cases r with
  | error err =>
    simp only []
    split <;> exact h
  | ok u => exact h

theorem UpdateFreetime_same (s : Store) (p : Profile) (st en : Time) :
    s.SameInviteData (p.UpdateFreetime s st en).2 := by
  simp only [Profile.UpdateFreetime]
  cases SelectOne (s.free.filter (fun r => r.Profile == p.Id && r.Start == st)) with
  | error err => exact ⟨rfl, rfl⟩
  | ok ft =>
    simp only [Store.UpdateFreetime]
    split <;> exact ⟨rfl, rfl⟩

theorem Invite_Cancel_same (s : Store) (i : Invite) : s.SameInviteData (i.Cancel s).2 :=
  ⟨rfl, rfl⟩

end profile

namespace main

open profile (Store)

theorem same_of_eq3 {α β : Type} {s s1 : Store} {x : α × β × Store} {a : α} {b : β}
    (h : x = (a, b, s1)) (hs : s.SameInviteData x.2.2) : s.SameInviteData s1 := by
  subst h
  exact hs

theorem same_of_eq2 {α : Type} {s s1 : Store} {x : α × Store} {a : α}
    (h : x = (a, s1)) (hs : s.SameInviteData x.2) : s.SameInviteData s1 := by
  subst h
  exact hs

theorem createProfile_same (e : Env) (folder tok salt : String) (s : Store) (r : main.Auth) :
    s.SameInviteData (createProfile e folder tok salt s r).2 := by
  simp only [createProfile]
  split
  · exact ⟨rfl, rfl⟩
  · split
    · exact ⟨rfl, rfl⟩
    · split
      · rename_i h1
        exact same_of_eq3 h1 (profile.Profile_Create_same _ _ _ _)
      · rename_i h1
        have hs1 := same_of_eq3 h1 (profile.Profile_Create_same _ _ _ _)
        split
        · rename_i h2
          exact hs1.trans (same_of_eq3 h2 (profile.Auth_Create_same _ _ _ _ _ _))
        · rename_i h2
          exact hs1.trans (same_of_eq3 h2 (profile.Auth_Create_same _ _ _ _ _ _))

theorem getAuths_store (s : Store) (c : Context) : (getAuths s c).2 = s := by
  simp only [getAuths]
  split <;> rfl

theorem createAuth_same (e : Env) (tok salt : String) (s : Store) (r : AuthChange) (c : Context) :
    s.SameInviteData (createAuth e tok salt s r c).2 := by
  simp only [createAuth]
  split
  · split
    · split
      · rename_i h1
        exact same_of_eq3 h1 (profile.Auth_Create_same _ _ _ _ _ _)
      · rename_i h1
        rw [getAuths_store]
        exact same_of_eq3 h1 (profile.Auth_Create_same _ _ _ _ _ _)
    · split
      · exact ⟨rfl, rfl⟩
      · split
        · rename_i h1
          exact same_of_eq3 h1 (profile.Auth_Save_same _ _ _)
        · rename_i h1
          rw [getAuths_store]
          exact same_of_eq3 h1 (profile.Auth_Save_same _ _ _)
  · exact ⟨rfl, rfl⟩

theorem login_same (e : Env) (tok : String) (s : Store) (r : main.Auth) :
    s.SameInviteData (login e tok s r).2 := by
  simp only [login]
  split
  · exact ⟨rfl, rfl⟩
  · split
    · exact ⟨rfl, rfl⟩
    · split
      · exact ⟨rfl, rfl⟩
      · split
        · rename_i h1
          exact same_of_eq3 h1 (profile.Auth_Login_same _ _ _ _)
        · rename_i h1
          exact same_of_eq3 h1 (profile.Auth_Login_same _ _ _ _)

theorem logout_same (e : Env) (s : Store) (c : Context) :
    s.SameInviteData (logout e s c).2 := by
  simp only [logout]
  split
  · rename_i h1
    exact same_of_eq3 h1 (profile.Auth_Logout_same _ _ _)
  · rename_i h1
    exact same_of_eq3 h1 (profile.Auth_Logout_same _ _ _)

theorem updateProfile_same (e : Env) (s : Store) (p : main.Profile) (c : Context) :
    s.SameInviteData (updateProfile e s p c).2 := by
  simp only [updateProfile]
  split
  · rename_i h1
    exact same_of_eq3 h1 (profile.Profile_Save_same _ _ _)
  · rename_i h1
    have hs1 := same_of_eq3 h1 (profile.Profile_Save_same _ _ _)
    split <;> exact hs1

theorem uploadPhoto_same (e : Env) (href : String) (s : Store) (file : Option Upload)
    (caption : String) (c : Context) :
    s.SameInviteData (PhotoHandler.ServeHTTP e href s file caption c).2 := by
  simp only [PhotoHandler.ServeHTTP]
  split
  · exact ⟨rfl, rfl⟩
  · split
    · exact ⟨rfl, rfl⟩
    · split
      · exact ⟨rfl, rfl⟩
      · split
        · rename_i h1
          exact same_of_eq3 h1 (profile.Photo_Save_same _ _ _ _)
        · rename_i h1
          exact same_of_eq3 h1 (profile.Photo_Save_same _ _ _ _)

theorem createFreetimeLoop_same (e : Env) (c : Context) : ∀ (fs : List Freetime) (s : Store),
    s.SameInviteData (createFreetimeLoop e c fs s).2
  | [], s => ⟨rfl, rfl⟩
  | f :: rest, s => by
    simp only [createFreetimeLoop]
    split
    · rename_i h1
      have hs1 := same_of_eq2 h1 (profile.NewFreetime_same _ _ _ _ _)
      split
      · split
        · rename_i h2
          exact hs1.trans (same_of_eq2 h2 (profile.UpdateFreetime_same _ _ _ _))
        · rename_i h2
          exact (hs1.trans (same_of_eq2 h2 (profile.UpdateFreetime_same _ _ _ _))).trans
            (createFreetimeLoop_same e c rest _)
      · exact hs1
    · rename_i h1
      exact (same_of_eq2 h1 (profile.NewFreetime_same _ _ _ _ _)).trans
        (createFreetimeLoop_same e c rest _)

theorem getFreetime_store (e : Env) (s : Store) (u : IdParam) (c : Context) :
    (getFreetime e s u c).2 = s := by
  simp only [getFreetime]
  split
  · rfl
  · split <;> rfl

theorem createFreetime_same (e : Env) (s : Store) (u : IdParam) (fs : List Freetime)
    (c : Context) : s.SameInviteData (createFreetime e s u fs c).2 := by
  simp only [createFreetime]
  split
  · exact ⟨rfl, rfl⟩
  · split
    · rename_i h1
      exact same_of_eq2 h1 (createFreetimeLoop_same _ _ _ _)
    · rename_i h1
      rw [getFreetime_store]
      exact same_of_eq2 h1 (createFreetimeLoop_same _ _ _ _)

theorem removeAllFreetime_same (s : Store) (c : Context) :
    s.SameInviteData (removeAllFreetime s c).2 := ⟨rfl, rfl⟩

theorem removeFreetime_same (s : Store) (start : Except String Time) (c : Context) :
    s.SameInviteData (removeFreetime s start c).2 := by
  cases start <;> exact ⟨rfl, rfl⟩

theorem cancelInvite_same (e : Env) (s : Store) (u : IdParam) (c : Context) :
    s.SameInviteData (cancelInvite e s u c).2 := by
  simp only [cancelInvite, profile.Invite.Cancel]
  split
  · exact ⟨rfl, rfl⟩
  · split <;> exact ⟨rfl, rfl⟩

end main

namespace profile

theorem AddAttendees_keeps (i : Invite) : ∀ (as : List Attendee) (s : Store),
    (i.AddAttendees as s).2.message = s.message
    ∧ ∀ r ∈ s.profile_invite, r ∈ (i.AddAttendees as s).2.profile_invite
  | [], s => ⟨rfl, fun _ h => h⟩
  | a :: rest, s => by
    cases hany : s.profile_invite.any (fun r => r.profile == a.Id && r.invite == i.Id) with
    | true =>
      simp only [Invite.AddAttendees]
      rw [InsertProfileInvite_duplicate s ⟨a.Id, i.Id, a.Status⟩ hany]
      simpa using AddAttendees_keeps i rest s
    | false =>
      simp only [Invite.AddAttendees]
      rw [InsertProfileInvite_fresh s ⟨a.Id, i.Id, a.Status⟩ hany]
      obtain ⟨h1, h2⟩ := AddAttendees_keeps i rest
        { s with profile_invite := s.profile_invite ++ [⟨a.Id, i.Id, a.Status⟩] }
      exact ⟨h1, fun r hr => h2 r (List.mem_append_left _ hr)⟩

end profile

namespace main

open profile (Store)

/-- The handler `invite` keeps every message and at most appends one. -/
theorem invite_messages (e : Env) (s : Store) (i : NewInvite) (c : Context) :
    ∃ l, (invite e s i c).2.message = s.message ++ l := by
  unfold invite
  split
  · exact ⟨[], by simp⟩
  · split
    · exact ⟨[], by simp⟩
    · split
      · exact ⟨[], by simp⟩
      · simp only [profile.Invite.Create, profile.Invite.PostInsert,
          profile.Invite.PostInsertLoop]
        cases hm : i.Message with
        | none =>
          dsimp only
          split
          · exact ⟨[], by simp⟩
          · split <;> exact ⟨[], by simp⟩
        | some msg =>
          simp only [profile.Message.Create]
          split
          · exact ⟨[_], rfl⟩
          · split <;> exact ⟨[_], rfl⟩

/-- The handler `addMessage` keeps every message, at most appends one, and leaves the
attendee rows alone. -/
theorem addMessage_keeps (e : Env) (s : Store) (u : IdParam) (m : NewMessage) (c : Context) :
    (∃ l, (addMessage e s u m c).2.message = s.message ++ l)
    ∧ (addMessage e s u m c).2.profile_invite = s.profile_invite := by
  simp only [addMessage]
  split
  · exact ⟨⟨[], by simp⟩, rfl⟩
  · split
    · exact ⟨⟨[], by simp⟩, rfl⟩
    · simp only [profile.Message.Create]
      split <;> exact ⟨⟨[_], rfl⟩, rfl⟩

/-- The handler `removePhoto` leaves the attendee rows alone; the messages are as before,
or the photo of the request has been cleared from those that showed it. -/
theorem removePhoto_keeps (s : Store) (u : IdParam) (c : Context) :
    (removePhoto s u c).2.profile_invite = s.profile_invite
    ∧ ((removePhoto s u c).2.message = s.message
      ∨ ∃ pid, u = .valid pid ∧ (removePhoto s u c).2.message
          = s.message.map (fun m => if m.Photo = some pid then { m with Photo := none } else m)) := by
  cases u with
  | absent => exact ⟨rfl, Or.inl rfl⟩
  | malformed raw => exact ⟨rfl, Or.inl rfl⟩
  | valid pid =>
    simp only [removePhoto]
    cases hget : c.Profile.GetPhoto s pid with
    | error err => exact ⟨rfl, Or.inl rfl⟩
    | ok photo =>
      have hid : photo.Id = pid := by
        simp only [profile.Profile.GetPhoto] at hget
        cases hl : s.photo.filter (fun r => r.Id == pid && r.Profile == c.Profile.Id) with
        | nil => simp [hl, profile.SelectOne] at hget
        | cons x l =>
          cases l with
          | nil =>
            simp only [hl, profile.SelectOne, Except.ok.injEq] at hget
            have hx : x ∈ s.photo.filter (fun r => r.Id == pid && r.Profile == c.Profile.Id) := by
              rw [hl]; exact List.mem_cons_self _ _
            simp only [List.mem_filter, Bool.and_eq_true, beq_iff_eq] at hx
            rw [← hget]
            exact hx.2.1
          | cons y l1 => simp [hl, profile.SelectOne] at hget
      have hstore : (photo.Remove s).2.profile_invite = s.profile_invite
          ∧ (photo.Remove s).2.message
            = s.message.map (fun m => if m.Photo = some pid then { m with Photo := none } else m) := by
        simp only [profile.Photo.Remove, hid]
        split <;> exact ⟨rfl, rfl⟩
      dsimp only
      rcases hrun : photo.Remove s with ⟨r, s1⟩
      rw [hrun] at hstore
      cases r <;> exact ⟨hstore.1, Or.inr ⟨pid, rfl, hstore.2⟩⟩

/-- The handler `changeStatus` leaves the messages alone; the attendee rows are as before,
or the request carries a valid status and the id of an invite, and the rows of the
actor for that invite have been set to that status. -/
theorem changeStatus_keeps (e : Env) (s : Store) (u : IdParam) (st : Option profile.Status)
    (c : Context) :
    (changeStatus e s u st c).2.message = s.message
    ∧ ((changeStatus e s u st c).2.profile_invite = s.profile_invite
      ∨ ∃ id status, u = .valid id ∧ st = some status ∧ profile.Statuses status = true
          ∧ (changeStatus e s u st c).2.profile_invite = s.profile_invite.map (fun r =>
              if r.profile = c.Profile.Id ∧ r.invite = id then { r with status := status }
              else r)) := by
  cases st with
  | none => exact ⟨rfl, Or.inl rfl⟩
  | some status =>
    cases hv : profile.Statuses status with
    | false => simp [changeStatus, hv]
    | true =>
      cases u with
      | absent => exact ⟨by simp [changeStatus, hv, lookupInvite], Or.inl (by simp [changeStatus, hv, lookupInvite])⟩
      | malformed raw => exact ⟨by simp [changeStatus, hv, lookupInvite], Or.inl (by simp [changeStatus, hv, lookupInvite])⟩
      | valid id =>
        cases hget : profile.GetInvite s id with
        | error err =>
          have : (changeStatus e s (.valid id) (some status) c).2 = s := by
            by_cases hnf : err = .notFound <;> simp [changeStatus, hv, lookupInvite, hget, hnf]
          rw [this]
          exact ⟨rfl, Or.inl rfl⟩
        | ok ii =>
          have hid := (profile.GetInvite_ok hget).1
          have : (changeStatus e s (.valid id) (some status) c).2
              = { s with profile_invite := s.profile_invite.map (fun r =>
                  if r.profile = c.Profile.Id ∧ r.invite = id then { r with status := status }
                  else r) } := by
            simp only [changeStatus, hv, lookupInvite, hget, profile.Invite.ChangeStatus, hid,
              Bool.not_true, Bool.false_eq_true, if_false]
            split <;> rfl
          rw [this]
          exact ⟨rfl, Or.inr ⟨id, status, rfl, rfl, hv, rfl⟩⟩

/-- The handler `addAttendees` leaves the messages alone and keeps every attendee row. -/
theorem addAttendees_keeps (e : Env) (s : Store) (u : IdParam) (as : List Int) (c : Context) :
    (addAttendees e s u as c).2.message = s.message
    ∧ ∀ r ∈ s.profile_invite, r ∈ (addAttendees e s u as c).2.profile_invite := by
  simp only [addAttendees]
  split
  · exact ⟨rfl, fun _ h => h⟩
  · split
    · exact ⟨rfl, fun _ h => h⟩
    · split
      · exact ⟨rfl, fun _ h => h⟩
      · split
        · rename_i h1
          have hs1 := congrArg Prod.snd h1
          dsimp only at hs1 ⊢
          rw [← hs1]
          exact profile.AddAttendees_keeps _ _ _
        · rename_i s1 h1
          have hs1 := congrArg Prod.snd h1
          dsimp only at hs1
          have hk : s1.message = s.message ∧ ∀ r ∈ s.profile_invite, r ∈ s1.profile_invite := by
            rw [← hs1]
            exact profile.AddAttendees_keeps _ _ _
          split
          · exact hk
          · split <;> exact hk

end main

namespace main

open profile (Store)

/-- The store after `changeStatus` with a valid status on an invite that exists. -/
theorem changeStatus_store (e : Env) (s : Store) (id : Int) (st : profile.Status) (c : Context)
    (row : profile.InviteRow)
    (hrow : s.invite.find? (fun x => x.Id == id) = some row)
    (hv : profile.Statuses st = true) :
    (changeStatus e s (.valid id) (some st) c).2
      = { s with profile_invite := s.profile_invite.map (fun r =>
          if r.profile = c.Profile.Id ∧ r.invite = id then { r with status := st } else r) } := by
  obtain ⟨ii, hlook, _, hid⟩ := lookupInvite_of_find "db failure: p270" hrow
  simp only [changeStatus, hv, hlook, profile.Invite.ChangeStatus, hid,
    Bool.not_true, Bool.false_eq_true, if_false]
  split <;> rfl

/-- C13, as stated, fails: in `storeAccepted` the attendee "bo" of invite 1 is Accepted; its
`changeStatus` request with Pending is answered 200 and its row is Pending again. -/
theorem changeStatus_back_to_Pending :
    storeAccepted.profile_invite = [⟨2, 1, "Accepted"⟩, ⟨3, 1, "Pending"⟩]
    ∧ (∃ out, (changeStatus demoEnv storeAccepted (.valid 1) (some profile.StatusPending)
          contextBo).1 = .ok 200 none (.invite out))
    ∧ (changeStatus demoEnv storeAccepted (.valid 1) (some profile.StatusPending)
          contextBo).2.profile_invite = [⟨2, 1, "Pending"⟩, ⟨3, 1, "Pending"⟩] := by
  refine ⟨by decide, ?_, by decide⟩
  exact ⟨{ viewInvite1 true with
            Attendees := [{ toProfile := { Profile.zero with Id := 2, Created := 100 },
                            Status := "Pending" },
                          { toProfile := { Profile.zero with Id := 3, Created := 100 },
                            Status := "" }] }, by decide⟩

/-- C13, amended. An attendee row `r` keeps its status under every request, except a
`changeStatus` request of that attendee for that invite with a valid status, after which
the row carries the requested status. Such a request, for an invite that exists, sets
the row to any status of Pending, Accepted, Declined, whatever the status before: the
status is not one-way. -/
theorem attendee_status_only_by_own_changeStatus (req : Request) (s : Store)
    (r : profile.ProfileInvite) (hr : r ∈ s.profile_invite) :
    (r ∈ (req.run s).profile_invite
      ∨ ∃ e st c, req = .changeStatus e (.valid r.invite) (some st) c
          ∧ c.Profile.Id = r.profile ∧ profile.Statuses st = true
          ∧ (⟨r.profile, r.invite, st⟩ : profile.ProfileInvite) ∈ (req.run s).profile_invite)
    ∧ (∀ (e : Env) (st : profile.Status) (c : Context) (row : profile.InviteRow),
        s.invite.find? (fun x => x.Id == r.invite) = some row → profile.Statuses st = true →
        c.Profile.Id = r.profile →
        (⟨r.profile, r.invite, st⟩ : profile.ProfileInvite)
          ∈ (changeStatus e s (.valid r.invite) (some st) c).2.profile_invite) := by
  constructor
  · cases req with
    | createProfile e folder tok salt a =>
      exact Or.inl (by rw [Request.run, (createProfile_same e folder tok salt s a).2]; exact hr)
    | createAuth e tok salt a c =>
      exact Or.inl (by rw [Request.run, (createAuth_same e tok salt s a c).2]; exact hr)
    | login e tok a => exact Or.inl (by rw [Request.run, (login_same e tok s a).2]; exact hr)
    | logout e c => exact Or.inl (by rw [Request.run, (logout_same e s c).2]; exact hr)
    | updateProfile e p c =>
      exact Or.inl (by rw [Request.run, (updateProfile_same e s p c).2]; exact hr)
    | uploadPhoto e href file caption c =>
      exact Or.inl (by rw [Request.run, (uploadPhoto_same e href s file caption c).2]; exact hr)
    | removePhoto u c => exact Or.inl (by rw [Request.run, (removePhoto_keeps s u c).1]; exact hr)
    | createFreetime e u fs c =>
      exact Or.inl (by rw [Request.run, (createFreetime_same e s u fs c).2]; exact hr)
    | removeAllFreetime c =>
      exact Or.inl (by rw [Request.run, (removeAllFreetime_same s c).2]; exact hr)
    | removeFreetime start c =>
      exact Or.inl (by rw [Request.run, (removeFreetime_same s start c).2]; exact hr)
    | invite e i c =>
      exact Or.inl (by rw [Request.run, invite_profile_invite_unchanged e s i c]; exact hr)
    | cancelInvite e u c =>
      exact Or.inl (by rw [Request.run, (cancelInvite_same e s u c).2]; exact hr)
    | addMessage e u m c =>
      exact Or.inl (by rw [Request.run, (addMessage_keeps e s u m c).2]; exact hr)
    | addAttendees e u as c => exact Or.inl ((addAttendees_keeps e s u as c).2 r hr)
    | changeStatus e u st c =>
      rcases (changeStatus_keeps e s u st c).2 with h | ⟨id, status, rfl, rfl, hv, h⟩
      · exact Or.inl (by rw [Request.run, h]; exact hr)
      · by_cases hkey : r.profile = c.Profile.Id ∧ r.invite = id
        · obtain ⟨hp, hi⟩ := hkey
          subst hi
          refine Or.inr ⟨e, status, c, rfl, hp.symm, hv, ?_⟩
          rw [Request.run, h]
          exact List.mem_map.2 ⟨r, hr, by simp [hp]⟩
        · refine Or.inl ?_
          rw [Request.run, h]
          exact List.mem_map.2 ⟨r, hr, by simp [hkey]⟩
  · intro e st c row hrow hv hc
    rw [changeStatus_store e s r.invite st c row hrow hv]
    exact List.mem_map.2 ⟨r, hr, by simp [hc]⟩

/-- C13, amended, on `storeAccepted`: the Accepted row of "bo" under its own request to go
back to Pending. -/
theorem attendee_status_only_by_own_changeStatus_witness :
    (⟨2, 1, "Pending"⟩ : profile.ProfileInvite)
      ∈ (changeStatus demoEnv storeAccepted (.valid 1) (some "Pending") contextBo).2.profile_invite :=
  (attendee_status_only_by_own_changeStatus requestBoPending storeAccepted ⟨2, 1, "Accepted"⟩
    (by decide)).2 demoEnv "Pending" contextBo viewInviteRow (by decide) (by decide) (by decide)

/-- C20, as stated, fails: in `storeMessage` message 1 shows photo 1; after "al" has
removed photo 1 the message is there without its photo reference. -/
theorem removePhoto_changes_message :
    storeMessage.message = [⟨1, 100, 1, 1, some 1, "look"⟩]
    ∧ (removePhoto storeMessage (.valid 1) contextAl).1 = .ok 204 none .null
    ∧ (removePhoto storeMessage (.valid 1) contextAl).2.message = [⟨1, 100, 1, 1, none, "look"⟩] := by
  refine ⟨by decide, by decide, by decide⟩

/-- C20, amended. Under every request a message `m` present before is present
afterwards with the same id, sent time, sender, invite and body, and with the same
photo reference, except under a `removePhoto` request for the photo the message shows,
after which the message is present with no photo reference. -/
theorem message_kept_but_photo (req : Request) (s : Store) (m : profile.Message)
    (hm : m ∈ s.message) :
    m ∈ (req.run s).message
    ∨ ∃ pid c, req = .removePhoto (.valid pid) c ∧ m.Photo = some pid
        ∧ (⟨m.Id, m.Sent, m.Sender, m.Invite, none, m.Body⟩ : profile.Message)
            ∈ (req.run s).message := by
  cases req with
  | createProfile e folder tok salt a =>
    exact Or.inl (by rw [Request.run, (createProfile_same e folder tok salt s a).1]; exact hm)
  | createAuth e tok salt a c =>
    exact Or.inl (by rw [Request.run, (createAuth_same e tok salt s a c).1]; exact hm)
  | login e tok a => exact Or.inl (by rw [Request.run, (login_same e tok s a).1]; exact hm)
  | logout e c => exact Or.inl (by rw [Request.run, (logout_same e s c).1]; exact hm)
  | updateProfile e p c =>
    exact Or.inl (by rw [Request.run, (updateProfile_same e s p c).1]; exact hm)
  | uploadPhoto e href file caption c =>
    exact Or.inl (by rw [Request.run, (uploadPhoto_same e href s file caption c).1]; exact hm)
  | createFreetime e u fs c =>
    exact Or.inl (by rw [Request.run, (createFreetime_same e s u fs c).1]; exact hm)
  | removeAllFreetime c =>
    exact Or.inl (by rw [Request.run, (removeAllFreetime_same s c).1]; exact hm)
  | removeFreetime start c =>
    exact Or.inl (by rw [Request.run, (removeFreetime_same s start c).1]; exact hm)
  | cancelInvite e u c =>
    exact Or.inl (by rw [Request.run, (cancelInvite_same e s u c).1]; exact hm)
  | changeStatus e u st c =>
    exact Or.inl (by rw [Request.run, (changeStatus_keeps e s u st c).1]; exact hm)
  | addAttendees e u as c =>
    exact Or.inl (by rw [Request.run, (addAttendees_keeps e s u as c).1]; exact hm)
  | invite e i c =>
    obtain ⟨l, hl⟩ := invite_messages e s i c
    exact Or.inl (by rw [Request.run, hl]; exact List.mem_append_left _ hm)
  | addMessage e u msg c =>
    obtain ⟨l, hl⟩ := (addMessage_keeps e s u msg c).1
    exact Or.inl (by rw [Request.run, hl]; exact List.mem_append_left _ hm)
  | removePhoto u c =>
    rcases (removePhoto_keeps s u c).2 with h | ⟨pid, rfl, h⟩
    · exact Or.inl (by rw [Request.run, h]; exact hm)
    · by_cases hph : m.Photo = some pid
      · refine Or.inr ⟨pid, c, rfl, hph, ?_⟩
        rw [Request.run, h]
        exact List.mem_map.2 ⟨m, hm, by simp [hph]⟩
      · refine Or.inl ?_
        rw [Request.run, h]
        exact List.mem_map.2 ⟨m, hm, by simp [hph]⟩

/-- C20, amended, on `storeMessage`: message 1 under the removal of its photo. -/
theorem message_kept_but_photo_witness :
    (⟨1, 100, 1, 1, some 1, "look"⟩ : profile.Message) ∈ (requestRemovePhoto.run storeMessage).message
    ∨ ∃ pid c, requestRemovePhoto = .removePhoto (.valid pid) c
        ∧ (some 1 : Option Int) = some pid
        ∧ (⟨1, 100, 1, 1, none, "look"⟩ : profile.Message)
            ∈ (requestRemovePhoto.run storeMessage).message :=
  message_kept_but_photo requestRemovePhoto storeMessage ⟨1, 100, 1, 1, some 1, "look"⟩
    (by decide)

/-- C19 on `storePhoto`, where photo 1 belongs to "al": "bo" is refused with it and
nothing is stored; "al" is answered 200 and the message is stored. -/
theorem addMessage_photo_check_witness :
    (∃ msg, addMessage demoEnv storePhoto (.valid 1) ⟨some 1, "mine?"⟩ contextBo
        = (.fail (.BadRequest msg), storePhoto))
    ∧ (⟨1, 100, 1, 1, some 1, "look"⟩ : profile.Message)
        ∈ (addMessage demoEnv storePhoto (.valid 1) ⟨some 1, "look"⟩ contextAl).2.message :=
  ⟨(addMessage_photo_check demoEnv storePhoto 1 ⟨some 1, "mine?"⟩ contextBo viewInviteRow
      (by decide)).1 1 rfl (by decide),
   (addMessage_photo_check demoEnv storePhoto 1 ⟨some 1, "look"⟩ contextAl viewInviteRow
      (by decide)).2.2 _ (by decide : _ = Reply.ok 200 none (.invite viewMessage1))⟩

end main

namespace main

open profile (Store)

/-- The example of C12 on `storeAttendees`, where the profiles 2 and 3 are Pending attendees
of invite 1: after `ChangeStatus` of profile 2 with Accepted, 2 is Accepted and 3 Pending. -/
theorem ChangeStatus_example :
    storeAttendees.profile_invite = [⟨2, 1, "Pending"⟩, ⟨3, 1, "Pending"⟩]
    ∧ ((⟨viewInviteRow, [], []⟩ : profile.Invite).ChangeStatus storeAttendees contextBo.Profile
        profile.StatusAccepted).2.profile_invite = [⟨2, 1, "Accepted"⟩, ⟨3, 1, "Pending"⟩] := by
  refine ⟨by decide, by decide⟩

end main

namespace profile

/-- C22. For an Anonymous credential and every secret `h`: `hash(h, nil)` returns, without
error and whatever randomness bcrypt would draw, the hex encoding of SHA-512 over
`UsernamelessSalt` followed by `h`; `GetWithHash` with `InHash = h` selects by exactly
that key; and an Anonymous credential that `Auth.Create` has stored for the secret `h`
is the one `Auth.Get` finds for the probe `NewAuth(h, nil)`, and `Authenticated` is true
for it. -/
theorem anonymous_hash_is_lookup_key (k : Crypto) (h : String) :
    (∀ salt, hash k salt h none = .ok (specAnonymousKey k h))
    ∧ (∀ (s : Store) (a : Auth), a.InHash = h →
        a.GetWithHash k s
          = match SelectOne (s.authByHash (specAnonymousKey k h)) with
            | .error e => .error e
            | .ok r => .ok r.scan)
    ∧ (∀ (now : Time) (t salt : String) (s : Store) (a : Auth),
        a.InHash = h → a.Username = none → (a.Create k now t salt s).1 = .ok () →
        ∃ probe found, NewAuth (some h) none = some probe
          ∧ probe.Get k (a.Create k now t salt s).2.2 = .ok found
          ∧ found.toAuthRow = (a.Create k now t salt s).2.1.toAuthRow
          ∧ found.Hash = specAnonymousKey k h
          ∧ found.Authenticated k = true) := by
  refine ⟨fun _ => rfl, ?_, ?_⟩
  · intro s a ha
    simp only [Auth.GetWithHash, specAnonymousKey, ha]
  · intro now t salt s a ha hu hok
    cases hany : s.auth.any
        (fun r => r.Hash == k.EncodeToString (k.Sum512 (UsernamelessSalt ++ h))) with
    | true =>
      simp only [Auth.Create, hash, hu, ha, Store.InsertAuth, hany, if_true] at hok
      cases hok
    | false =>
      have hnil : s.auth.filter
          (fun r => r.Hash == k.EncodeToString (k.Sum512 (UsernamelessSalt ++ h))) = [] := by
        rw [List.filter_eq_nil_iff]
        intro r hr hp
        have : s.auth.any
            (fun r => r.Hash == k.EncodeToString (k.Sum512 (UsernamelessSalt ++ h))) = true :=
          List.any_eq_true.2 ⟨r, hr, hp⟩
        rw [hany] at this
        cases this
      refine ⟨_, (a.Create k now t salt s).2.1.toAuthRow.scan, rfl, ?_, rfl, ?_, ?_⟩
      · simp [Auth.Get, Auth.GetWithHash, Store.authByHash, Auth.Create, hash, hu, ha,
          Store.InsertAuth, hany, List.filter_append, hnil, SelectOne]
      · simp [Auth.Create, hash, hu, ha, Store.InsertAuth, hany, AuthRow.scan, specAnonymousKey]
      · simp [Auth.Authenticated, Auth.Create, hash, hu, ha, Store.InsertAuth, hany, AuthRow.scan]

/-- C23 (code defect). `Status.Scan` on the bytes of "Accepted", with a receiver that
holds the empty status, returns a nil error and leaves the receiver empty; so does it on
every source, whatever the receiver holds. -/
theorem Scan_leaves_receiver :
    Status.Scan "" "Accepted" = .ok ""
    ∧ ∀ (s : Status) (b : String), Status.Scan s b = .ok s :=
  ⟨rfl, fun _ _ => rfl⟩

/-- The credential `Auth.Create` builds is always authorized, whatever the caller set. -/
theorem Auth_Create_Authorized (k : Crypto) (now : Time) (t salt : String) (s : Store)
    (a : Auth) : (a.Create k now t salt s).2.1.Authorized = true := by
  simp only [Auth.Create]
  split <;> rfl

end profile

namespace main

open profile (Store)

/-- With a nil status pointer `changeStatus` panics, on every store and request. -/
theorem changeStatus_nil_panics (e : Env) (s : Store) (u : IdParam) (c : Context) :
    changeStatus e s u none c = (.panic, s) := rfl

/-- With a status outside Pending, Accepted, Declined `changeStatus` answers `BadRequest`
and leaves the store as it was. -/
theorem changeStatus_invalid_status (e : Env) (s : Store) (u : IdParam) (st : profile.Status)
    (c : Context) (h : profile.Statuses st = false) :
    ∃ msg, changeStatus e s u (some st) c = (.fail (.BadRequest msg), s) :=
  ⟨"'" ++ st ++ "' doesn't appear to be a valid status: "
      ++ ", ".intercalate profile.StatusStrings,
    by simp [changeStatus, h, error400]⟩

/-- C24 (code defect). Called with a nil status pointer on `storeAttendees`, `changeStatus`
does not return the 400 of its `s == nil` guard: it dereferences the pointer first and
panics. Called with the status "Maybe" it answers `BadRequest` and leaves the store. -/
theorem changeStatus_nil_status :
    changeStatus demoEnv storeAttendees (.valid 1) none contextBo = (.panic, storeAttendees)
    ∧ (¬ ∃ msg, (changeStatus demoEnv storeAttendees (.valid 1) none contextBo).1
        = .fail (.BadRequest msg))
    ∧ changeStatus demoEnv storeAttendees (.valid 1) (some "Maybe") contextBo
        = (.fail (.BadRequest
            "'Maybe' doesn't appear to be a valid status: Pending, Accepted, Declined"),
           storeAttendees) := by
  refine ⟨rfl, ?_, by decide⟩
  rintro ⟨msg, h⟩
  cases h

/-- C26 (code defect). In `storePhoto` photo 1 belongs to profile 1. "bo" (profile 2)
creates an invite whose first message shows photo 1: the handler `invite` answers 200,
the message is stored with sender 2 and photo 1, and the invite it returns carries a
signed URL of that photo. -/
theorem invite_first_message_foreign_photo :
    storePhoto.photo = [⟨1, 1, 100, "hrefAl", "portrait"⟩]
    ∧ contextBo.Profile.Id = 2
    ∧ (invite demoEnv storePhoto inviteForeignPhoto contextBo).2.message
        = [⟨1, 100, 2, 2, some 1, "nice photo"⟩]
    ∧ (∃ out, (invite demoEnv storePhoto inviteForeignPhoto contextBo).1
          = .ok 200 none (.invite out)
        ∧ out.Messages.map (fun m => m.Photo) = [some viewPhoto1])
    ∧ (∃ msg, addMessage demoEnv storePhoto (.valid 1) ⟨some 1, "nice photo"⟩ contextBo
        = (.fail (.BadRequest msg), storePhoto)) := by
  refine ⟨by decide, by decide, by decide, ?_,
    ⟨"'1' is not a valid Photo Id.", by decide⟩⟩
  exact ⟨⟨[], 2, { Profile.zero with Id := 2, Created := 100 }, true, 5000, none, 100, "roof",
    [⟨1, 100, { Profile.zero with Id := 2, Created := 100 }, some viewPhoto1, "nice photo"⟩]⟩,
    by decide, rfl⟩

/-- C27 (code defect). On `storeAlBo` no credential matches the device secret "dev"; "bo"
asks `createAuth` for it with the name "phone" and `Authorized = false`. The stored
credential is bound to profile 2 and carries the name "phone", but `Authorized = true`. -/
theorem createAuth_stores_authorized :
    deviceUnauthorized.Authorized = false
    ∧ storeAlBo.authByHash (profile.specAnonymousKey demoCrypto "dev") = []
    ∧ (createAuth demoEnv "T6" "salt6" storeAlBo deviceUnauthorized contextBo).2.authByHash
        (profile.specAnonymousKey demoCrypto "dev")
        = [⟨"hex:sha512:nx7sn3ks67La72&2dev", some 100, some 100, some 100, 2, "phone", none,
            some "T6", true⟩] := by
  refine ⟨rfl, by decide, by decide⟩

end main

namespace profile

theorem count_flatMap_profiles (s : Store) (hk : s.ProfileKeys) (p : ProfileRow)
    (hp : p ∈ s.profile) : ∀ l : List Freetime,
    ((l.flatMap (fun f => s.profile.filter (fun q => f.Profile == q.Id))).filter
        (fun q => q.Id == p.Id)).length
      = (l.filter (fun f => f.Profile == p.Id)).length
  | [] => rfl
  | f :: l => by
    rw [List.flatMap_cons, List.filter_append, List.length_append, count_flatMap_profiles s hk p hp l,
      List.filter_filter]
    by_cases hf : f.Profile = p.Id
    · have hone : s.profile.filter (fun q => q.Id == p.Id && f.Profile == q.Id) = [p] := by
        refine filter_singleton_of_pairwise ?_ hk hp (by simp [hf])
        rintro a b hab ⟨ha, hb⟩
        simp only [Bool.and_eq_true, beq_iff_eq] at ha hb
        exact hab (ha.1.trans hb.1.symm)
      rw [hone]
      simp only [hf, beq_self_eq_true, List.filter_cons_of_pos, List.length_cons,
        List.length_nil]
      omega
    · have hnone : s.profile.filter (fun q => q.Id == p.Id && f.Profile == q.Id) = [] := by
        rw [List.filter_eq_nil_iff]
        intro q _ hq
        simp only [Bool.and_eq_true, beq_iff_eq] at hq
        exact hf (hq.2.trans hq.1)
      simp [hnone, hf]

/-- C25, as stated, fails: in `main.storeOverlap` profile 1 has the intervals (1000, 1100)
and (900, 1500), which both strictly contain 1050, and `Search` at 1050 returns profile 1
twice. -/
theorem Search_returns_profile_twice :
    (main.contextAl.Profile.Search main.storeOverlap 1050 [] []).map
        (fun res => res.map (fun r => r.Id)) = .ok [1, 1]
    ∧ ¬ (((main.contextAl.Profile.Search main.storeOverlap 1050 [] []).map
        (fun res => res.map (fun r => r.Id))) = .ok [1]) := by
  refine ⟨by decide, by decide⟩

/-- C25, amended. With unique profile ids, a profile that passes the utype and flag
filters occurs in the result of `Profile.Search` once for each of its `free` rows with
`freestart < from < freeend`: the number of times its id occurs is the number of those
rows. It occurs at most once only when at most one of its intervals strictly contains
the query time. -/
theorem Search_count (s : Store) (me : Profile) (frm : Time) (U F : List Int) (p : ProfileRow)
    (hk : s.ProfileKeys) (hp : p ∈ s.profile)
    (hU : U = [] ∨ ∃ u ∈ U, (⟨u, p.Id⟩ : ProfileUtype) ∈ s.profile_utype)
    (hF : ∀ fl ∈ F, (⟨fl, p.Id⟩ : ProfileFlag) ∈ s.profile_flag) :
    ∃ res, me.Search s frm U F = .ok res ∧
      (res.filter (fun r => r.Id == p.Id)).length
        = (s.free.filter (fun f =>
            f.Profile == p.Id && (decide (f.Start < frm) && decide (frm < f.End)))).length := by
  refine ⟨_, mapM_eq_ok_map (PostGet_scan s) _, ?_⟩
  rw [List.filter_map, List.length_map]
  have hflags : F.all (fun v =>
      s.profile_flag.any (fun pf => pf.profile == p.Id && pf.flag == v)) = true := by
    rw [List.all_eq_true]
    intro v hv
    exact List.any_eq_true.2 ⟨_, hF v hv, by simp⟩
  have hut : (U.length == 0 || s.profile_utype.any (fun pt =>
      pt.profile == p.Id && U.any (fun v => pt.utype == v))) = true := by
    rcases hU with rfl | ⟨u, hu, hmem⟩
    · rfl
    · rw [Bool.or_eq_true]
      right
      exact List.any_eq_true.2 ⟨_, hmem, by
        simp only [Bool.and_eq_true, beq_iff_eq, List.any_eq_true]
        exact ⟨trivial, u, hu, rfl⟩⟩
  have hcount := count_flatMap_profiles s hk p hp (s.free.filter (fun f =>
      decide (f.Start < frm) && decide (frm < f.End)
      && F.all (fun v => s.profile_flag.any (fun pf => pf.profile == f.Profile && pf.flag == v))
      && (U.length == 0
          || s.profile_utype.any (fun pt => pt.profile == f.Profile && U.any (fun v => pt.utype == v)))))
  rw [List.filter_filter] at hcount
  have hcongr : s.free.filter (fun f => f.Profile == p.Id &&
      (decide (f.Start < frm) && decide (frm < f.End)
      && F.all (fun v => s.profile_flag.any (fun pf => pf.profile == f.Profile && pf.flag == v))
      && (U.length == 0
          || s.profile_utype.any (fun pt => pt.profile == f.Profile && U.any (fun v => pt.utype == v)))))
      = s.free.filter (fun f =>
          f.Profile == p.Id && (decide (f.Start < frm) && decide (frm < f.End))) := by
    apply List.filter_congr
    intro f _
    by_cases hf : f.Profile = p.Id
    · simp only [hf, hflags, hut, Bool.and_true]
    · have hb : (f.Profile == p.Id) = false := by simpa using hf
      show (f.Profile == p.Id && _) = (f.Profile == p.Id && _)
      rw [hb]
      rfl
  rw [hcongr] at hcount
  rw [← hcount]
  rfl

end profile

namespace profile

theorem AddAttendees_rows (i : Invite) : ∀ (as : List Attendee) (s : Store),
    (i.AddAttendees as s).2.invite = s.invite
    ∧ (i.AddAttendees as s).2.nextInviteId = s.nextInviteId
    ∧ ∀ r ∈ (i.AddAttendees as s).2.profile_invite,
        r ∈ s.profile_invite ∨ (r.invite = i.Id ∧ ∃ a ∈ as, a.Id = r.profile)
  | [], s => ⟨rfl, rfl, fun _ h => Or.inl h⟩
  | a :: rest, s => by
    cases hany : s.profile_invite.any (fun r => r.profile == a.Id && r.invite == i.Id) with
    | true =>
      simp only [Invite.AddAttendees]
      rw [InsertProfileInvite_duplicate s ⟨a.Id, i.Id, a.Status⟩ hany]
      obtain ⟨h1, h2, h3⟩ := AddAttendees_rows i rest s
      refine ⟨by simpa using h1, by simpa using h2, ?_⟩
      intro r hr
      rcases h3 r (by simpa using hr) with h | ⟨hi, b, hb, hp⟩
      · exact Or.inl h
      · exact Or.inr ⟨hi, b, List.mem_cons_of_mem _ hb, hp⟩
    | false =>
      simp only [Invite.AddAttendees]
      rw [InsertProfileInvite_fresh s ⟨a.Id, i.Id, a.Status⟩ hany]
      obtain ⟨h1, h2, h3⟩ := AddAttendees_rows i rest
        { s with profile_invite := s.profile_invite ++ [⟨a.Id, i.Id, a.Status⟩] }
      refine ⟨h1, h2, ?_⟩
      intro r hr
      rcases h3 r hr with h | ⟨hi, b, hb, hp⟩
      · rcases List.mem_append.1 h with h | h
        · exact Or.inl h
        · rw [List.mem_singleton] at h
          subst h
          exact Or.inr ⟨rfl, a, List.mem_cons_self _ _, rfl⟩
      · exact Or.inr ⟨hi, b, List.mem_cons_of_mem _ hb, hp⟩

end profile

namespace main

open profile (Store)

theorem resolveAttendees_ids (s : Store) : ∀ (ids : List Int) (atts : List profile.Attendee),
    resolveAttendees s ids = .ok atts → ∀ a ∈ atts, a.Id ∈ ids
  | [], atts, h => by
    simp only [resolveAttendees, Except.ok.injEq] at h
    subst h
    intro a ha
    cases ha
  | id :: rest, atts, h => by
    cases hfind : s.profile.find? (fun r => r.Id == id) with
    | none => simp [resolveAttendees, profile.GetProfile, hfind] at h
    | some row =>
      have hid : row.Id = id := by simpa using List.find?_some hfind
      cases hrest : resolveAttendees s rest with
      | error bad =>
        simp [resolveAttendees, profile.GetProfile, hfind, profile.PostGet_scan, hrest] at h
      | ok atts1 =>
        simp only [resolveAttendees, profile.GetProfile, hfind, profile.PostGet_scan, hrest,
          Except.ok.injEq] at h
        subst h
        intro a ha
        rcases List.mem_cons.1 ha with rfl | ha
        · exact List.mem_cons.2 (Or.inl hid)
        · exact List.mem_cons_of_mem _ (resolveAttendees_ids s rest atts1 hrest a ha)

/-- The handler `invite` leaves table `invite` and its serial key alone, or appends one
row with the next key. -/
theorem invite_invite_table (e : Env) (s : Store) (i : NewInvite) (c : Context) :
    ((invite e s i c).2.invite = s.invite ∧ (invite e s i c).2.nextInviteId = s.nextInviteId)
    ∨ ∃ row : profile.InviteRow, (invite e s i c).2.invite = s.invite ++ [row]
        ∧ row.Id = s.nextInviteId ∧ row.Organizer = c.Profile.Id
        ∧ (invite e s i c).2.nextInviteId = s.nextInviteId + 1 := by
  unfold invite
  split
  · exact Or.inl ⟨rfl, rfl⟩
  · split
    · exact Or.inl ⟨rfl, rfl⟩
    · split
      · exact Or.inl ⟨rfl, rfl⟩
      · simp only [profile.Invite.Create, profile.Invite.PostInsert,
          profile.Invite.PostInsertLoop]
        cases hm : i.Message with
        | none =>
          dsimp only
          split
          · exact Or.inr ⟨_, rfl, rfl, rfl, rfl⟩
          · split <;> exact Or.inr ⟨_, rfl, rfl, rfl, rfl⟩
        | some msg =>
          simp only [profile.Message.Create]
          split
          · exact Or.inr ⟨_, rfl, rfl, rfl, rfl⟩
          · split <;> exact Or.inr ⟨_, rfl, rfl, rfl, rfl⟩

/-- The handler `addAttendees` leaves table `invite` alone, and every attendee row it
adds is a row of an invite of the table that the actor organizes, for a profile of the
request's list. -/
theorem addAttendees_rows (e : Env) (s : Store) (u : IdParam) (as : List Int) (c : Context) :
    (addAttendees e s u as c).2.invite = s.invite
    ∧ (addAttendees e s u as c).2.nextInviteId = s.nextInviteId
    ∧ ∀ r ∈ (addAttendees e s u as c).2.profile_invite,
        r ∈ s.profile_invite
        ∨ ((∃ row ∈ s.invite, row.Id = r.invite ∧ row.Organizer = c.Profile.Id)
            ∧ r.profile ∈ as) := by
  cases u with
  | absent => exact ⟨rfl, rfl, fun _ h => Or.inl h⟩
  | malformed raw => exact ⟨rfl, rfl, fun _ h => Or.inl h⟩
  | valid id =>
    cases hget : profile.GetInvite s id with
    | error err =>
      have : (addAttendees e s (.valid id) as c).2 = s := by
        by_cases hnf : err = .notFound <;> simp [addAttendees, lookupInvite, hget, hnf]
      rw [this]
      exact ⟨rfl, rfl, fun _ h => Or.inl h⟩
    | ok ii =>
      obtain ⟨hid, hmem, _⟩ := profile.GetInvite_ok hget
      by_cases horg : ii.Organizer = c.Profile.Id
      · cases hres : resolveAttendees s as with
        | error bad =>
          have : (addAttendees e s (.valid id) as c).2 = s := by
            simp [addAttendees, lookupInvite, hget, horg, hres]
          rw [this]
          exact ⟨rfl, rfl, fun _ h => Or.inl h⟩
        | ok atts =>
          have hstore : (addAttendees e s (.valid id) as c).2 = (ii.AddAttendees atts s).2 := by
            simp only [addAttendees, lookupInvite, hget, horg, hres, ne_eq, not_true_eq_false,
              if_false]
            split
            · rename_i h1
              rw [h1]
            · rename_i h1
              rw [h1]
              split
              · rfl
              · split <;> rfl
          rw [hstore]
          obtain ⟨h1, h2, h3⟩ := profile.AddAttendees_rows ii atts s
          refine ⟨h1, h2, ?_⟩
          intro r hr
          rcases h3 r hr with h | ⟨hi, a, ha, hp⟩
          · exact Or.inl h
          · refine Or.inr ⟨⟨ii.toInviteRow, hmem, hi.symm, horg⟩, ?_⟩
            rw [← hp]
            exact resolveAttendees_ids s as atts hres a ha
      · have : (addAttendees e s (.valid id) as c).2 = s := by
          simp [addAttendees, lookupInvite, hget, horg]
        rw [this]
        exact ⟨rfl, rfl, fun _ h => Or.inl h⟩

end main

namespace main

open profile (Store)

/-- C22, at a concrete input: the device credential created on `storeAlBo` for the secret
"dev" is found again by `Auth.Get` with the same secret. -/
theorem anonymous_hash_is_lookup_key_witness :
    (authDevice.Create demoCrypto 100 "T5" "salt5" storeAlBo).1 = .ok ()
    ∧ ∃ probe found, profile.NewAuth (some "dev") none = some probe
        ∧ probe.Get demoCrypto (authDevice.Create demoCrypto 100 "T5" "salt5" storeAlBo).2.2
            = .ok found
        ∧ found.toAuthRow
            = (authDevice.Create demoCrypto 100 "T5" "salt5" storeAlBo).2.1.toAuthRow
        ∧ found.Hash = profile.specAnonymousKey demoCrypto "dev"
        ∧ found.Authenticated demoCrypto = true :=
  ⟨by decide,
   (profile.anonymous_hash_is_lookup_key demoCrypto "dev").2.2 100 "T5" "salt5" storeAlBo
     authDevice rfl rfl (by decide)⟩

/-- C25, amended, at a concrete input: on `storeOverlap` the profile of "al" has two
intervals around the time 1050 and occurs twice in the result. -/
theorem Search_count_witness :
    storeOverlap.ProfileKeys
    ∧ (storeOverlap.free.filter (fun f =>
        f.Profile == (1 : Int) && (decide (f.Start < 1050) && decide (1050 < f.End)))).length = 2
    ∧ ∃ res, contextAl.Profile.Search storeOverlap 1050 [] [] = .ok res ∧
        (res.filter (fun r => r.Id == contextAl.Profile.toProfileRow.Id)).length
          = (storeOverlap.free.filter (fun f =>
              f.Profile == contextAl.Profile.toProfileRow.Id
                && (decide (f.Start < 1050) && decide (1050 < f.End)))).length :=
  ⟨by unfold Store.ProfileKeys; decide, by decide,
   profile.Search_count storeOverlap contextAl.Profile 1050 [] [] contextAl.Profile.toProfileRow
     (by unfold Store.ProfileKeys; decide) (by decide) (Or.inl rfl)
     (fun _ h => by cases h)⟩

end main

namespace main

open profile (Store)

/-- The handler `invite` keeps the invite keys and the absence of organizer rows. -/
theorem invite_keeps_organizer_free (e : Env) (s : Store) (i : NewInvite) (c : Context)
    (hk : s.InviteKeys) (ho : s.OrganizerNotAttendee) :
    (invite e s i c).2.InviteKeys ∧ (invite e s i c).2.OrganizerNotAttendee := by
  obtain ⟨hpair, hlt, hfk⟩ := hk
  have hpi := invite_profile_invite_unchanged e s i c
  rcases invite_invite_table e s i c with ⟨h1, h2⟩ | ⟨row, h1, hid, _, h2⟩
  · refine ⟨⟨?_, ?_, ?_⟩, ?_⟩
    · rw [h1]
      exact hpair
    · rw [h1, h2]
      exact hlt
    · rw [h1, hpi]
      exact hfk
    · unfold Store.OrganizerNotAttendee
      rw [h1, hpi]
      exact ho
  · have hfresh : ∀ r ∈ s.profile_invite, r.invite ≠ row.Id := by
      intro r hr heq
      obtain ⟨old, hold, hoid⟩ := hfk r hr
      have := hlt old hold
      omega
    refine ⟨⟨?_, ?_, ?_⟩, ?_⟩
    · rw [h1, List.pairwise_append]
      refine ⟨hpair, List.pairwise_singleton _ _, ?_⟩
      intro a ha b hb
      rw [List.mem_singleton] at hb
      subst hb
      have := hlt a ha
      omega
    · rw [h1, h2]
      intro r hr
      rcases List.mem_append.1 hr with hr | hr
      · have := hlt r hr
        omega
      · rw [List.mem_singleton] at hr
        subst hr
        omega
    · rw [h1, hpi]
      intro r hr
      obtain ⟨old, hold, hoid⟩ := hfk r hr
      exact ⟨old, List.mem_append_left _ hold, hoid⟩
    · unfold Store.OrganizerNotAttendee
      rw [h1, hpi]
      intro r0 hr0 r hr heq
      rcases List.mem_append.1 hr0 with hr0 | hr0
      · exact ho r0 hr0 r hr heq
      · rw [List.mem_singleton] at hr0
        subst hr0
        exact absurd heq (hfresh r hr)

/-- The handler `addAttendees` keeps the invite keys and the absence of organizer rows
when the actor is not in the request's list. -/
theorem addAttendees_keeps_organizer_free (e : Env) (s : Store) (u : IdParam) (as : List Int)
    (c : Context) (hself : c.Profile.Id ∉ as)
    (hk : s.InviteKeys) (ho : s.OrganizerNotAttendee) :
    (addAttendees e s u as c).2.InviteKeys ∧ (addAttendees e s u as c).2.OrganizerNotAttendee := by
  obtain ⟨hpair, hlt, hfk⟩ := hk
  obtain ⟨h1, h2, h3⟩ := addAttendees_rows e s u as c
  refine ⟨⟨?_, ?_, ?_⟩, ?_⟩
  · rw [h1]
    exact hpair
  · rw [h1, h2]
    exact hlt
  · rw [h1]
    intro r hr
    rcases h3 r hr with h | ⟨⟨row, hrow, hid, _⟩, _⟩
    · exact hfk r h
    · exact ⟨row, hrow, hid⟩
  · unfold Store.OrganizerNotAttendee
    rw [h1]
    intro r0 hr0 r hr heq
    rcases h3 r hr with h | ⟨⟨row, hrow, hid, horg⟩, hin⟩
    · exact ho r0 hr0 r h heq
    · have hsame : row = r0 := by
        by_contra hne
        have hsym : Symmetric (fun a b : profile.InviteRow => a.Id ≠ b.Id) :=
          fun _ _ h => Ne.symm h
        exact hpair.forall hsym hrow hr0 hne (hid.trans heq)
      subst hsame
      intro hp
      rw [horg] at hp
      exact hself (hp ▸ hin)

/-- Every store reachable through `invite` and `addAttendees` calls whose actor is not in
the request's list has unique invite keys and no organizer among the attendee rows. -/
theorem reachable_organizer_free (s : Store) (h : ReachableNoSelf s) :
    s.InviteKeys ∧ s.OrganizerNotAttendee := by
  induction h with
  | start s h1 h2 =>
    refine ⟨⟨?_, ?_, ?_⟩, ?_⟩
    · rw [h1]
      exact List.Pairwise.nil
    · rw [h1]
      intro r hr
      cases hr
    · rw [h2]
      intro r hr
      cases hr
    · unfold Store.OrganizerNotAttendee
      rw [h1]
      intro r hr
      cases hr
  | invite s e i c _ ih => exact invite_keeps_organizer_free e s i c ih.1 ih.2
  | addAttendees s e u as c _ hself ih =>
    exact addAttendees_keeps_organizer_free e s u as c hself ih.1 ih.2

/-- C21, counterexample. Starting from a store without invites, "al" creates invite 1 with
`invite` and then calls `addAttendees` on it with the own profile id in the list: both
calls succeed and the store then holds the attendee row (1, 1, Pending) of invite 1,
whose organizer is profile 1. -/
theorem addAttendees_adds_organizer :
    storeAlBoCy.invite = [] ∧ storeAlBoCy.profile_invite = []
    ∧ storeSelfInvited
        = (addAttendees demoEnv (invite demoEnv storeAlBoCy inviteBoCy contextAl).2
            (.valid 1) [1] contextAl).2
    ∧ (∃ row ∈ storeSelfInvited.invite, row.Id = 1 ∧ row.Organizer = 1)
    ∧ (⟨1, 1, "Pending"⟩ : profile.ProfileInvite) ∈ storeSelfInvited.profile_invite
    ∧ ¬ storeSelfInvited.OrganizerNotAttendee := by
  refine ⟨rfl, rfl, rfl, by decide, by decide, ?_⟩
  unfold Store.OrganizerNotAttendee
  decide

/-- C21, amended. In every state reached from a store without invites through `invite`
and through `addAttendees` calls whose list does not name the calling profile, the
organizer of an invite is never one of that invite's attendee rows. -/
theorem organizer_not_attendee_unless_listed (s : Store) (h : ReachableNoSelf s) :
    s.OrganizerNotAttendee :=
  (reachable_organizer_free s h).2

/-- C21, amended, at a concrete input: `storeAttendees` is reached by one `invite` and one
`addAttendees` of "al" for the profiles 2 and 3. -/
theorem organizer_not_attendee_unless_listed_witness :
    ReachableNoSelf storeAttendees ∧ storeAttendees.profile_invite ≠ []
    ∧ storeAttendees.OrganizerNotAttendee :=
  ⟨ReachableNoSelf.addAttendees storeInvite demoEnv (.valid 1) [2, 3] contextAl
      (ReachableNoSelf.invite storeAlBoCy demoEnv inviteBoCy contextAl
        (ReachableNoSelf.start storeAlBoCy rfl rfl)) (by decide),
   by decide,
   organizer_not_attendee_unless_listed storeAttendees
     (ReachableNoSelf.addAttendees storeInvite demoEnv (.valid 1) [2, 3] contextAl
      (ReachableNoSelf.invite storeAlBoCy demoEnv inviteBoCy contextAl
        (ReachableNoSelf.start storeAlBoCy rfl rfl)) (by decide))⟩

end main
